import Mathlib

/-!
# Orbiit: platform identifier, banner parser and WBFS splitter

Shallow embedding of the signature-based identifier (`forge_core/platform_identifier.cpp`),
of the banner parser (`forge_core/banner_parser.cpp`) and of `WbfsSplitter::AnalyzeFile`
(`native/forge_logic.cpp`).

Conventions of the embedding
* a byte is a `Nat` (the C code only compares bytes for equality and copies them);
* a pointer to readable memory is the function `Nat → Nat` giving the byte at each offset
  from the pointer, `p + k` is `offsetPtr p k`; the size of the buffer behind a pointer is
  the separate `header_size` argument, as in the C code, and a read at an offset past that
  size yields whatever byte the memory holds there;
* a possibly-null pointer is an `Option`;
* a `char[n]` field is the list of its `n` bytes; the text a reader of the C string
  sees is `cstr`, the bytes before the first NUL, when the array holds one; a `%s` that
  finds none reads on into the bytes that follow the array (`percent_s`);
* a read outside a block has a value here and may fault in the process: the accesses of
  the banner parser to its two heap blocks are listed by `parse_opening_banner_accesses`,
  and `in_bounds` says that all of them stay inside.
-/

namespace Orbiit

/-- Detected platform types (`Platform` enum of `platform_identifier.h`). -/
inductive Platform where
  | PLATFORM_UNKNOWN
  | PLATFORM_WII
  | PLATFORM_GAMECUBE
  | PLATFORM_WII_U
  | PLATFORM_NES
  | PLATFORM_SNES
  | PLATFORM_N64
  | PLATFORM_GAMEBOY
  | PLATFORM_GBC
  | PLATFORM_GBA
  | PLATFORM_NDS
  | PLATFORM_3DS
  | PLATFORM_PSP
  | PLATFORM_PS1
  | PLATFORM_PS2
  | PLATFORM_GENESIS
  | PLATFORM_DREAMCAST
  deriving DecidableEq

/-- Disc/ROM format detection (`DiscFormat` enum of `platform_identifier.h`). -/
inductive DiscFormat where
  | FORMAT_UNKNOWN
  | FORMAT_ISO
  | FORMAT_WBFS
  | FORMAT_RVZ
  | FORMAT_WUD
  | FORMAT_WUX
  | FORMAT_NKIt
  | FORMAT_CIA
  | FORMAT_3DSX
  | FORMAT_CSO
  | FORMAT_CHD
  | FORMAT_FOLDER
  deriving DecidableEq

open Platform DiscFormat

/-- Game identification result (`GameIdentity` struct). `title_id` is `char[8]`,
`game_title` is `char[256]`, both kept as their raw bytes. -/
structure GameIdentity where
  platform : Platform
  format : DiscFormat
  title_id : List Nat
  game_title : List Nat
  region : Nat
  disc_number : Nat
  file_size : Nat
  is_scrubbed : Bool
  requires_cios : Bool
  deriving DecidableEq

/-- The record after `memset(result, 0, sizeof(GameIdentity))`. -/
def GameIdentity.zero : GameIdentity :=
  { platform := PLATFORM_UNKNOWN
    format := FORMAT_UNKNOWN
    title_id := List.replicate 8 0
    game_title := List.replicate 256 0
    region := 0
    disc_number := 0
    file_size := 0
    is_scrubbed := false
    requires_cios := false }

/-! ## Magic byte definitions -/

def WII_MAGIC : List Nat := [0x5D, 0x1C, 0x9E, 0xA3]
def GC_MAGIC : List Nat := [0xC2, 0x33, 0x9F, 0x3D]
/-- The bytes of "WBFS". -/
def WBFS_MAGIC : List Nat := [0x57, 0x42, 0x46, 0x53]
/-- The bytes of "RVZ" and a NUL. -/
def RVZ_MAGIC : List Nat := [0x52, 0x56, 0x5A, 0x00]
/-- The bytes of "WUP" and a NUL. -/
def WUD_MAGIC : List Nat := [0x57, 0x55, 0x50, 0x00]
/-- The bytes of "NES" and 0x1A. -/
def NES_MAGIC : List Nat := [0x4E, 0x45, 0x53, 0x1A]
def GB_LOGO : List Nat := [0xCE, 0xED, 0x66, 0x66, 0xCC, 0x0D, 0x00, 0x0B]
def GBA_LOGO : List Nat := [0x24, 0xFF, 0xAE, 0x51, 0x69, 0x9A, 0xA2, 0x21]
def NDS_LOGO : List Nat := [0x24, 0xFF, 0xAE, 0x51]
def N64_MAGIC_Z64 : List Nat := [0x80, 0x37, 0x12, 0x40]
def N64_MAGIC_N64 : List Nat := [0x40, 0x12, 0x37, 0x80]
def N64_MAGIC_V64 : List Nat := [0x37, 0x80, 0x40, 0x12]
/-- The bytes of "SEGA". -/
def GENESIS_MAGIC : List Nat := [0x53, 0x45, 0x47, 0x41]

/-! ## Helper functions -/

/-- The pointer `p + k`. -/
def offsetPtr (p : Nat → Nat) (k : Nat) : Nat → Nat := fun i => p (k + i)

/-- The `len` bytes found at offsets `off .. off + len - 1` from a pointer. -/
def bytesAt (mem : Nat → Nat) (off len : Nat) : List Nat :=
  (List.range len).map fun i => mem (off + i)

/-- Memory that holds the given bytes from offset 0 on, and zero bytes after them. -/
def memOf (bytes : List Nat) : Nat → Nat := fun i => bytes.getD i 0

/-- The function `check_magic`: `false` when the pattern does not fit below `header_size`,
else `memcmp(header + offset, magic, magic_len) == 0`. -/
def check_magic (header : Nat → Nat) (offset : Nat) (magic : List Nat)
    (magic_len header_size : Nat) : Bool :=
  if offset + magic_len > header_size then false
  else decide (bytesAt header offset magic_len = magic.take magic_len)

/-- The trimming loop of `extract_string`:
`for (i = len; i > 0; i--) if (dst[i-1] is a space or NUL) dst[i-1] = 0; else break;`. -/
def trimLoop : Nat → List Nat → List Nat
  | 0, dst => dst
  | i + 1, dst =>
    if dst.getD i 0 = 0x20 ∨ dst.getD i 0 = 0 then trimLoop i (dst.set i 0) else dst

/-- The function `extract_string(src, dst, len)`: `memcpy(dst, src, len)`, `dst[len] = 0`,
then the trimming loop. The value is the new content of the array `dst` (which has more
than `len` bytes at every call site). -/
def extract_string (src : Nat → Nat) (dst : List Nat) (len : Nat) : List Nat :=
  trimLoop len ((bytesAt src 0 len ++ dst.drop len).set len 0)

/-- The function `strcpy(dst, s)` for a literal `s`: the bytes of `s` and the terminator
are written over the start of the array `dst`. -/
def strcpy (dst s : List Nat) : List Nat :=
  s ++ 0 :: dst.drop (s.length + 1)

/-- The text of a C string: the bytes before the first NUL. (Every string this code
writes into a record or a buffer is NUL-terminated inside its array.) -/
def cstr (buf : List Nat) : List Nat := buf.takeWhile (· ≠ 0)

/-- The value of `*(uint32_t*)(header + off)` on a little-endian host (the targets of
this repository, Windows on x86/x64/ARM64, are little-endian). -/
def read_u32_le (header : Nat → Nat) (off : Nat) : Nat :=
  (header off + 256 * header (off + 1) + 65536 * header (off + 2)
    + 16777216 * header (off + 3)) % 2 ^ 32

/-- The bytes of "NES ROM". -/
def NES_ROM : List Nat := [0x4E, 0x45, 0x53, 0x20, 0x52, 0x4F, 0x4D]

/-! ## Main identification logic -/

/-- The body of `identify_from_header` after the argument check and the `memset`:
the returned flag and the content of `*result`. -/
def identify_rules (header : Nat → Nat) (header_size : Nat) : Bool × GameIdentity := Id.run do
  let result := GameIdentity.zero
  -- Try WBFS first (container format)
  if check_magic header 0 WBFS_MAGIC 4 header_size then
    let result := { result with platform := PLATFORM_WII, format := FORMAT_WBFS }
    -- WBFS header contains disc header at offset 0x200
    if header_size ≥ 0x200 + 64 then
      return (true, { result with
        title_id := extract_string (offsetPtr header 0x200) result.title_id 6
        game_title := extract_string (offsetPtr header (0x200 + 0x20)) result.game_title 64
        region := header (0x200 + 3) })
    return (true, result)
  -- Try RVZ compressed format
  if check_magic header 0 RVZ_MAGIC 3 header_size then
    return (true, { result with format := FORMAT_RVZ, platform := PLATFORM_WII })
  -- Try Wii U WUD/WUX
  if check_magic header 0 WUD_MAGIC 3 header_size then
    return (true, { result with platform := PLATFORM_WII_U, format := FORMAT_WUD })
  -- Try Wii/GC ISO (check magic at offset 0x1C)
  if header_size ≥ 0x20 then
    if check_magic header 0x1C WII_MAGIC 4 header_size then
      return (true, { result with
        platform := PLATFORM_WII
        format := FORMAT_ISO
        title_id := extract_string header result.title_id 6
        game_title := extract_string (offsetPtr header 0x20) result.game_title 64
        region := header 3
        disc_number := header 6 })
    if check_magic header 0x1C GC_MAGIC 4 header_size then
      return (true, { result with
        platform := PLATFORM_GAMECUBE
        format := FORMAT_ISO
        title_id := extract_string header result.title_id 6
        game_title := extract_string (offsetPtr header 0x20) result.game_title 64
        region := header 3
        disc_number := header 6 })
  -- Try NES
  if check_magic header 0 NES_MAGIC 4 header_size then
    return (true, { result with
      platform := PLATFORM_NES
      format := FORMAT_UNKNOWN
      game_title := strcpy result.game_title NES_ROM })
  -- Try N64
  if check_magic header 0 N64_MAGIC_Z64 4 header_size ||
     check_magic header 0 N64_MAGIC_N64 4 header_size ||
     check_magic header 0 N64_MAGIC_V64 4 header_size then
    return (true, { result with
      platform := PLATFORM_N64
      format := FORMAT_UNKNOWN
      game_title := extract_string (offsetPtr header 0x20) result.game_title 20
      title_id := extract_string (offsetPtr header 0x3B) result.title_id 4 })
  -- Try Game Boy (check Nintendo logo at 0x104)
  if header_size ≥ 0x150 then
    if check_magic header 0x104 GB_LOGO 8 header_size then
      -- Check if GBC (0x143 flag)
      return (true, { result with
        platform := if header 0x143 = 0x80 ∨ header 0x143 = 0xC0 then PLATFORM_GBC
                    else PLATFORM_GAMEBOY
        format := FORMAT_UNKNOWN
        game_title := extract_string (offsetPtr header 0x134) result.game_title 16 })
  -- Try GBA (Nintendo logo at 0x04)
  if header_size ≥ 0xC0 then
    if check_magic header 0x04 GBA_LOGO 8 header_size then
      return (true, { result with
        platform := PLATFORM_GBA
        format := FORMAT_UNKNOWN
        game_title := extract_string (offsetPtr header 0xA0) result.game_title 12
        title_id := extract_string (offsetPtr header 0xAC) result.title_id 4 })
  -- Try NDS
  if header_size ≥ 0x160 then
    -- Check for valid NDS header by looking at ROM size field
    let rom_size := read_u32_le header 0x80
    if rom_size > 0 ∧ rom_size < 0x20000000 then
      -- Additional validation: check for Nintendo logo at 0xC0
      if check_magic header 0xC0 NDS_LOGO 4 header_size then
        return (true, { result with
          platform := PLATFORM_NDS
          format := FORMAT_UNKNOWN
          game_title := extract_string header result.game_title 12
          title_id := extract_string (offsetPtr header 0x0C) result.title_id 4 })
  -- Try Sega Genesis (SEGA at 0x100)
  if header_size ≥ 0x110 then
    if check_magic header 0x100 GENESIS_MAGIC 4 header_size then
      return (true, { result with
        platform := PLATFORM_GENESIS
        format := FORMAT_UNKNOWN
        game_title := extract_string (offsetPtr header 0x120) result.game_title 48 })
  return (false, result)

/-- The function `identify_from_header(header, header_size, result)`. The value is the
returned flag and the content of `*result` after the call (`none` when `result` is the
null pointer). -/
def identify_from_header (header : Option (Nat → Nat)) (header_size : Nat)
    (result : Option GameIdentity) : Bool × Option GameIdentity :=
  match header, result with
  | some header, some result =>
    if header_size < 64 then (false, some result)
    else
      -- memset(result, 0, sizeof(GameIdentity)) and the rules
      ((identify_rules header header_size).1, some (identify_rules header header_size).2)
  | _, _ => (false, result)

/-- The function `identify_from_file(file_path, result)`. `file` is the content of the file
at `file_path` when `fopen` succeeds and `none` when it fails; `stack` is what the
uninitialised array `uint8_t header[512]` holds before `fread`; `result` is the record
behind the (non-null) pointer. `ftell` at the end of the file is taken to be the file
length. The value is the returned flag and the content of `*result` after the call. -/
def identify_from_file (file : Option (List Nat)) (stack : Nat → Nat) (result : GameIdentity) :
    Bool × GameIdentity :=
  match file with
  | none => (false, result)
  | some bytes =>
    -- size_t bytes_read = fread(header, 1, sizeof(header), f);
    let bytes_read := min 512 bytes.length
    let header : Nat → Nat := fun i => if i < bytes_read then bytes.getD i 0 else stack i
    -- result->file_size = ftell(f);
    let result := { result with file_size := bytes.length % 2 ^ 64 }
    let r := identify_from_header (some header) bytes_read (some result)
    (r.1, r.2.getD result)

/-! ## Organized output path -/

/-- The bytes of an ASCII string literal of the source. -/
def ascii (s : String) : List Nat := s.toList.map Char.toNat

/-- The call `snprintf(buf, size, ...)` whose formatted text is `text` (without NUL bytes):
at most `size - 1` bytes of the text and a terminator are written over the start of `buf`. -/
def snprintf (buf : List Nat) (size : Nat) (text : List Nat) : List Nat :=
  if size = 0 then buf
  else text.take (size - 1) ++ 0 :: buf.drop ((text.take (size - 1)).length + 1)

/-- The text formatted by the `switch (identity->platform)` of `get_organized_path`: the
format string of each `case` with its `%s` arguments filled in. -/
def path_text (platform : Platform) (drive_root game_title title_id : List Nat) : List Nat :=
  match platform with
  | PLATFORM_WII =>
    drive_root ++ ascii "/wbfs/" ++ game_title ++ ascii " [" ++ title_id ++ ascii "]/"
      ++ title_id ++ ascii ".wbfs"
  | PLATFORM_GAMECUBE =>
    drive_root ++ ascii "/games/" ++ game_title ++ ascii " [" ++ title_id ++ ascii "]/game.iso"
  | PLATFORM_WII_U => drive_root ++ ascii "/wiiu/games/" ++ title_id ++ ascii "/"
  | PLATFORM_NES => drive_root ++ ascii "/roms/NES/" ++ game_title ++ ascii ".nes"
  | PLATFORM_SNES => drive_root ++ ascii "/roms/SNES/" ++ game_title ++ ascii ".sfc"
  | PLATFORM_N64 => drive_root ++ ascii "/roms/N64/" ++ game_title ++ ascii ".z64"
  | PLATFORM_GAMEBOY => drive_root ++ ascii "/roms/GB/" ++ game_title ++ ascii ".gb"
  | PLATFORM_GBC => drive_root ++ ascii "/roms/GBC/" ++ game_title ++ ascii ".gbc"
  | PLATFORM_GBA => drive_root ++ ascii "/roms/GBA/" ++ game_title ++ ascii ".gba"
  | PLATFORM_NDS => drive_root ++ ascii "/roms/NDS/" ++ game_title ++ ascii ".nds"
  | PLATFORM_GENESIS => drive_root ++ ascii "/roms/Genesis/" ++ game_title ++ ascii ".md"
  | _ => drive_root ++ ascii "/roms/Unknown/" ++ game_title

/-- The text that a `%s` conversion prints for a `char` array: the bytes from the start of
`field` up to the first NUL. An array that holds no NUL is not the end of the read: it runs
on into `after`, the bytes that follow the array in memory. The value is `none` when those
hold no NUL either, and the read goes on into memory that this development does not
describe. -/
def percent_s (field after : List Nat) : Option (List Nat) :=
  if 0 ∈ field ++ after then some (cstr (field ++ after)) else none

/-- The `%s` arguments that the format string of a platform's `case` takes, in the order
drive root, game title, title id: the Wii and GameCube formats take all three, the WiiU
format has no game title and the ROM formats have no title id. An argument that the format
does not take is not read, and stands as the empty text. -/
def format_arguments (platform : Platform) (drive_root game_title title_id : Option (List Nat)) :
    Option (List Nat × List Nat × List Nat) :=
  match platform with
  | PLATFORM_WII | PLATFORM_GAMECUBE =>
    match drive_root, game_title, title_id with
    | some drive_root, some game_title, some title_id => some (drive_root, game_title, title_id)
    | _, _, _ => none
  | PLATFORM_WII_U =>
    match drive_root, title_id with
    | some drive_root, some title_id => some (drive_root, [], title_id)
    | _, _ => none
  | _ =>
    match drive_root, game_title with
    | some drive_root, some game_title => some (drive_root, game_title, [])
    | _, _ => none

/-- The function `get_organized_path(identity, drive_root, output_path)`. `drive_root` is
the memory of a C string, as far as the caller owns it. In `GameIdentity` the array
`title_id` is followed directly by the array `game_title`, and that by the bytes `region`
and `disc_number` (all of alignment 1), so a `%s` that finds no NUL in `title_id` prints on
through `game_title`. The value is the returned flag and the content of the `output_path`
buffer after the call; it is `none` when a `%s` argument of the platform's format has no
terminator in the memory described here, where the call reads on past it. -/
def get_organized_path (identity : Option GameIdentity) (drive_root : Option (List Nat))
    (output_path : Option (List Nat)) : Option (Bool × Option (List Nat)) :=
  match identity, drive_root, output_path with
  | some identity, some drive_root, some output_path =>
    match format_arguments identity.platform (percent_s drive_root [])
        (percent_s identity.game_title [identity.region, identity.disc_number])
        (percent_s identity.title_id
          (identity.game_title ++ [identity.region, identity.disc_number])) with
    | some (root, title, id) =>
      some (true, some (snprintf output_path 512 (path_text identity.platform root title id)))
    | none => none
  | _, _, _ => some (false, output_path)

/-! ## Banner parser (`forge_core/banner_parser.cpp`) -/

/-- Decoded banner information (`BannerData` struct). The two `char[128]` arrays are kept
as their bytes; a buffer pointer is `none` when it is NULL and otherwise the content of
the buffer it points to. -/
structure BannerData where
  game_title : List Nat
  game_subtitle : List Nat
  texture_width : Nat
  texture_height : Nat
  rgba_data : Option (List Nat)
  rgba_size : Nat
  pcm_data : Option (List Nat)
  pcm_size : Nat
  deriving DecidableEq

/-- What a call finds outside its arguments: whether `malloc(n)` returns a non-null
pointer, the bytes that lie in memory after the file buffer (`beyond i` is the byte at
offset `i` from the start of the buffer, for `i` at or past the file size), and the bytes
a fresh `malloc` block holds before it is written. -/
structure Heap where
  malloc_ok : Nat → Bool
  beyond : Nat → Nat
  uninit : Nat → Nat

/-- U8 archive magic. -/
def U8_MAGIC : Nat := 0x55AA382D

/-- The byte `p[i]` of a `const uint8_t* p`. -/
def byte (p : Nat → Nat) (i : Nat) : Nat := p i % 256

/-- The function `read_u32_be(p)`: `(p[0] << 24) | (p[1] << 16) | (p[2] << 8) | p[3]`
as a `uint32_t`. -/
def read_u32_be (p : Nat → Nat) : Nat :=
  ((byte p 0 <<< 24) ||| (byte p 1 <<< 16) ||| (byte p 2 <<< 8) ||| byte p 3) % 2 ^ 32

/-- The function `read_u16_be(p)`: `(p[0] << 8) | p[1]` as a `uint16_t`. -/
def read_u16_be (p : Nat → Nat) : Nat :=
  ((byte p 0 <<< 8) ||| byte p 1) % 2 ^ 16

/-- The loop of `utf16be_to_utf8`, with the loop variables `i` and `j` and the array
`dest`; the first argument counts the iterations still allowed (the loop advances `i` by
2 up to `max_len - 1`, so `max_len` iterations are never used up). The value is `dest`
after the final `dest[j] = 0`. -/
def utf16be_loop (src : Nat → Nat) (max_len : Nat) : Nat → Nat → Nat → List Nat → List Nat
  | 0, _, j, dest => dest.set j 0
  | fuel + 1, i, j, dest =>
    if i < max_len - 1 ∧ j < 63 then
      let code := ((byte src i <<< 8) ||| byte src (i + 1)) % 2 ^ 16
      if code = 0 then dest.set j 0
      else if code < 0x80 then utf16be_loop src max_len fuel (i + 2) (j + 1) (dest.set j code)
      else utf16be_loop src max_len fuel (i + 2) (j + 1) (dest.set j 0x3F)
    else dest.set j 0

/-- The function `utf16be_to_utf8(src, dest, max_len)`; the value is the array `dest`
after the call. -/
def utf16be_to_utf8 (src : Nat → Nat) (dest : List Nat) (max_len : Nat) : List Nat :=
  utf16be_loop src max_len max_len 0 0 dest

/-- The call `strncpy(dst, s, n)` for a literal `s`: the bytes of `s` (at most `n`) and
then NUL bytes up to `n` bytes are written over the start of `dst`. -/
def strncpy (dst s : List Nat) (n : Nat) : List Nat :=
  s.take n ++ List.replicate (n - s.length) 0 ++ dst.drop n

/-! ### CMPR decoding -/

/-- The arrays `r[4], g[4], b[4], a[4]` of one block, as the map from the index to
`(r[idx], g[idx], b[idx], a[idx])`; every entry is stored in a `uint8_t`. -/
def cmpr_palette (c0 c1 : Nat) (idx : Nat) : Nat × Nat × Nat × Nat :=
  let r0 := ((c0 >>> 11) <<< 3) % 256
  let g0 := (((c0 >>> 5) &&& 0x3F) <<< 2) % 256
  let b0 := ((c0 &&& 0x1F) <<< 3) % 256
  let r1 := ((c1 >>> 11) <<< 3) % 256
  let g1 := (((c1 >>> 5) &&& 0x3F) <<< 2) % 256
  let b1 := ((c1 &&& 0x1F) <<< 3) % 256
  match idx with
  | 0 => (r0, g0, b0, 255)
  | 1 => (r1, g1, b1, 255)
  | 2 =>
    if c0 > c1 then
      (((2 * r0 + r1) / 3) % 256, ((2 * g0 + g1) / 3) % 256, ((2 * b0 + b1) / 3) % 256, 255)
    else (((r0 + r1) / 2) % 256, ((g0 + g1) / 2) % 256, ((b0 + b1) / 2) % 256, 255)
  | _ =>
    if c0 > c1 then
      (((r0 + 2 * r1) / 3) % 256, ((g0 + 2 * g1) / 3) % 256, ((b0 + 2 * b1) / 3) % 256, 255)
    else (0, 0, 0, 0)

/-- The pixel of a block at row `iy`, column `ix`: `bitPos = 30 - ((iy * 4 + ix) * 2)`,
`idx = (bits >> bitPos) & 0x03`, and the palette entry `idx`. -/
def cmpr_block_pixel (c0 c1 bits iy ix : Nat) : Nat × Nat × Nat × Nat :=
  let bitPos := 30 - ((iy * 4 + ix) * 2)
  let idx := (bits >>> bitPos) &&& 0x03
  cmpr_palette c0 c1 idx

/-- The stores of the two inner loops (`iy`, `ix`) for the block whose top-left pixel is
`(x, y)`: for each of the 16 positions, when `px < texture_width * texture_height`, the
four stores `rgba[0..3]` at `rgba_data + px * 4`, as pairs (byte index, byte). All the
arithmetic is `uint32_t`. -/
def cmpr_block_stores (pixels : Nat → Nat) (w h y x : Nat) : List (Nat × Nat) :=
  let block := offsetPtr pixels ((((y / 4) * (w / 4) + x / 4) * 8) % 2 ^ 32)
  let c0 := read_u16_be block
  let c1 := read_u16_be (offsetPtr block 2)
  let bits := read_u32_be (offsetPtr block 4)
  (List.range 4).flatMap fun iy =>
    (List.range 4).flatMap fun ix =>
      let c := cmpr_block_pixel c0 c1 bits iy ix
      let px := ((y + iy) * w + (x + ix)) % 2 ^ 32
      if px < (w * h) % 2 ^ 32 then
        let rgba := (px * 4) % 2 ^ 32
        [(rgba, c.1), (rgba + 1, c.2.1), (rgba + 2, c.2.2.1), (rgba + 3, c.2.2.2)]
      else []

/-- The stores of the whole CMPR loop nest, in program order: `y` runs over
`0, 4, 8, ...` below `texture_height`, `x` over `0, 4, 8, ...` below `texture_width`. -/
def cmpr_stores (pixels : Nat → Nat) (w h : Nat) : List (Nat × Nat) :=
  (List.range ((h + 3) / 4)).flatMap fun by4 =>
    (List.range ((w + 3) / 4)).flatMap fun bx4 =>
      cmpr_block_stores pixels w h (4 * by4) (4 * bx4)

/-- The pixel that the loop body computes at row `iy`, column `ix` of the block whose
top-left pixel is `(x, y)`. -/
def cmpr_pixel_of_block (pixels : Nat → Nat) (w y x iy ix : Nat) : Nat × Nat × Nat × Nat :=
  let block := offsetPtr pixels ((((y / 4) * (w / 4) + x / 4) * 8) % 2 ^ 32)
  cmpr_block_pixel (read_u16_be block) (read_u16_be (offsetPtr block 2))
    (read_u32_be (offsetPtr block 4)) iy ix

/-- One channel of a pixel: 0 red, 1 green, 2 blue, 3 alpha. -/
def chan (t : Nat × Nat × Nat × Nat) (c : Nat) : Nat :=
  match c with
  | 0 => t.1
  | 1 => t.2.1
  | 2 => t.2.2.1
  | _ => t.2.2.2

/-- The RGBA pixel number `p` of a buffer, when the buffer holds its four bytes. -/
def pixelAt (buf : List Nat) (p : Nat) : Option (Nat × Nat × Nat × Nat) :=
  match buf[4 * p]?, buf[4 * p + 1]?, buf[4 * p + 2]?, buf[4 * p + 3]? with
  | some r, some g, some b, some a => some (r, g, b, a)
  | _, _, _, _ => none

/-- A buffer after a sequence of stores; a store past the end of the buffer leaves the
buffer as it is (it lands in other memory). -/
def store_all (buf : List Nat) (stores : List (Nat × Nat)) : List Nat :=
  stores.foldl (fun buf s => buf.set s.1 s.2) buf

/-- The content of a fresh `malloc` block of `n` bytes. -/
def fresh_block (heap : Heap) (n : Nat) : List Nat := (List.range n).map heap.uninit

/-! ### Archive walk -/

/-- The bytes of ".tpl". -/
def DOT_TPL : List Nat := [0x2E, 0x74, 0x70, 0x6C]

/-- The bytes of "banner.tpl". -/
def BANNER_TPL : List Nat := [0x62, 0x61, 0x6E, 0x6E, 0x65, 0x72, 0x2E, 0x74, 0x70, 0x6C]

/-- The bytes `p[0 .. len - 1]`. -/
def bytesOf (p : Nat → Nat) (len : Nat) : List Nat := (List.range len).map (byte p)

/-- The test `strcmp(name, lit) == 0` for a literal without NUL: the string at `name` is
the literal followed by the terminator. -/
def strcmp_eq (name : Nat → Nat) (lit : List Nat) : Bool :=
  decide (bytesOf name (lit.length + 1) = lit ++ [0])

/-- The test `strstr(name, lit) != NULL` for a non-empty literal without NUL: the search
walks the string at `name` from position `pos` on and stops at its terminator. The first
argument bounds the length walked; it is given the size of the address space. -/
def strstr_from (name : Nat → Nat) (lit : List Nat) : Nat → Nat → Bool
  | 0, _ => false
  | fuel + 1, pos =>
    if byte name pos = 0 then false
    else if bytesOf (offsetPtr name pos) lit.length = lit then true
    else strstr_from name lit fuel (pos + 1)

/-- The size of the address space of a 64-bit process. -/
def ADDRESS_SPACE : Nat := 2 ^ 64

/-- The texture step (lines 102-163) for the matching file node `node` of the archive at
`u8_base`: the record after it. -/
def decode_texture (u8_base node : Nat → Nat) (heap : Heap) (result : BannerData) : BannerData :=
  let data_offset := read_u32_be (offsetPtr node 0x04)
  let tpl_data := offsetPtr u8_base data_offset
  -- Basic TPL Header Check (0x0020AF30)
  if read_u32_be tpl_data = 0x0020AF30 then
    let num_images := read_u32_be (offsetPtr tpl_data 0x04)
    let image_table_offset := read_u32_be (offsetPtr tpl_data 0x08)
    if num_images > 0 then
      let image_header_offset := read_u32_be (offsetPtr tpl_data image_table_offset)
      let img_header := offsetPtr tpl_data image_header_offset
      let texture_height := read_u16_be img_header
      let texture_width := read_u16_be (offsetPtr img_header 0x02)
      let format := read_u32_be (offsetPtr img_header 0x04)
      let pixel_data_offset := read_u32_be (offsetPtr img_header 0x08)
      let pixels := offsetPtr tpl_data pixel_data_offset
      -- result->rgba_size = width * height * 4 (uint32_t); result->rgba_data = malloc(...)
      let rgba_size := (texture_width * texture_height * 4) % 2 ^ 32
      let rgba_data :=
        if heap.malloc_ok rgba_size then some (fresh_block heap rgba_size) else none
      let result := { result with
        texture_height := texture_height
        texture_width := texture_width
        rgba_size := rgba_size
        rgba_data := rgba_data }
      match rgba_data with
      | some block =>
        if format = 14 then
          -- CMPR decoding
          { result with
            rgba_data := some (store_all block (cmpr_stores pixels texture_width texture_height)) }
        else result
      | none => result
    else result
  else result

/-- The node loop (lines 95-166): `i` is the loop variable and the first argument the
number of iterations left (`node_count - i`). On the first node that is not a directory
and whose name is "banner.tpl" or contains ".tpl" the texture step runs and the loop
ends. -/
def node_loop (u8_base nodes strings : Nat → Nat) (heap : Heap) (result : BannerData) :
    Nat → Nat → BannerData
  | 0, _ => result
  | left + 1, i =>
    let node := offsetPtr nodes ((i * 12) % 2 ^ 32)
    let is_dir := byte node 0 = 0x01
    let name_offset := (byte node 1 <<< 16) ||| (byte node 2 <<< 8) ||| byte node 3
    let name := offsetPtr strings name_offset
    if ¬ is_dir ∧ (strcmp_eq name BANNER_TPL ∨ strstr_from name DOT_TPL ADDRESS_SPACE 0) then
      decode_texture u8_base node heap result
    else node_loop u8_base nodes strings heap result left (i + 1)

/-- The test of the node loop on node number `i` (lines 96-101): the node is not a
directory and its name is "banner.tpl" or contains ".tpl". -/
def node_test (nodes strings : Nat → Nat) (i : Nat) : Prop :=
  let node := offsetPtr nodes ((i * 12) % 2 ^ 32)
  let is_dir := byte node 0 = 0x01
  let name_offset := (byte node 1 <<< 16) ||| (byte node 2 <<< 8) ||| byte node 3
  let name := offsetPtr strings name_offset
  ¬ is_dir ∧ (strcmp_eq name BANNER_TPL ∨ strstr_from name DOT_TPL ADDRESS_SPACE 0)

/-- The scan for the U8 magic (lines 80-86): `i` is the loop variable and the first
argument the number of iterations left. The value is `u8_offset` after the loop. -/
def scan_u8 (buffer : Nat → Nat) : Nat → Nat → Nat
  | 0, _ => 0
  | left + 1, i =>
    if read_u32_be (offsetPtr buffer i) = U8_MAGIC then i
    else scan_u8 buffer left (i + 1)

/-- The bytes of "IMET". -/
def IMET : List Nat := [0x49, 0x4D, 0x45, 0x54]

/-- The memory at the pointer `buffer` after `fread`: the bytes of the file, and after
them what the heap holds there. A read at or past the file size is a read outside the
`malloc` block: this value shows what such a read finds when the memory is mapped, and not
the fault of a read where it is not; `parse_opening_banner_accesses` lists the accesses of
a call and `in_bounds` says that none of them leaves its block. -/
def file_buffer (bytes : List Nat) (heap : Heap) : Nat → Nat :=
  fun i => if i < bytes.length then bytes.getD i 0 else heap.beyond i

/-- The function `parse_opening_banner(banner_path, result)`. `file` is the content of the
file at `banner_path` when `fopen` succeeds (`none` when it fails), read in full by
`fread`; `ftell` at the end of the file is the file length. The value is the returned flag
and the content of `*result` after the call. -/
def parse_opening_banner (file : Option (List Nat)) (heap : Heap) (result : Option BannerData) :
    Bool × Option BannerData :=
  match result with
  | none => (false, none)
  | some result =>
    -- Initialize result
    let result : BannerData :=
      { game_title := List.replicate 128 0 ++ result.game_title.drop 128
        game_subtitle := List.replicate 128 0 ++ result.game_subtitle.drop 128
        texture_width := 0
        texture_height := 0
        rgba_data := none
        rgba_size := 0
        pcm_data := none
        pcm_size := 0 }
    match file with
    | none => (false, some result)
    | some bytes =>
      let fsize := bytes.length
      if ¬ heap.malloc_ok fsize then (false, some result)
      else
        let buffer := file_buffer bytes heap
        -- 1. Check for IMET Header
        let result :=
          if bytesOf buffer 4 = IMET then
            { result with
              game_title := utf16be_to_utf8 (offsetPtr buffer 0x80) result.game_title 64
              game_subtitle := utf16be_to_utf8 (offsetPtr buffer 0xC0) result.game_subtitle 64 }
          else
            { result with
              game_title := strncpy result.game_title (ascii "Unknown Title") 64
              game_subtitle := strncpy result.game_subtitle (ascii "Unknown Publisher") 64 }
        -- 2. Find U8 Archive: `i < fsize - 4` compares as unsigned 64-bit values
        let u8_offset := scan_u8 buffer ((fsize + 2 ^ 64 - 4) % 2 ^ 64) 0
        if u8_offset ≠ 0 then
          let u8_base := offsetPtr buffer u8_offset
          let root_offset := read_u32_be (offsetPtr u8_base 0x04)
          let node_count := read_u32_be (offsetPtr (offsetPtr u8_base root_offset) 0x08)
          let nodes := offsetPtr u8_base root_offset
          let strings := offsetPtr nodes ((node_count * 12) % 2 ^ 32)
          (true, some (node_loop u8_base nodes strings heap result node_count 0))
        else (true, some result)

/-! ### The memory accesses of the banner parser -/

/-- One access of `parse_opening_banner` to one of its two heap blocks: a read of the byte
`buffer[offset]` of the file buffer, or a store to the byte `result->rgba_data[index]` of
the pixel block, which was allocated with `size` bytes. -/
inductive Access where
  | read (offset : Nat)
  | store (index size : Nat)
  deriving DecidableEq

/-- The access stays inside its block; the file buffer has `fsize` bytes. -/
def Access.in_bounds (fsize : Nat) : Access → Bool
  | .read offset => decide (offset < fsize)
  | .store index size => decide (index < size)

/-- The reads of `read_u32_be(buffer + off)`: `p[0]` to `p[3]`. -/
def read_u32_be_reads (off : Nat) : List Access :=
  [.read off, .read (off + 1), .read (off + 2), .read (off + 3)]

/-- The reads of `read_u16_be(buffer + off)`: `p[0]` and `p[1]`. -/
def read_u16_be_reads (off : Nat) : List Access := [.read off, .read (off + 1)]

/-- The reads of the loop of `utf16be_to_utf8(buffer + src, dest, max_len)`: `src[i]` and
`src[i+1]` in every iteration that the loop test lets in, the one that meets the zero code
unit included. The arguments are those of `utf16be_loop`. -/
def utf16be_loop_reads (buffer : Nat → Nat) (src max_len : Nat) : Nat → Nat → Nat → List Access
  | 0, _, _ => []
  | fuel + 1, i, j =>
    if i < max_len - 1 ∧ j < 63 then
      let code := ((byte (offsetPtr buffer src) i <<< 8) ||| byte (offsetPtr buffer src) (i + 1))
        % 2 ^ 16
      .read (src + i) :: .read (src + (i + 1)) ::
        (if code = 0 then [] else utf16be_loop_reads buffer src max_len fuel (i + 2) (j + 1))
    else []

/-- The reads of `utf16be_to_utf8(buffer + src, dest, max_len)`. -/
def utf16be_to_utf8_reads (buffer : Nat → Nat) (src max_len : Nat) : List Access :=
  utf16be_loop_reads buffer src max_len max_len 0 0

/-- The reads of the scan for the U8 magic (lines 80-86): the four bytes at `buffer + i` in
every iteration, the one that finds the magic included. The arguments are those of
`scan_u8`. -/
def scan_u8_reads (buffer : Nat → Nat) : Nat → Nat → List Access
  | 0, _ => []
  | left + 1, i =>
    read_u32_be_reads i ++
      (if read_u32_be (offsetPtr buffer i) = U8_MAGIC then [] else scan_u8_reads buffer left (i + 1))

/-- The reads of a C library call that takes the string at `buffer + name` (`strcmp`,
`strstr`): the library requires a NUL-terminated string there, so the bytes from
`name[pos]` up to the terminator count as read, whichever of them an implementation looks
at. The first argument bounds the length walked, as in `strstr_from`. -/
def string_reads (buffer : Nat → Nat) (name : Nat) : Nat → Nat → List Access
  | 0, _ => []
  | fuel + 1, pos =>
    .read (name + pos) ::
      (if byte (offsetPtr buffer name) pos = 0 then [] else string_reads buffer name fuel (pos + 1))

/-- The accesses of the CMPR loop nest (lines 126-160) in program order: for every block
the reads of `c0`, `c1` and `bits` at `block`, then the stores of `cmpr_block_stores`.
`pixels` is the offset of the pixel data in the file buffer and `size` the size of the
pixel block. -/
def cmpr_accesses (buffer : Nat → Nat) (pixels w h size : Nat) : List Access :=
  (List.range ((h + 3) / 4)).flatMap fun by4 =>
    (List.range ((w + 3) / 4)).flatMap fun bx4 =>
      let block := pixels + ((((4 * by4) / 4) * (w / 4) + (4 * bx4) / 4) * 8) % 2 ^ 32
      read_u16_be_reads block ++ read_u16_be_reads (block + 2) ++ read_u32_be_reads (block + 4)
        ++ (cmpr_block_stores (offsetPtr buffer pixels) w h (4 * by4) (4 * bx4)).map
            fun s => .store s.1 size

/-- The accesses of the texture step (lines 102-163), as `decode_texture`; `u8_base` and
`node` are the offsets of the archive and of the matching node in the file buffer. -/
def decode_texture_accesses (buffer : Nat → Nat) (u8_base node : Nat) (heap : Heap) :
    List Access :=
  let data_offset := read_u32_be (offsetPtr buffer (node + 0x04))
  let tpl_data := u8_base + data_offset
  read_u32_be_reads (node + 0x04) ++ read_u32_be_reads (node + 0x08)
    ++ read_u32_be_reads tpl_data ++
    if read_u32_be (offsetPtr buffer tpl_data) = 0x0020AF30 then
      let num_images := read_u32_be (offsetPtr buffer (tpl_data + 0x04))
      let image_table_offset := read_u32_be (offsetPtr buffer (tpl_data + 0x08))
      read_u32_be_reads (tpl_data + 0x04) ++ read_u32_be_reads (tpl_data + 0x08) ++
        if num_images > 0 then
          let image_header_offset := read_u32_be (offsetPtr buffer (tpl_data + image_table_offset))
          let img_header := tpl_data + image_header_offset
          let texture_height := read_u16_be (offsetPtr buffer img_header)
          let texture_width := read_u16_be (offsetPtr buffer (img_header + 0x02))
          let format := read_u32_be (offsetPtr buffer (img_header + 0x04))
          let pixel_data_offset := read_u32_be (offsetPtr buffer (img_header + 0x08))
          let pixels := tpl_data + pixel_data_offset
          let rgba_size := (texture_width * texture_height * 4) % 2 ^ 32
          read_u32_be_reads (tpl_data + image_table_offset) ++ read_u16_be_reads img_header
            ++ read_u16_be_reads (img_header + 0x02) ++ read_u32_be_reads (img_header + 0x04)
            ++ read_u32_be_reads (img_header + 0x08) ++
            if heap.malloc_ok rgba_size = true ∧ format = 14 then
              cmpr_accesses buffer pixels texture_width texture_height rgba_size
            else []
        else []
    else []

/-- The accesses of the node loop (lines 95-166), as `node_loop`; `u8_base`, `nodes` and
`strings` are offsets in the file buffer. A node's first four bytes are read; the name of
a node that is not a directory is read by `strcmp` (and by `strstr` when `strcmp` finds a
difference, in the same string). -/
def node_loop_accesses (buffer : Nat → Nat) (u8_base nodes strings : Nat) (heap : Heap) :
    Nat → Nat → List Access
  | 0, _ => []
  | left + 1, i =>
    let node := nodes + (i * 12) % 2 ^ 32
    let is_dir := byte (offsetPtr buffer node) 0 = 0x01
    let name_offset := (byte (offsetPtr buffer node) 1 <<< 16)
      ||| (byte (offsetPtr buffer node) 2 <<< 8) ||| byte (offsetPtr buffer node) 3
    let name := strings + name_offset
    read_u32_be_reads node ++
      if is_dir then node_loop_accesses buffer u8_base nodes strings heap left (i + 1)
      else
        string_reads buffer name ADDRESS_SPACE 0 ++
          if strcmp_eq (offsetPtr buffer name) BANNER_TPL
              ∨ strstr_from (offsetPtr buffer name) DOT_TPL ADDRESS_SPACE 0 then
            decode_texture_accesses buffer u8_base node heap
          else node_loop_accesses buffer u8_base nodes strings heap left (i + 1)

/-- The accesses of the archive walk (lines 89-166) for the archive found at the offset
`u8_offset` of the file buffer: the root offset, the node count and the node loop. -/
def archive_accesses (buffer : Nat → Nat) (u8_offset : Nat) (heap : Heap) : List Access :=
  let root_offset := read_u32_be (offsetPtr buffer (u8_offset + 0x04))
  let node_count := read_u32_be (offsetPtr buffer (u8_offset + root_offset + 0x08))
  let nodes := u8_offset + root_offset
  let strings := nodes + (node_count * 12) % 2 ^ 32
  read_u32_be_reads (u8_offset + 0x04) ++ read_u32_be_reads (u8_offset + root_offset + 0x08)
    ++ node_loop_accesses buffer u8_offset nodes strings heap node_count 0

/-- The accesses of `parse_opening_banner` to the file buffer and to the pixel block, in
program order, for a call that opens the file `bytes`: the four bytes of `memcmp`, the
reads of the two text conversions when the four bytes are "IMET", the reads of the scan
and, when the scan leaves a nonzero `u8_offset`, the accesses of the archive walk. A call
whose `malloc(fsize)` fails has none. -/
def parse_opening_banner_accesses (bytes : List Nat) (heap : Heap) : List Access :=
  let fsize := bytes.length
  if ¬ heap.malloc_ok fsize then []
  else
    let buffer := file_buffer bytes heap
    [.read 0, .read 1, .read 2, .read 3] ++
      (if bytesOf buffer 4 = IMET then
        utf16be_to_utf8_reads buffer 0x80 64 ++ utf16be_to_utf8_reads buffer 0xC0 64
      else []) ++
      scan_u8_reads buffer ((fsize + 2 ^ 64 - 4) % 2 ^ 64) 0 ++
      let u8_offset := scan_u8 buffer ((fsize + 2 ^ 64 - 4) % 2 ^ 64) 0
      if u8_offset ≠ 0 then archive_accesses buffer u8_offset heap else []

/-- Every access of the call on the file `bytes` stays inside its block: the reads inside
the bytes of the file buffer, the stores inside the pixel block. -/
def in_bounds (bytes : List Nat) (heap : Heap) : Bool :=
  (parse_opening_banner_accesses bytes heap).all (Access.in_bounds bytes.length)

/-! ## WBFS splitter (`native/forge_logic.cpp`) -/

/-- The constant `MAX_WBFS_SPLIT_SIZE` of `forge_logic.h`. -/
def MAX_WBFS_SPLIT_SIZE : Nat := 0xFB040000

/-- The struct `WbfsSplitter::SplitInfo`. -/
structure SplitInfo where
  part_files : List String
  part_sizes : List Nat
  needs_splitting : Bool
  deriving DecidableEq

/-- The function `WbfsSplitter::AnalyzeFile(file_path)`. `file` is the size of the file at
`file_path` (the value of `tellg` on a stream opened at its end) when it can be opened, and
`none` when it cannot. The arithmetic is in `size_t` (64 bits). -/
def AnalyzeFile (file_path : String) (file : Option Nat) : SplitInfo :=
  match file with
  | none => { part_files := [], part_sizes := [], needs_splitting := false }
  | some file_size =>
    if file_size > MAX_WBFS_SPLIT_SIZE then
      let parts := ((file_size + MAX_WBFS_SPLIT_SIZE - 1) % 2 ^ 64) / MAX_WBFS_SPLIT_SIZE
      { part_files := (List.range parts).map fun i => file_path ++ ".w1f" ++ toString i
        part_sizes := (List.range parts).map fun i =>
          if i = parts - 1 then file_size % MAX_WBFS_SPLIT_SIZE else MAX_WBFS_SPLIT_SIZE
        needs_splitting := true }
    else { part_files := [], part_sizes := [], needs_splitting := false }

/-! ## Definitions that follow the wording of the specification -/

/-- Trimmable bytes of a fixed-width field: the ASCII space and the NUL. -/
def isTrim (b : Nat) : Bool := b == 0x20 || b == 0

/-- A field with its maximal trailing run of spaces and NULs removed. -/
def stripTrailing (field : List Nat) : List Nat := field.rdropWhile isTrim

/-- A text followed by NUL bytes up to `n` bytes: the content of a zeroed `char[n]`
that holds the text. -/
def nulPad (n : Nat) (text : List Nat) : List Nat :=
  text ++ List.replicate (n - text.length) 0

/-- One row of the signature table of the specification: the alternative byte patterns,
the offset at which one of them must occur, an extra condition on the header, and the
(platform, format) pair of the row, which may depend on a flag byte of the header. -/
structure SignatureRow where
  patterns : List (List Nat)
  offset : Nat
  extra : (Nat → Nat) → Bool
  result : (Nat → Nat) → Platform × DiscFormat

/-- The check of a row on a header: one of its patterns occurs at its offset and the
extra condition holds. -/
def SignatureRow.holds (row : SignatureRow) (header : Nat → Nat) : Bool :=
  row.patterns.any (fun pat => decide (bytesAt header row.offset pat.length = pat))
    && row.extra header

/-- The 11-row signature table of section 4.1 of the specification, in priority order. -/
def signatureTable : List SignatureRow :=
  [ ⟨[[0x57, 0x42, 0x46, 0x53]], 0x00, fun _ => true, fun _ => (PLATFORM_WII, FORMAT_WBFS)⟩,
    ⟨[[0x52, 0x56, 0x5A]], 0x00, fun _ => true, fun _ => (PLATFORM_WII, FORMAT_RVZ)⟩,
    ⟨[[0x57, 0x55, 0x50]], 0x00, fun _ => true, fun _ => (PLATFORM_WII_U, FORMAT_WUD)⟩,
    ⟨[[0x5D, 0x1C, 0x9E, 0xA3]], 0x1C, fun _ => true, fun _ => (PLATFORM_WII, FORMAT_ISO)⟩,
    ⟨[[0xC2, 0x33, 0x9F, 0x3D]], 0x1C, fun _ => true, fun _ => (PLATFORM_GAMECUBE, FORMAT_ISO)⟩,
    ⟨[[0x4E, 0x45, 0x53, 0x1A]], 0x00, fun _ => true, fun _ => (PLATFORM_NES, FORMAT_UNKNOWN)⟩,
    ⟨[[0x80, 0x37, 0x12, 0x40], [0x40, 0x12, 0x37, 0x80], [0x37, 0x80, 0x40, 0x12]], 0x00,
      fun _ => true, fun _ => (PLATFORM_N64, FORMAT_UNKNOWN)⟩,
    ⟨[GB_LOGO], 0x104, fun _ => true,
      fun header => (if header 0x143 = 0x80 ∨ header 0x143 = 0xC0 then PLATFORM_GBC
                     else PLATFORM_GAMEBOY, FORMAT_UNKNOWN)⟩,
    ⟨[GBA_LOGO], 0x04, fun _ => true, fun _ => (PLATFORM_GBA, FORMAT_UNKNOWN)⟩,
    ⟨[GBA_LOGO.take 4], 0xC0,
      fun header => decide (0 < read_u32_le header 0x80 ∧ read_u32_le header 0x80 < 0x20000000),
      fun _ => (PLATFORM_NDS, FORMAT_UNKNOWN)⟩,
    ⟨[[0x53, 0x45, 0x47, 0x41]], 0x100, fun _ => true,
      fun _ => (PLATFORM_GENESIS, FORMAT_UNKNOWN)⟩ ]

/-- First-match evaluation of the signature table: the pair of the lowest-numbered row
whose check holds, `none` when no row's check holds. -/
def tableIdentify (header : Nat → Nat) : Option (Platform × DiscFormat) :=
  (signatureTable.find? fun row => row.holds header).map fun row => row.result header

/-- The container signature at offset 0 of a header, as the specification lists them:
"WBFS" gives Wii/WBFS, "RVZ" gives Wii/RVZ, "WUP" gives WiiU/WUD. -/
def containerOf (header : Nat → Nat) : Option (Platform × DiscFormat) :=
  if bytesAt header 0 4 = [0x57, 0x42, 0x46, 0x53] then some (PLATFORM_WII, FORMAT_WBFS)
  else if bytesAt header 0 3 = [0x52, 0x56, 0x5A] then some (PLATFORM_WII, FORMAT_RVZ)
  else if bytesAt header 0 3 = [0x57, 0x55, 0x50] then some (PLATFORM_WII_U, FORMAT_WUD)
  else none

/-- Where the specification's template table gives a ROM platform its directory and
its extension. -/
def romDirExt : Platform → Option (String × String)
  | PLATFORM_NES => some ("NES", "nes")
  | PLATFORM_SNES => some ("SNES", "sfc")
  | PLATFORM_N64 => some ("N64", "z64")
  | PLATFORM_GAMEBOY => some ("GB", "gb")
  | PLATFORM_GBC => some ("GBC", "gbc")
  | PLATFORM_GBA => some ("GBA", "gba")
  | PLATFORM_NDS => some ("NDS", "nds")
  | PLATFORM_GENESIS => some ("Genesis", "md")
  | _ => none

/-- The per-platform path template table of the specification, for a drive root, a title
and a title id given as texts; `none` for a platform the table does not list. -/
def organizedPathSpec (platform : Platform) (root title id : List Nat) : Option (List Nat) :=
  match platform with
  | PLATFORM_WII =>
    some (root ++ ascii "/wbfs/" ++ title ++ ascii " [" ++ id ++ ascii "]/" ++ id ++ ascii ".wbfs")
  | PLATFORM_GAMECUBE =>
    some (root ++ ascii "/games/" ++ title ++ ascii " [" ++ id ++ ascii "]/game.iso")
  | PLATFORM_WII_U => some (root ++ ascii "/wiiu/games/" ++ id ++ ascii "/")
  | p => (romDirExt p).map fun de =>
    root ++ ascii "/roms/" ++ ascii de.1 ++ ascii "/" ++ title ++ ascii "." ++ ascii de.2

/-- The RGB565 expansion of the specification: `r = (c>>11)<<3`, `g = ((c>>5)&0x3F)<<2`,
`b = (c&0x1F)<<3`. -/
def expand565 (c : Nat) : Nat × Nat × Nat :=
  ((c >>> 11) <<< 3, ((c >>> 5) &&& 0x3F) <<< 2, (c &&& 0x1F) <<< 3)

/-- The four palette entries of a block as section 4.3 of the specification defines
them from the two endpoint colours. -/
def refPalette (c0 c1 k : Nat) : Nat × Nat × Nat × Nat :=
  let e0 := expand565 c0
  let e1 := expand565 c1
  match k with
  | 0 => (e0.1, e0.2.1, e0.2.2, 255)
  | 1 => (e1.1, e1.2.1, e1.2.2, 255)
  | 2 =>
    if c0 > c1 then
      ((2 * e0.1 + e1.1) / 3, (2 * e0.2.1 + e1.2.1) / 3, (2 * e0.2.2 + e1.2.2) / 3, 255)
    else ((e0.1 + e1.1) / 2, (e0.2.1 + e1.2.1) / 2, (e0.2.2 + e1.2.2) / 2, 255)
  | _ =>
    if c0 > c1 then
      ((e0.1 + 2 * e1.1) / 3, (e0.2.1 + 2 * e1.2.1) / 3, (e0.2.2 + 2 * e1.2.2) / 3, 255)
    else (0, 0, 0, 0)

/-- The block that holds the pixel at column `X`, row `Y` of an image of width `w` whose
payload `pixels` holds its 8-byte blocks in row-major order: block number
`(Y/4)*(w/4) + (X/4)`. -/
def refBlock (pixels : Nat → Nat) (w X Y : Nat) : Nat → Nat :=
  offsetPtr pixels (((Y / 4) * (w / 4) + X / 4) * 8)

/-- The 2-bit palette index of the pixel at column `X`, row `Y` in the big-endian 32-bit
index word `bits` of its block: the field at bit position `30 - ((Y mod 4)*4 + (X mod 4))*2`. -/
def refIndex (bits X Y : Nat) : Nat :=
  (bits >>> (30 - ((Y % 4) * 4 + X % 4) * 2)) &&& 0x3

/-- The reference pixel at column `X`, row `Y`. -/
def refPixel (pixels : Nat → Nat) (w X Y : Nat) : Nat × Nat × Nat × Nat :=
  refPalette (read_u16_be (refBlock pixels w X Y))
    (read_u16_be (offsetPtr (refBlock pixels w X Y) 2))
    (refIndex (read_u32_be (offsetPtr (refBlock pixels w X Y) 4)) X Y)

/-- The `n` UTF-16BE code units found at `src` from unit number `m` on (unit `k` is made
of the bytes `src[2k]` and `src[2k+1]`). -/
def unitsFrom (src : Nat → Nat) : Nat → Nat → List Nat
  | 0, _ => []
  | n + 1, m => (byte src (2 * m) * 256 + byte src (2 * m + 1)) :: unitsFrom src n (m + 1)

/-- The UTF-16BE code units of a field: each pair of bytes, high byte first. -/
def utf16Units : List Nat → List Nat
  | hi :: lo :: rest => (hi * 256 + lo) :: utf16Units rest
  | _ => []

/-- The lossy single-byte form of one code unit: itself below 0x80, else "?". -/
def lossyChar (u : Nat) : Nat := if u < 0x80 then u else 0x3F

/-- The lossy conversion of the UTF-16BE text of a field: the code units up to (not
including) the first zero unit or the end of the field, each converted. -/
def lossyText (field : List Nat) : List Nat :=
  ((utf16Units field).takeWhile (· ≠ 0)).map lossyChar

/-! ## Concrete inputs -/

/-- The bytes of "RSPE01". -/
def RSPE01 : List Nat := [0x52, 0x53, 0x50, 0x45, 0x30, 0x31]

/-- The bytes of "Wii Sports". -/
def WII_SPORTS : List Nat := [0x57, 0x69, 0x69, 0x20, 0x53, 0x70, 0x6F, 0x72, 0x74, 0x73]

/-- A 96-byte disc header as this code expects it: id "RSPE01", disc number 1, the Wii
magic word at 0x1C, the title "Wii Sports" NUL-padded to 64 bytes at 0x20. -/
def sampleIsoHeader : List Nat :=
  RSPE01 ++ [0x01, 0x00] ++ List.replicate 20 0 ++ WII_MAGIC ++ WII_SPORTS ++ List.replicate 54 0

/-- A 96-byte disc header laid out as `platform_identifier.h` documents it: id "RSPE01",
the Wii magic word at 0x18, zero bytes at 0x1C, the title at 0x20. -/
def documentedWiiHeader : List Nat :=
  RSPE01 ++ [0x00, 0x00] ++ List.replicate 16 0 ++ WII_MAGIC ++ List.replicate 4 0
    ++ WII_SPORTS ++ List.replicate 54 0

/-- A 0x260-byte WBFS header: "WBFS", zero bytes up to 0x200, then the disc header of
`sampleIsoHeader` (so the byte at 0x206, the disc number, is 1). -/
def sampleWbfsHeader : List Nat :=
  WBFS_MAGIC ++ List.replicate (0x200 - 4) 0 ++ sampleIsoHeader

/-- The 7-byte field "ABC", two spaces, two NULs. -/
def fieldABC : List Nat := [0x41, 0x42, 0x43, 0x20, 0x20, 0x00, 0x00]

/-- The 3-byte field "A", NUL, "B". -/
def fieldEmbeddedNul : List Nat := [0x41, 0x00, 0x42]

/-- An identity record as the Wii ISO rule leaves it for "Wii Sports". -/
def sampleIdentity : GameIdentity :=
  { GameIdentity.zero with
    platform := PLATFORM_WII
    format := FORMAT_ISO
    title_id := nulPad 8 RSPE01
    game_title := nulPad 256 WII_SPORTS }

/-- The memory of the C string "E:". -/
def sampleDriveRoot : List Nat := ascii "E:" ++ [0]

/-- A heap on which every `malloc` succeeds, with zero bytes after the file buffer and
the byte 0xCD in fresh blocks. -/
def plainHeap : Heap := { malloc_ok := fun _ => true, beyond := fun _ => 0, uninit := fun _ => 0xCD }

/-- A texture container with one image descriptor: magic, image count 1, image table at
0x0C pointing to the descriptor at 0x14 (height, width, format, pixel data offset 0x40),
and the pixel payload at 0x40. -/
def sampleTpl (height width format : Nat) (payload : List Nat) : List Nat :=
  [0x00, 0x20, 0xAF, 0x30, 0, 0, 0, 1, 0, 0, 0, 0x0C, 0, 0, 0, 0x14, 0, 0, 0, 0,
    height / 256, height % 256, width / 256, width % 256, 0, 0, 0, format, 0, 0, 0, 0x40]
    ++ List.replicate 0x20 0 ++ payload

/-- An archive with a root directory node and one file node "banner.tpl": magic, root
offset 0x20, the two nodes at 0x20 and 0x2C, the string table at 0x38, the file data (a
texture container) at 0x50. -/
def sampleArchive (tpl : List Nat) : List Nat :=
  [0x55, 0xAA, 0x38, 0x2D, 0, 0, 0, 0x20] ++ List.replicate 24 0
    ++ [1, 0, 0, 0, 0, 0, 0, 0, 0, 0, 0, 2]
    ++ [0, 0, 0, 1, 0, 0, 0, 0x50, 0, 0, 0, tpl.length]
    ++ [0] ++ BANNER_TPL ++ [0] ++ List.replicate 12 0 ++ tpl

/-- One block with c0 = 0xFFFF, c1 = 0x0000 and all index bits zero. -/
def whiteBlock : List Nat := [0xFF, 0xFF, 0x00, 0x00, 0x00, 0x00, 0x00, 0x00]

/-- A banner record with arbitrary earlier content (every field is overwritten). -/
def staleBanner : BannerData :=
  { game_title := List.replicate 128 0x58, game_subtitle := List.replicate 128 0x58,
    texture_width := 7, texture_height := 7, rgba_data := none, rgba_size := 7,
    pcm_data := none, pcm_size := 7 }

/-- A file of 4 zero bytes followed by an archive whose texture is one 4x4 CMPR image
with the white block. -/
def whiteBanner : List Nat :=
  [0, 0, 0, 0] ++ sampleArchive (sampleTpl 4 4 14 whiteBlock)

/-- The same archive at file offset 0. -/
def archiveFirstBanner : List Nat := sampleArchive (sampleTpl 4 4 14 whiteBlock)

/-- A file whose texture descriptor declares height 0x8004, width 0x8000, format 14. -/
def overflowBanner : List Nat :=
  [0, 0, 0, 0] ++ sampleArchive (sampleTpl 0x8004 0x8000 14 [])

/-- A file whose texture is a 4x4 image of pixel format 1. -/
def format1Banner : List Nat :=
  [0, 0, 0, 0] ++ sampleArchive (sampleTpl 4 4 1 whiteBlock)

/-- A heap whose memory after a 3-byte file buffer holds, from offset 4 of the buffer on,
the archive of `whiteBanner`. -/
def archiveAfterBufferHeap : Heap :=
  { plainHeap with beyond := memOf whiteBanner }

/-- A file of 20 bytes that does not start with "IMET": 4 zero bytes, the archive magic
at offset 4, the root-node offset 0xFFFFFFF0, and 8 zero bytes. -/
def wildRootBanner : List Nat :=
  [0, 0, 0, 0, 0x55, 0xAA, 0x38, 0x2D, 0xFF, 0xFF, 0xFF, 0xF0] ++ List.replicate 8 0

/-- A heap whose memory after the file buffer holds, at offset 0xFFFFFFF4 from the start
of the buffer, a file node (name offset 0, data offset 0xFFC, last field 1) followed by the
string "banner.tpl", and at offset 0x1000 a texture container with a 4x4 CMPR image. -/
def wildRootHeap : Heap :=
  { plainHeap with
    beyond := fun i =>
      if 0xFFFFFFF4 ≤ i then
        ([0, 0, 0, 0, 0, 0, 0x0F, 0xFC, 0, 0, 0, 1] ++ BANNER_TPL ++ [0]).getD (i - 0xFFFFFFF4) 0
      else if 0x1000 ≤ i then (sampleTpl 4 4 14 whiteBlock).getD (i - 0x1000) 0
      else 0 }

/-! ## Inputs and wording for the claims on the whole if-chain -/

/-- The check of a row on a buffer of `size` bytes, as the claim on "no identity" words it:
one of the row's patterns lies wholly inside the buffer at the row's offset, and the extra
condition holds. -/
def SignatureRow.holdsWithin (row : SignatureRow) (header : Nat → Nat) (size : Nat) : Bool :=
  row.patterns.any (fun pat =>
      decide (row.offset + pat.length ≤ size ∧ bytesAt header row.offset pat.length = pat))
    && row.extra header

/-- The header size the code asks for before it tries each row of the signature table:
the `header_size >= ...` guards of the last four rows, and the 64 bytes every call needs
for the rows before them. -/
def requiredSize : List Nat := [64, 64, 64, 64, 64, 64, 64, 0x150, 0xC0, 0x160, 0x110]

/-- A 64-byte header that starts with "RVZ" and a NUL, zero bytes elsewhere. -/
def rvzHeader64 : List Nat := RVZ_MAGIC ++ List.replicate 60 0

/-- A 64-byte header with the GBA logo prefix at offset 0x04 and zero bytes elsewhere. -/
def gbaHeader64 : List Nat := List.replicate 4 0 ++ GBA_LOGO ++ List.replicate 52 0

/-- A 64-byte disc header: id "RSPE01", the Wii magic word at 0x1C, and 32 letters "A" at
0x20..0x3F, the part of the 64-byte title field that lies inside the header. -/
def wiiHeader64 : List Nat :=
  RSPE01 ++ List.replicate 22 0 ++ WII_MAGIC ++ List.replicate 32 0x41

/-! ## Wording for the claim on the palette range -/

/-- The value `x` lies between `a` and `b`, inclusive, whichever of the two is larger. -/
def between (a b x : Nat) : Prop := (a ≤ x ∧ x ≤ b) ∨ (b ≤ x ∧ x ≤ a)

/-! ## Wording for the claims on the archive walk -/

/-- Node number `i` of a node array, 12 bytes per node. -/
def nodeAt (nodes : Nat → Nat) (i : Nat) : Nat → Nat := offsetPtr nodes (i * 12)

/-- The type byte of a node: 0 for a file, 1 for a directory. -/
def nodeType (node : Nat → Nat) : Nat := byte node 0

/-- The name offset of a node: the 3 bytes after the type byte, big-endian. -/
def nameOffset (node : Nat → Nat) : Nat := byte node 1 * 65536 + byte node 2 * 256 + byte node 3

/-- The memory at `p` holds the C string `text`: the bytes of `text`, none of them NUL,
and then the terminator. -/
def holdsCString (p : Nat → Nat) (text : List Nat) : Prop :=
  0 ∉ text ∧ bytesOf p (text.length + 1) = text ++ [0]

instance (p : Nat → Nat) (text : List Nat) : Decidable (holdsCString p text) := by
  unfold holdsCString
  infer_instance

/-- A name that the lookup accepts: "banner.tpl" itself, or a name that contains ".tpl". -/
def wantedName (text : List Nat) : Prop := text = BANNER_TPL ∨ DOT_TPL <:+: text

instance (text : List Nat) : Decidable (wantedName text) := by
  unfold wantedName
  infer_instance

/-- An archive with a root directory, a directory named "x.tpl" and one file node
"banner.tpl" at index 2 of the node array: magic, root offset 0x20, three nodes at 0x20,
the string table at 0x44, the file data (a texture container) at 0x60. -/
def nestedArchive (tpl : List Nat) : List Nat :=
  [0x55, 0xAA, 0x38, 0x2D, 0, 0, 0, 0x20] ++ List.replicate 24 0
    ++ [1, 0, 0, 0, 0, 0, 0, 0, 0, 0, 0, 3]
    ++ [1, 0, 0, 1, 0, 0, 0, 0, 0, 0, 0, 3]
    ++ [0, 0, 0, 7, 0, 0, 0, 0x60, 0, 0, 0, tpl.length]
    ++ [0] ++ ascii "x.tpl" ++ [0] ++ BANNER_TPL ++ [0] ++ List.replicate 10 0 ++ tpl

/-- The names of the three nodes of `nestedArchive`. -/
def nestedNames (i : Nat) : List Nat :=
  if i = 1 then ascii "x.tpl" else if i = 2 then BANNER_TPL else []

/-- The archive of `sampleArchive` with the data-size field of its file node set to
0xFFFFFFFF. -/
def oversizeArchive (tpl : List Nat) : List Nat :=
  [0x55, 0xAA, 0x38, 0x2D, 0, 0, 0, 0x20] ++ List.replicate 24 0
    ++ [1, 0, 0, 0, 0, 0, 0, 0, 0, 0, 0, 2]
    ++ [0, 0, 0, 1, 0, 0, 0, 0x50, 0xFF, 0xFF, 0xFF, 0xFF]
    ++ [0] ++ BANNER_TPL ++ [0] ++ List.replicate 12 0 ++ tpl

/-- A file of 4 zero bytes followed by `oversizeArchive` with the 4x4 CMPR texture of
`whiteBanner`. -/
def oversizeEntryBanner : List Nat :=
  [0, 0, 0, 0] ++ oversizeArchive (sampleTpl 4 4 14 whiteBlock)

/-- A file of 8 bytes: "IMET" and 4 zero bytes. -/
def shortImetBanner : List Nat := IMET ++ [0, 0, 0, 0]

/-- A heap whose memory after the file buffer holds the letter "A" at offset 0x81 from
the start of the buffer, and zero bytes elsewhere. -/
def letterAfterBufferHeap : Heap :=
  { plainHeap with beyond := fun i => if i = 0x81 then 0x41 else 0 }

/-! ## Wording and input for the end-to-end claim -/

/-- The UTF-16BE bytes of an ASCII text: each character as a zero byte and its code. -/
def utf16be (text : List Nat) : List Nat := text.flatMap fun c => [0, c]

/-- The node array of the archive at `base`: it starts at the root-node offset, the 4-byte
big-endian field at +0x04 of the archive. -/
def archiveNodes (base : Nat → Nat) : Nat → Nat :=
  offsetPtr base (read_u32_be (offsetPtr base 0x04))

/-- The node count of the archive at `base`: the 4-byte big-endian field at +0x08 of the
root node. -/
def archiveNodeCount (base : Nat → Nat) : Nat := read_u32_be (offsetPtr (archiveNodes base) 0x08)

/-- The string table of the archive at `base`: directly after the node array. -/
def archiveStrings (base : Nat → Nat) : Nat → Nat :=
  offsetPtr (archiveNodes base) (archiveNodeCount base * 12)

/-- The data of a file node of the archive at `base`: at the data-offset (the field at
+0x04 of the node) from the archive start. -/
def entryData (base node : Nat → Nat) : Nat → Nat :=
  offsetPtr base (read_u32_be (offsetPtr node 0x04))

/-- The first image descriptor of the texture container at `tpl`: reached through the
image-table offset at +0x08 and one further 4-byte big-endian offset found there. -/
def firstDescriptor (tpl : Nat → Nat) : Nat → Nat :=
  offsetPtr tpl (read_u32_be (offsetPtr tpl (read_u32_be (offsetPtr tpl 0x08))))

/-- The part of `testGameBanner` before its archive: "IMET", "Test Game" in UTF-16BE at
0x80, "Test Co" in UTF-16BE at 0xC0, zero bytes elsewhere, 0x600 bytes in all. -/
def testGamePrefix : List Nat :=
  IMET ++ List.replicate 0x7C 0 ++ utf16be (ascii "Test Game") ++ List.replicate 46 0
    ++ utf16be (ascii "Test Co") ++ List.replicate 1330 0

/-- A banner file with the localized header of `testGamePrefix` and, at offset 0x600, an
archive whose entry "banner.tpl" is a 4x4 CMPR texture. -/
def testGameBanner : List Nat :=
  testGamePrefix ++ sampleArchive (sampleTpl 4 4 14 whiteBlock)

/-! ## Lemmas on the helper functions -/

theorem bytesAt_length (mem : Nat → Nat) (off len : Nat) : (bytesAt mem off len).length = len := by
  simp [bytesAt]

theorem bytesAt_offsetPtr (p : Nat → Nat) (k off len : Nat) :
    bytesAt (offsetPtr p k) off len = bytesAt p (k + off) len := by
  simp [bytesAt, offsetPtr, Nat.add_assoc]

theorem stripTrailing_length_le (field : List Nat) :
    (stripTrailing field).length ≤ field.length :=
  (List.rdropWhile_prefix _ _).length_le

theorem trimLoop_append (pre rest : List Nat) :
    trimLoop pre.length (pre ++ rest)
      = stripTrailing pre ++ List.replicate (pre.length - (stripTrailing pre).length) 0 ++ rest := by
  induction pre using List.reverseRecOn generalizing rest with
  | nil => simp [trimLoop, stripTrailing]
  | append_singleton pre x ih =>
    have hget : (pre ++ [x] ++ rest).getD pre.length 0 = x := by
      rw [List.append_assoc, List.getD_eq_getElem?_getD, List.getElem?_append_right (le_refl _)]
      simp
    rw [List.length_append, List.length_singleton, trimLoop, hget]
    by_cases hx : x = 0x20 ∨ x = 0
    · have hp : isTrim x = true := by
        rcases hx with h | h <;> simp [isTrim, h]
      have hset : (pre ++ [x] ++ rest).set pre.length 0 = pre ++ (0 :: rest) := by
        simp [List.set_append_right, List.append_assoc]
      rw [if_pos hx, hset, ih]
      have hs : stripTrailing (pre ++ [x]) = stripTrailing pre := by
        unfold stripTrailing
        rw [List.rdropWhile_concat_pos _ _ _ hp]
      have hle := stripTrailing_length_le pre
      rw [hs]
      have : pre.length + 1 - (stripTrailing pre).length
          = (pre.length - (stripTrailing pre).length) + 1 := by omega
      rw [this, List.replicate_succ']
      simp [List.append_assoc]
    · have hp : ¬ isTrim x = true := by
        simp only [isTrim, Bool.or_eq_true, beq_iff_eq]
        exact hx
      have hs : stripTrailing (pre ++ [x]) = pre ++ [x] := by
        unfold stripTrailing
        rw [List.rdropWhile_concat_neg _ _ _ hp]
      rw [if_neg hx, hs]
      simp

theorem extract_string_eq (src : Nat → Nat) (dst : List Nat) (len : Nat)
    (h2 : len < dst.length) :
    extract_string src dst len
      = stripTrailing (bytesAt src 0 len)
          ++ List.replicate (len - (stripTrailing (bytesAt src 0 len)).length) 0
          ++ 0 :: dst.drop (len + 1) := by
  unfold extract_string
  have hlen : (bytesAt src 0 len).length = len := bytesAt_length _ _ _
  have hset : (bytesAt src 0 len ++ dst.drop len).set len 0
      = bytesAt src 0 len ++ 0 :: dst.drop (len + 1) := by
    conv_lhs => rw [List.set_append_right _ _ (by omega : (bytesAt src 0 len).length ≤ len)]
    rw [hlen, Nat.sub_self, List.drop_eq_getElem_cons h2, List.set_cons_zero]
  rw [hset]
  have := trimLoop_append (bytesAt src 0 len) (0 :: dst.drop (len + 1))
  rw [hlen] at this
  rw [this]

theorem extract_string_zeroed (src : Nat → Nat) (n len : Nat) (h2 : len < n) :
    extract_string src (List.replicate n 0) len
      = nulPad n (stripTrailing (bytesAt src 0 len)) := by
  rw [extract_string_eq src _ len (by simpa using h2)]
  have hk : (stripTrailing (bytesAt src 0 len)).length ≤ len := by
    have := stripTrailing_length_le (bytesAt src 0 len)
    rw [bytesAt_length] at this
    exact this
  unfold nulPad
  rw [List.drop_replicate, List.append_assoc]
  congr 2
  rw [← List.replicate_succ, ← List.replicate_add]
  congr 1
  omega

theorem title_id_zero : GameIdentity.zero.title_id = List.replicate 8 0 := rfl
theorem game_title_zero : GameIdentity.zero.game_title = List.replicate 256 0 := rfl

theorem extract_title_id (src : Nat → Nat) (len : Nat) (h : len < 8) :
    extract_string src GameIdentity.zero.title_id len
      = nulPad 8 (stripTrailing (bytesAt src 0 len)) := by
  rw [title_id_zero, extract_string_zeroed _ _ _ h]

theorem extract_game_title (src : Nat → Nat) (len : Nat) (h : len < 256) :
    extract_string src GameIdentity.zero.game_title len
      = nulPad 256 (stripTrailing (bytesAt src 0 len)) := by
  rw [game_title_zero, extract_string_zeroed _ _ _ h]

theorem check_magic_iff (header : Nat → Nat) (offset : Nat) (magic : List Nat)
    (magic_len header_size : Nat) :
    check_magic header offset magic magic_len header_size = true
      ↔ offset + magic_len ≤ header_size ∧ bytesAt header offset magic_len = magic.take magic_len := by
  unfold check_magic
  by_cases h : offset + magic_len > header_size
  · simp [h]
  · simp [h]; omega

theorem check_magic_fit (header : Nat → Nat) (offset : Nat) (magic : List Nat)
    (magic_len header_size : Nat) (h : offset + magic_len ≤ header_size) :
    check_magic header offset magic magic_len header_size
      = decide (bytesAt header offset magic_len = magic.take magic_len) := by
  unfold check_magic
  rw [if_neg (by omega)]

/-- The value of `identify_rules` on a header that starts with "WBFS". -/
theorem identify_rules_wbfs (header : Nat → Nat) (header_size : Nat)
    (h : 4 ≤ header_size) (hm : bytesAt header 0 4 = [0x57, 0x42, 0x46, 0x53]) :
    identify_rules header header_size =
      (true, if header_size ≥ 0x200 + 64 then
        { GameIdentity.zero with
          platform := PLATFORM_WII, format := FORMAT_WBFS
          title_id := nulPad 8 (stripTrailing (bytesAt header 0x200 6))
          game_title := nulPad 256 (stripTrailing (bytesAt header 0x220 64))
          region := header 0x203 }
      else { GameIdentity.zero with platform := PLATFORM_WII, format := FORMAT_WBFS }) := by
  have hc : check_magic header 0 WBFS_MAGIC 4 header_size = true := by
    rw [check_magic_iff]; exact ⟨by omega, by rw [hm]; rfl⟩
  unfold identify_rules
  simp only [hc, if_true, Id.run, Id.pure_eq, Id.bind_eq, pure, bind]
  split
  · rw [extract_title_id _ _ (by norm_num), extract_game_title _ _ (by norm_num),
      bytesAt_offsetPtr, bytesAt_offsetPtr]
  · rfl

/-- The value of `identify_rules` on a disc header (no container signature at offset 0)
with one of the two magic words at 0x1C. -/
theorem identify_rules_iso (header : Nat → Nat) (header_size : Nat)
    (h : 0x20 ≤ header_size) (hc : containerOf header = none)
    (hm : bytesAt header 0x1C 4 = WII_MAGIC ∨ bytesAt header 0x1C 4 = GC_MAGIC) :
    identify_rules header header_size =
      (true, { GameIdentity.zero with
        platform := if bytesAt header 0x1C 4 = WII_MAGIC then PLATFORM_WII else PLATFORM_GAMECUBE
        format := FORMAT_ISO
        title_id := nulPad 8 (stripTrailing (bytesAt header 0 6))
        game_title := nulPad 256 (stripTrailing (bytesAt header 0x20 64))
        region := header 3
        disc_number := header 6 }) := by
  unfold containerOf at hc
  have h1 : ¬ bytesAt header 0 4 = [0x57, 0x42, 0x46, 0x53] := by
    intro h1; rw [if_pos h1] at hc; cases hc
  rw [if_neg h1] at hc
  have h2 : ¬ bytesAt header 0 3 = [0x52, 0x56, 0x5A] := by
    intro h2; rw [if_pos h2] at hc; cases hc
  rw [if_neg h2] at hc
  have h3 : ¬ bytesAt header 0 3 = [0x57, 0x55, 0x50] := by
    intro h3; rw [if_pos h3] at hc; cases hc
  have c1 : check_magic header 0 WBFS_MAGIC 4 header_size = false := by
    rw [check_magic_fit _ _ _ _ _ (by omega)]
    exact decide_eq_false h1
  have c2 : check_magic header 0 RVZ_MAGIC 3 header_size = false := by
    rw [check_magic_fit _ _ _ _ _ (by omega)]
    exact decide_eq_false h2
  have c3 : check_magic header 0 WUD_MAGIC 3 header_size = false := by
    rw [check_magic_fit _ _ _ _ _ (by omega)]
    exact decide_eq_false h3
  have hge : header_size ≥ 0x20 := h
  have e1 := extract_title_id header 6 (by norm_num)
  have e2 := extract_game_title (offsetPtr header 0x20) 64 (by norm_num)
  rw [bytesAt_offsetPtr] at e2
  by_cases hw : bytesAt header 0x1C 4 = WII_MAGIC
  · have c4 : check_magic header 0x1C WII_MAGIC 4 header_size = true := by
      rw [check_magic_fit _ _ _ _ _ (by omega)]
      exact decide_eq_true hw
    simp only [identify_rules, Id.run, Id.pure_eq, Id.bind_eq, pure, bind, c1, c2, c3, c4, hge,
      if_true, if_false, Bool.false_eq_true, e1, e2, if_pos hw]
  · have hg : bytesAt header 0x1C 4 = GC_MAGIC := hm.resolve_left hw
    have c4 : check_magic header 0x1C WII_MAGIC 4 header_size = false := by
      rw [check_magic_fit _ _ _ _ _ (by omega)]
      exact decide_eq_false hw
    have c5 : check_magic header 0x1C GC_MAGIC 4 header_size = true := by
      rw [check_magic_fit _ _ _ _ _ (by omega)]
      exact decide_eq_true hg
    simp only [identify_rules, Id.run, Id.pure_eq, Id.bind_eq, pure, bind, c1, c2, c3, c4, c5, hge,
      if_true, if_false, Bool.false_eq_true, e1, e2, if_neg hw]

/-! ## The claims on `identify_from_header` -/

/-- C1: `identify_from_header` returns false, and leaves the result record as it was, for
every header whose size is below 64 bytes, whatever the header holds (and whichever of
the two pointers is null). -/
theorem identify_from_header_short (header : Option (Nat → Nat)) (header_size : Nat)
    (result : Option GameIdentity) (h : header_size < 64) :
    identify_from_header header header_size result = (false, result) := by
  unfold identify_from_header
  split
  · rw [if_pos h]
  · rfl

/-- Instance of C1: a 4-byte buffer that holds "WBFS". -/
theorem identify_from_header_short_witness :
    4 < 64 ∧ identify_from_header (some (memOf WBFS_MAGIC)) 4 (some GameIdentity.zero)
      = (false, some GameIdentity.zero) :=
  ⟨by decide, identify_from_header_short (some (memOf WBFS_MAGIC)) 4 (some GameIdentity.zero)
    (by decide)⟩

/-- C2: on a header of exactly 512 bytes `identify_from_header` is first-match evaluation
of the 11-row signature table: it returns true exactly when some row's check holds, and
the (platform, format) pair it leaves in the result is the pair of the lowest-numbered
such row (Unknown/Unknown, with false returned, when no row's check holds). -/
theorem identify_from_header_512_table (header : Nat → Nat) (result : GameIdentity) :
    (identify_from_header (some header) 512 (some result)).1 = (tableIdentify header).isSome
    ∧ (identify_from_header (some header) 512 (some result)).2.map
          (fun g => (g.platform, g.format))
        = some ((tableIdentify header).getD (PLATFORM_UNKNOWN, FORMAT_UNKNOWN)) := by
  have e1 := check_magic_fit header 0 WBFS_MAGIC 4 512 (by norm_num)
  have e2 := check_magic_fit header 0 RVZ_MAGIC 3 512 (by norm_num)
  have e3 := check_magic_fit header 0 WUD_MAGIC 3 512 (by norm_num)
  have e4 := check_magic_fit header 0x1C WII_MAGIC 4 512 (by norm_num)
  have e5 := check_magic_fit header 0x1C GC_MAGIC 4 512 (by norm_num)
  have e6 := check_magic_fit header 0 NES_MAGIC 4 512 (by norm_num)
  have e7a := check_magic_fit header 0 N64_MAGIC_Z64 4 512 (by norm_num)
  have e7b := check_magic_fit header 0 N64_MAGIC_N64 4 512 (by norm_num)
  have e7c := check_magic_fit header 0 N64_MAGIC_V64 4 512 (by norm_num)
  have e8 := check_magic_fit header 0x104 GB_LOGO 8 512 (by norm_num)
  have e9 := check_magic_fit header 0x04 GBA_LOGO 8 512 (by norm_num)
  have e10 := check_magic_fit header 0xC0 NDS_LOGO 4 512 (by norm_num)
  have e11 := check_magic_fit header 0x100 GENESIS_MAGIC 4 512 (by norm_num)
  simp only [identify_from_header, identify_rules, Option.map_some', Id.run, Id.pure_eq, Id.bind_eq, pure, bind,
    e1, e2, e3, e4, e5, e6, e7a, e7b, e7c, e8, e9, e10, e11]
  simp only [tableIdentify, signatureTable, SignatureRow.holds, List.find?, List.any,
    WBFS_MAGIC, RVZ_MAGIC, WUD_MAGIC, WII_MAGIC, GC_MAGIC, NES_MAGIC, N64_MAGIC_Z64,
    N64_MAGIC_N64, N64_MAGIC_V64, GB_LOGO, GBA_LOGO, NDS_LOGO, GENESIS_MAGIC, List.take,
    List.length, Bool.or_false, Bool.and_true]
  clear e1 e2 e3 e4 e5 e6 e7a e7b e7c e8 e9 e10 e11
  simp only [decide_eq_true_eq, Bool.or_eq_true, Bool.and_eq_true, Bool.decide_and]
  by_cases h1 : bytesAt header 0 4 = [0x57, 0x42, 0x46, 0x53]
  · simp [h1]
  by_cases h2 : bytesAt header 0 3 = [0x52, 0x56, 0x5A]
  · simp [h1, h2]
  by_cases h3 : bytesAt header 0 3 = [0x57, 0x55, 0x50]
  · simp [h1, h2, h3]
  by_cases h4 : bytesAt header 0x1C 4 = [0x5D, 0x1C, 0x9E, 0xA3]
  · simp [h1, h2, h3, h4]
  by_cases h5 : bytesAt header 0x1C 4 = [0xC2, 0x33, 0x9F, 0x3D]
  · simp [h1, h2, h3, h4, h5]
  by_cases h6 : bytesAt header 0 4 = [0x4E, 0x45, 0x53, 0x1A]
  · simp [h1, h2, h3, h4, h5, h6]
  by_cases h7 : bytesAt header 0 4 = [0x80, 0x37, 0x12, 0x40] ∨
      bytesAt header 0 4 = [0x40, 0x12, 0x37, 0x80] ∨ bytesAt header 0 4 = [0x37, 0x80, 0x40, 0x12]
  · rcases h7 with h | h | h <;> simp [h1, h2, h3, h4, h5, h6, h]
  obtain ⟨h7a, h7b, h7c⟩ : bytesAt header 0 4 ≠ [0x80, 0x37, 0x12, 0x40] ∧
      bytesAt header 0 4 ≠ [0x40, 0x12, 0x37, 0x80] ∧ bytesAt header 0 4 ≠ [0x37, 0x80, 0x40, 0x12] := by
    refine ⟨fun h => h7 (Or.inl h), fun h => h7 (Or.inr (Or.inl h)), fun h => h7 (Or.inr (Or.inr h))⟩
  by_cases h8 : bytesAt header 0x104 8 = [0xCE, 0xED, 0x66, 0x66, 0xCC, 0x0D, 0x00, 0x0B]
  · simp [h1, h2, h3, h4, h5, h6, h7a, h7b, h7c, h8]
  by_cases h9 : bytesAt header 0x04 8 = [0x24, 0xFF, 0xAE, 0x51, 0x69, 0x9A, 0xA2, 0x21]
  · simp [h1, h2, h3, h4, h5, h6, h7a, h7b, h7c, h8, h9]
  by_cases h10 : bytesAt header 0xC0 4 = [0x24, 0xFF, 0xAE, 0x51]
  · by_cases hr : 0 < read_u32_le header 0x80 ∧ read_u32_le header 0x80 < 0x20000000
    · simp [h1, h2, h3, h4, h5, h6, h7a, h7b, h7c, h8, h9, h10, hr]
    · have hb : (decide (0 < read_u32_le header 0x80)
          && decide (read_u32_le header 0x80 < 0x20000000)) = false := by
        rw [← Bool.decide_and]
        exact decide_eq_false hr
      by_cases h11 : bytesAt header 0x100 4 = [0x53, 0x45, 0x47, 0x41]
      · simp [h1, h2, h3, h4, h5, h6, h7a, h7b, h7c, h8, h9, h10, hr, hb, h11]
      · simp [h1, h2, h3, h4, h5, h6, h7a, h7b, h7c, h8, h9, h10, hr, hb, h11]
        exact ⟨rfl, rfl⟩
  by_cases h11 : bytesAt header 0x100 4 = [0x53, 0x45, 0x47, 0x41]
  · simp [h1, h2, h3, h4, h5, h6, h7a, h7b, h7c, h8, h9, h10, h11]
  · simp [h1, h2, h3, h4, h5, h6, h7a, h7b, h7c, h8, h9, h10, h11]
    exact ⟨rfl, rfl⟩

/-- C3: container signatures win. For every header of at least 64 bytes that starts with
"WBFS", "RVZ" or "WUP", `identify_from_header` returns true with Wii/WBFS, Wii/RVZ or
WiiU/WUD respectively, whatever the other bytes are. -/
theorem container_priority (header : Nat → Nat) (header_size : Nat) (result : GameIdentity)
    (pf : Platform × DiscFormat) (h64 : 64 ≤ header_size) (hc : containerOf header = some pf) :
    (identify_from_header (some header) header_size (some result)).1 = true
    ∧ (identify_from_header (some header) header_size (some result)).2.map
        (fun g => (g.platform, g.format)) = some pf := by
  have hlt : ¬ header_size < 64 := by omega
  simp only [identify_from_header, if_neg hlt, Option.map_some']
  unfold containerOf at hc
  by_cases h1 : bytesAt header 0 4 = [0x57, 0x42, 0x46, 0x53]
  · rw [if_pos h1] at hc
    rw [identify_rules_wbfs header header_size (by omega) h1]
    cases hc
    constructor
    · rfl
    · split <;> rfl
  rw [if_neg h1] at hc
  have c1 : check_magic header 0 WBFS_MAGIC 4 header_size = false := by
    rw [check_magic_fit _ _ _ _ _ (by omega)]
    exact decide_eq_false h1
  by_cases h2 : bytesAt header 0 3 = [0x52, 0x56, 0x5A]
  · rw [if_pos h2] at hc
    have c2 : check_magic header 0 RVZ_MAGIC 3 header_size = true := by
      rw [check_magic_fit _ _ _ _ _ (by omega)]
      exact decide_eq_true h2
    cases hc
    simp [identify_rules, Id.run, c1, c2]
  rw [if_neg h2] at hc
  have c2 : check_magic header 0 RVZ_MAGIC 3 header_size = false := by
    rw [check_magic_fit _ _ _ _ _ (by omega)]
    exact decide_eq_false h2
  by_cases h3 : bytesAt header 0 3 = [0x57, 0x55, 0x50]
  · rw [if_pos h3] at hc
    have c3 : check_magic header 0 WUD_MAGIC 3 header_size = true := by
      rw [check_magic_fit _ _ _ _ _ (by omega)]
      exact decide_eq_true h3
    cases hc
    simp [identify_rules, Id.run, c1, c2, c3]
  · rw [if_neg h3] at hc
    cases hc

/-- Instance of C3: a 64-byte header with "WBFS" at 0 and the Wii magic word at 0x1C. -/
theorem container_priority_witness :
    64 ≤ 64
    ∧ containerOf (memOf (WBFS_MAGIC ++ List.replicate 24 0 ++ WII_MAGIC))
        = some (PLATFORM_WII, FORMAT_WBFS)
    ∧ (identify_from_header (some (memOf (WBFS_MAGIC ++ List.replicate 24 0 ++ WII_MAGIC))) 64
          (some GameIdentity.zero)).1 = true
    ∧ (identify_from_header (some (memOf (WBFS_MAGIC ++ List.replicate 24 0 ++ WII_MAGIC))) 64
          (some GameIdentity.zero)).2.map (fun g => (g.platform, g.format))
        = some (PLATFORM_WII, FORMAT_WBFS) :=
  ⟨by decide, by decide,
    container_priority (memOf (WBFS_MAGIC ++ List.replicate 24 0 ++ WII_MAGIC)) 64
      GameIdentity.zero (PLATFORM_WII, FORMAT_WBFS) (by decide) (by decide)⟩

/-- C4: for a header of at least 96 bytes with no container signature at offset 0 and the
Wii or GameCube magic word at 0x1C, the call succeeds with format ISO, and the record holds
title_id = bytes 0..5 stripped of trailing spaces/NULs (NUL-filled to the 8 bytes of the
array), game_title = the 64 bytes at 0x20 stripped likewise (NUL-filled to 256 bytes),
region = byte 3 and disc_number = byte 6. -/
theorem iso_metadata (header : Nat → Nat) (header_size : Nat) (result : GameIdentity)
    (h96 : 96 ≤ header_size) (hc : containerOf header = none)
    (hm : bytesAt header 0x1C 4 = WII_MAGIC ∨ bytesAt header 0x1C 4 = GC_MAGIC) :
    ∃ g, identify_from_header (some header) header_size (some result) = (true, some g)
      ∧ g.format = FORMAT_ISO
      ∧ g.platform = (if bytesAt header 0x1C 4 = WII_MAGIC then PLATFORM_WII else PLATFORM_GAMECUBE)
      ∧ g.title_id = nulPad 8 (stripTrailing (bytesAt header 0 6))
      ∧ g.game_title = nulPad 256 (stripTrailing (bytesAt header 0x20 64))
      ∧ g.region = header 3
      ∧ g.disc_number = header 6 := by
  have hlt : ¬ header_size < 64 := by omega
  have hr := identify_rules_iso header header_size (by omega) hc hm
  refine ⟨(identify_rules header header_size).2, ?_, ?_⟩
  · simp only [identify_from_header, if_neg hlt]
    rw [hr]
  · rw [hr]
    exact ⟨rfl, rfl, rfl, rfl, rfl, rfl⟩

/-- Instance of C4: the 96-byte header `sampleIsoHeader`. -/
theorem iso_metadata_witness :
    96 ≤ 96 ∧ containerOf (memOf sampleIsoHeader) = none
    ∧ (bytesAt (memOf sampleIsoHeader) 0x1C 4 = WII_MAGIC
        ∨ bytesAt (memOf sampleIsoHeader) 0x1C 4 = GC_MAGIC)
    ∧ ∃ g, identify_from_header (some (memOf sampleIsoHeader)) 96 (some GameIdentity.zero)
          = (true, some g)
      ∧ g.format = FORMAT_ISO
      ∧ g.platform = (if bytesAt (memOf sampleIsoHeader) 0x1C 4 = WII_MAGIC then PLATFORM_WII
                      else PLATFORM_GAMECUBE)
      ∧ g.title_id = nulPad 8 (stripTrailing (bytesAt (memOf sampleIsoHeader) 0 6))
      ∧ g.game_title = nulPad 256 (stripTrailing (bytesAt (memOf sampleIsoHeader) 0x20 64))
      ∧ g.region = memOf sampleIsoHeader 3
      ∧ g.disc_number = memOf sampleIsoHeader 6 :=
  ⟨by decide, by decide, Or.inl (by decide),
    iso_metadata (memOf sampleIsoHeader) 96 GameIdentity.zero (by decide) (by decide)
      (Or.inl (by decide))⟩

set_option maxRecDepth 100000 in
/-- C6: evaluation at the 0x260-byte WBFS header `sampleWbfsHeader`, whose byte at 0x206
is 1: the call succeeds and the disc_number it leaves in the record is 0. -/
theorem wbfs_disc_number_not_read :
    memOf sampleWbfsHeader 0x206 = 1
    ∧ (identify_from_header (some (memOf sampleWbfsHeader)) 0x260 (some GameIdentity.zero)).1
        = true
    ∧ (identify_from_header (some (memOf sampleWbfsHeader)) 0x260 (some GameIdentity.zero)).2.map
        (fun g => g.disc_number) = some 0 := by
  have hm : bytesAt (memOf sampleWbfsHeader) 0 4 = [0x57, 0x42, 0x46, 0x53] := by decide
  refine ⟨by decide, ?_, ?_⟩
  · simp only [identify_from_header]
    rw [identify_rules_wbfs _ _ (by norm_num) hm]
    rfl
  · simp only [identify_from_header]
    rw [identify_rules_wbfs _ _ (by norm_num) hm]
    rfl

set_option maxRecDepth 100000 in
/-- C7: evaluation at the 96-byte disc header `documentedWiiHeader`, which carries the Wii
magic word at 0x18 as the API header documents: the call returns false and leaves the
zeroed record (platform Unknown). -/
theorem magic_at_0x18_not_identified :
    bytesAt (memOf documentedWiiHeader) 0x18 4 = WII_MAGIC
    ∧ containerOf (memOf documentedWiiHeader) = none
    ∧ identify_from_header (some (memOf documentedWiiHeader)) 96 (some GameIdentity.zero)
        = (false, some GameIdentity.zero) := by
  refine ⟨by decide, by decide, by decide⟩

/-! ## The claims on `extract_string` -/

theorem cstr_append_nul (text rest : List Nat) :
    cstr (text ++ 0 :: rest) = cstr text := by
  induction text with
  | nil => simp [cstr]
  | cons x xs ih =>
    unfold cstr at ih ⊢
    by_cases hx : x = 0
    · subst hx
      rfl
    · have hp : (fun b : Nat => decide (b ≠ 0)) x = true := by simpa using hx
      rw [List.cons_append, @List.takeWhile_cons_of_pos _ (fun b : Nat => decide (b ≠ 0)) x _ hp,
        @List.takeWhile_cons_of_pos _ (fun b : Nat => decide (b ≠ 0)) x _ hp, ih]

theorem cstr_eq_self_iff (text : List Nat) : cstr text = text ↔ 0 ∉ text := by
  unfold cstr
  rw [List.takeWhile_eq_self_iff]
  constructor
  · intro h h0
    simpa using h 0 h0
  · intro h x hx
    have : x ≠ 0 := fun e => h (e ▸ hx)
    simpa using this

theorem zero_not_mem_cstr (buf : List Nat) : 0 ∉ cstr buf := by
  intro h
  have := List.mem_takeWhile_imp h
  simp at this

theorem cstr_append_nuls (text rest : List Nat) (k : Nat) :
    cstr (text ++ List.replicate k 0 ++ 0 :: rest) = cstr text := by
  cases k with
  | zero => simpa using cstr_append_nul text rest
  | succ k =>
    rw [List.replicate_succ, List.append_assoc, List.cons_append]
    exact cstr_append_nul text _

/-- C8 as stated fails: on the 3-byte field "A", NUL, "B" the stripped field is the field
itself (its last byte is not trimmable), while the C string left in `dst` is "A". -/
theorem extract_string_embedded_nul :
    cstr (extract_string (memOf fieldEmbeddedNul) (List.replicate 8 0) 3) = [0x41]
    ∧ stripTrailing (bytesAt (memOf fieldEmbeddedNul) 0 3) = [0x41, 0x00, 0x42]
    ∧ cstr (extract_string (memOf fieldEmbeddedNul) (List.replicate 8 0) 3)
        ≠ stripTrailing (bytesAt (memOf fieldEmbeddedNul) 0 3) := by
  refine ⟨by decide, by decide, by decide⟩

/-- C8, amended: for every `len` and every `len`-byte field (with room for `len + 1` bytes
in `dst`), the C string that `extract_string` leaves in `dst` is the field with its maximal
trailing run of spaces and NULs removed, cut at its first NUL byte if one is left; it is
exactly the stripped field if and only if the stripped field has no NUL byte. -/
theorem extract_string_cstr (src : Nat → Nat) (dst : List Nat) (len : Nat)
    (h : len < dst.length) :
    cstr (extract_string src dst len) = cstr (stripTrailing (bytesAt src 0 len))
    ∧ (cstr (extract_string src dst len) = stripTrailing (bytesAt src 0 len)
        ↔ 0 ∉ stripTrailing (bytesAt src 0 len)) := by
  have e : cstr (extract_string src dst len) = cstr (stripTrailing (bytesAt src 0 len)) := by
    rw [extract_string_eq src dst len h]
    exact cstr_append_nuls _ _ _
  exact ⟨e, by rw [e]; exact cstr_eq_self_iff _⟩

/-- Instance of C8 (amended): the 7-byte field "ABC", two spaces, two NULs; the stripped
field, and so the extracted text, is "ABC". -/
theorem extract_string_cstr_witness :
    7 < (List.replicate 8 0).length
    ∧ (cstr (extract_string (memOf fieldABC) (List.replicate 8 0) 7)
        = cstr (stripTrailing (bytesAt (memOf fieldABC) 0 7))
      ∧ (cstr (extract_string (memOf fieldABC) (List.replicate 8 0) 7)
          = stripTrailing (bytesAt (memOf fieldABC) 0 7)
          ↔ 0 ∉ stripTrailing (bytesAt (memOf fieldABC) 0 7)))
    ∧ stripTrailing (bytesAt (memOf fieldABC) 0 7) = [0x41, 0x42, 0x43] :=
  ⟨by decide, extract_string_cstr (memOf fieldABC) (List.replicate 8 0) 7 (by decide), by decide⟩

/-! ## The claim on `identify_from_file` -/

/-- Whatever rule matches, the `file_size` that `identify_rules` leaves is the zero of
the `memset`. -/
theorem identify_rules_file_size (header : Nat → Nat) (header_size : Nat) :
    (identify_rules header header_size).2.file_size = 0 := by
  have hz : GameIdentity.zero.file_size = 0 := rfl
  simp only [identify_rules, Id.run, Id.pure_eq, Id.bind_eq, pure, bind, apply_ite Prod.snd,
    apply_ite GameIdentity.file_size, hz, ite_self]

/-- C9: evaluation at a file of 64 zero bytes (it can be opened; it matches no rule).
Whatever the stack array and the record held before, the `file_size` after
`identify_from_file` is 0, not 64. -/
theorem identify_from_file_size_lost (stack : Nat → Nat) (result : GameIdentity) :
    (List.replicate 64 0).length = 64
    ∧ (identify_from_file (some (List.replicate 64 0)) stack result).2.file_size = 0 := by
  refine ⟨by decide, ?_⟩
  have hr : min 512 (List.replicate 64 0).length = 64 := by decide
  simp only [identify_from_file, hr, identify_from_header, lt_irrefl, if_false, Option.getD_some]
  exact identify_rules_file_size _ _

/-! ## The claim on `get_organized_path` -/

/-- The text that `snprintf` leaves in the buffer when the formatted text fits. -/
theorem cstr_snprintf (buf text : List Nat) (size : Nat) (hfit : text.length < size)
    (h0 : 0 ∉ text) : cstr (snprintf buf size text) = text := by
  unfold snprintf
  have hs : size ≠ 0 := by omega
  rw [if_neg hs, List.take_of_length_le (by omega), cstr_append_nul]
  exact (cstr_eq_self_iff text).2 h0

theorem rom_path_eq (root title a b a1 a2 a3 b1 b2 : List Nat)
    (ha : a = a1 ++ a2 ++ a3) (hb : b = b1 ++ b2) :
    root ++ a ++ title ++ b = root ++ a1 ++ a2 ++ a3 ++ title ++ b1 ++ b2 := by
  subst ha hb
  simp only [List.append_assoc]

theorem path_text_spec (platform : Platform) (root title id expected : List Nat)
    (h : organizedPathSpec platform root title id = some expected) :
    path_text platform root title id = expected := by
  cases platform
  case PLATFORM_WII => exact Option.some.inj h
  case PLATFORM_GAMECUBE => exact Option.some.inj h
  case PLATFORM_WII_U => exact Option.some.inj h
  case PLATFORM_NES =>
    exact (rom_path_eq _ _ _ _ _ _ _ _ _ (by decide) (by decide)).trans (Option.some.inj h)
  case PLATFORM_SNES =>
    exact (rom_path_eq _ _ _ _ _ _ _ _ _ (by decide) (by decide)).trans (Option.some.inj h)
  case PLATFORM_N64 =>
    exact (rom_path_eq _ _ _ _ _ _ _ _ _ (by decide) (by decide)).trans (Option.some.inj h)
  case PLATFORM_GAMEBOY =>
    exact (rom_path_eq _ _ _ _ _ _ _ _ _ (by decide) (by decide)).trans (Option.some.inj h)
  case PLATFORM_GBC =>
    exact (rom_path_eq _ _ _ _ _ _ _ _ _ (by decide) (by decide)).trans (Option.some.inj h)
  case PLATFORM_GBA =>
    exact (rom_path_eq _ _ _ _ _ _ _ _ _ (by decide) (by decide)).trans (Option.some.inj h)
  case PLATFORM_NDS =>
    exact (rom_path_eq _ _ _ _ _ _ _ _ _ (by decide) (by decide)).trans (Option.some.inj h)
  case PLATFORM_GENESIS =>
    exact (rom_path_eq _ _ _ _ _ _ _ _ _ (by decide) (by decide)).trans (Option.some.inj h)
  all_goals exact absurd h (by simp [organizedPathSpec, romDirExt])

theorem zero_not_mem_path_text (platform : Platform) (root title id : List Nat)
    (hr : 0 ∉ root) (ht : 0 ∉ title) (hi : 0 ∉ id) :
    0 ∉ path_text platform root title id := by
  cases platform <;> simp only [path_text, List.mem_append, not_or] <;>
    repeat' apply And.intro
  all_goals first | assumption | decide

theorem percent_s_of_mem (field after : List Nat) (h : 0 ∈ field) :
    percent_s field after = some (cstr field) := by
  unfold percent_s
  rw [if_pos (List.mem_append_left _ h)]
  obtain ⟨s, t, hst⟩ := List.append_of_mem h
  have e1 := cstr_append_nul s t
  have e2 := cstr_append_nul s (t ++ after)
  rw [hst, List.append_assoc, List.cons_append, e1, e2]

theorem format_arguments_some (platform : Platform) (root title id : List Nat) :
    ∃ title1 id1, format_arguments platform (some root) (some title) (some id)
        = some (root, title1, id1)
      ∧ path_text platform root title1 id1 = path_text platform root title id := by
  cases platform <;> exact ⟨_, _, rfl, rfl⟩

set_option maxRecDepth 100000 in
/-- The run-on of `%s`: a WiiU identity whose title id fills all eight bytes of its array
("ABCDEFGH") and whose title starts with "Zelda" gets the directory `ABCDEFGHZelda`. -/
theorem title_id_without_nul_runs_on :
    get_organized_path
        (some { GameIdentity.zero with
                platform := PLATFORM_WII_U
                title_id := ascii "ABCDEFGH"
                game_title := ascii "Zelda" ++ List.replicate 251 0 })
        (some (ascii "E:" ++ [0])) (some (List.replicate 512 0))
      = some (true, some (ascii "E:/wiiu/games/ABCDEFGHZelda/" ++ List.replicate 484 0)) := by
  decide

/-- C10: `get_organized_path` returns false exactly when one of its three arguments is
null; and for every identity whose platform the template table lists and whose `title_id`
and `game_title` arrays hold a NUL, every NUL-terminated drive root and every output
buffer, when the table's text `<root>/wbfs/<title> [<id>]/<id>.wbfs` (Wii),
`<root>/games/<title> [<id>]/game.iso` (GameCube), `<root>/wiiu/games/<id>/` (WiiU) or
`<root>/roms/<Dir>/<title>.<ext>` (ROM platforms) is shorter than 512 characters, the call
returns true and the C string it leaves in the output buffer is exactly that text. -/
theorem get_organized_path_table :
    (∀ (identity : Option GameIdentity) (drive_root output_path : Option (List Nat)),
      (get_organized_path identity drive_root output_path).map Prod.fst = some false
        ↔ identity = none ∨ drive_root = none ∨ output_path = none)
    ∧ (∀ (identity : GameIdentity) (drive_root output_path expected : List Nat),
      0 ∈ drive_root → 0 ∈ identity.game_title → 0 ∈ identity.title_id →
      organizedPathSpec identity.platform (cstr drive_root) (cstr identity.game_title)
          (cstr identity.title_id) = some expected →
      expected.length < 512 →
      ∃ out, get_organized_path (some identity) (some drive_root) (some output_path)
          = some (true, some out) ∧ cstr out = expected) := by
  constructor
  · intro identity drive_root output_path
    cases identity <;> cases drive_root <;> cases output_path <;>
      simp only [get_organized_path, Option.map_some', reduceCtorEq, or_false, or_true,
        true_or, false_or, Option.some.injEq]
    split <;> simp
  · intro identity drive_root output_path expected hroot htitle hid hspec hlen
    have ht := path_text_spec _ _ _ _ _ hspec
    have h0 := zero_not_mem_path_text identity.platform _ _ _ (zero_not_mem_cstr drive_root)
      (zero_not_mem_cstr identity.game_title) (zero_not_mem_cstr identity.title_id)
    rw [ht] at h0
    refine ⟨snprintf output_path 512 expected, ?_, cstr_snprintf _ _ _ hlen h0⟩
    obtain ⟨title1, id1, hargs, hpath⟩ := format_arguments_some identity.platform
      (cstr drive_root) (cstr identity.game_title) (cstr identity.title_id)
    simp only [get_organized_path, percent_s_of_mem _ _ hroot, percent_s_of_mem _ _ htitle,
      percent_s_of_mem _ _ hid, hargs, hpath, ht]

set_option maxRecDepth 100000 in
/-- Instance of C10: "Wii Sports" (RSPE01) on the drive root "E:". -/
theorem get_organized_path_table_witness :
    0 ∈ sampleDriveRoot ∧ 0 ∈ sampleIdentity.game_title ∧ 0 ∈ sampleIdentity.title_id
    ∧ organizedPathSpec sampleIdentity.platform (cstr sampleDriveRoot)
        (cstr sampleIdentity.game_title) (cstr sampleIdentity.title_id)
      = some (ascii "E:/wbfs/Wii Sports [RSPE01]/RSPE01.wbfs")
    ∧ (ascii "E:/wbfs/Wii Sports [RSPE01]/RSPE01.wbfs").length < 512
    ∧ ∃ out, get_organized_path (some sampleIdentity) (some sampleDriveRoot)
          (some (List.replicate 512 0)) = some (true, some out)
        ∧ cstr out = ascii "E:/wbfs/Wii Sports [RSPE01]/RSPE01.wbfs" :=
  ⟨by decide, by decide, by decide, by decide, by decide,
    get_organized_path_table.2 sampleIdentity sampleDriveRoot (List.replicate 512 0)
      (ascii "E:/wbfs/Wii Sports [RSPE01]/RSPE01.wbfs") (by decide) (by decide) (by decide)
      (by decide) (by decide)⟩

/-! ## Lemmas on the CMPR loops -/

theorem read_u16_be_lt (p : Nat → Nat) : read_u16_be p < 2 ^ 16 := by
  unfold read_u16_be
  exact Nat.mod_lt _ (by norm_num)

theorem expand565_bounds (c : Nat) (hc : c < 2 ^ 16) :
    (expand565 c).1 ≤ 248 ∧ (expand565 c).2.1 ≤ 252 ∧ (expand565 c).2.2 ≤ 248 := by
  have h1 : (c >>> 5) &&& 0x3F < 2 ^ 6 := Nat.and_lt_two_pow _ (by norm_num)
  have h2 : c &&& 0x1F < 2 ^ 5 := Nat.and_lt_two_pow _ (by norm_num)
  simp only [expand565, Nat.shiftLeft_eq, Nat.shiftRight_eq_div_pow] at *
  refine ⟨?_, ?_, ?_⟩ <;> omega

theorem cmpr_palette_eq_ref (c0 c1 k : Nat) (h0 : c0 < 2 ^ 16) (h1 : c1 < 2 ^ 16) :
    cmpr_palette c0 c1 k = refPalette c0 c1 k := by
  obtain ⟨a0, a1, a2⟩ := expand565_bounds c0 h0
  obtain ⟨b0, b1, b2⟩ := expand565_bounds c1 h1
  simp only [expand565] at a0 a1 a2 b0 b1 b2
  have e0 : ((c0 >>> 11) <<< 3) % 256 = (c0 >>> 11) <<< 3 := Nat.mod_eq_of_lt (by omega)
  have e1 : (((c0 >>> 5) &&& 0x3F) <<< 2) % 256 = ((c0 >>> 5) &&& 0x3F) <<< 2 :=
    Nat.mod_eq_of_lt (by omega)
  have e2 : ((c0 &&& 0x1F) <<< 3) % 256 = (c0 &&& 0x1F) <<< 3 := Nat.mod_eq_of_lt (by omega)
  have f0 : ((c1 >>> 11) <<< 3) % 256 = (c1 >>> 11) <<< 3 := Nat.mod_eq_of_lt (by omega)
  have f1 : (((c1 >>> 5) &&& 0x3F) <<< 2) % 256 = ((c1 >>> 5) &&& 0x3F) <<< 2 :=
    Nat.mod_eq_of_lt (by omega)
  have f2 : ((c1 &&& 0x1F) <<< 3) % 256 = (c1 &&& 0x1F) <<< 3 := Nat.mod_eq_of_lt (by omega)
  rcases k with _ | _ | _ | k
  · simp only [cmpr_palette, refPalette, expand565, e0, e1, e2]
  · simp only [cmpr_palette, refPalette, expand565, f0, f1, f2, Nat.zero_add]
  · simp only [cmpr_palette, refPalette, expand565, e0, e1, e2, f0, f1, f2, Nat.zero_add]
    split <;> simp (disch := omega) only [Nat.mod_eq_of_lt]
  · simp only [cmpr_palette, refPalette, expand565, e0, e1, e2, f0, f1, f2]
    split
    · simp (disch := omega) only [Nat.mod_eq_of_lt]
    · rfl

theorem store_all_length (buf : List Nat) (stores : List (Nat × Nat)) :
    (store_all buf stores).length = buf.length := by
  unfold store_all
  induction stores generalizing buf with
  | nil => rfl
  | cons s rest ih => rw [List.foldl_cons, ih, List.length_set]

theorem store_all_concat (buf : List Nat) (stores : List (Nat × Nat)) (s : Nat × Nat) :
    store_all buf (stores ++ [s]) = (store_all buf stores).set s.1 s.2 := by
  unfold store_all
  rw [List.foldl_append]
  rfl

/-- The byte an index holds after a sequence of stores, when some store goes to the
index and every store that goes to it carries the same byte. -/
theorem store_all_get (stores : List (Nat × Nat)) (buf : List Nat) (j v : Nat)
    (hj : j < buf.length) (hex : ∃ s ∈ stores, s.1 = j)
    (hall : ∀ s ∈ stores, s.1 = j → s.2 = v) :
    (store_all buf stores)[j]? = some v := by
  induction stores using List.reverseRecOn with
  | nil =>
    obtain ⟨s, hs, _⟩ := hex
    cases hs
  | append_singleton stores s ih =>
    rw [store_all_concat]
    by_cases hsj : s.1 = j
    · have hv : s.2 = v := hall s (by simp) hsj
      rw [hsj, hv, List.getElem?_set_self (by rw [store_all_length]; exact hj)]
    · rw [List.getElem?_set_ne hsj]
      apply ih
      · obtain ⟨t, ht, htj⟩ := hex
        rcases List.mem_append.1 ht with h | h
        · exact ⟨t, h, htj⟩
        · simp at h
          subst h
          exact absurd htj hsj
      · intro t ht htj
        exact hall t (List.mem_append.2 (Or.inl ht)) htj


theorem mem_cmpr_stores (pixels : Nat → Nat) (w h : Nat) (s : Nat × Nat) :
    s ∈ cmpr_stores pixels w h ↔
      ∃ by4, by4 < (h + 3) / 4 ∧ ∃ bx4, bx4 < (w + 3) / 4 ∧ ∃ iy, iy < 4 ∧ ∃ ix, ix < 4 ∧
        ((4 * by4 + iy) * w + (4 * bx4 + ix)) % 2 ^ 32 < (w * h) % 2 ^ 32 ∧
        ∃ c, c < 4 ∧ s = (((((4 * by4 + iy) * w + (4 * bx4 + ix)) % 2 ^ 32) * 4) % 2 ^ 32 + c,
          chan (cmpr_pixel_of_block pixels w (4 * by4) (4 * bx4) iy ix) c) := by
  simp only [cmpr_stores, cmpr_block_stores, List.mem_flatMap, List.mem_range]
  constructor
  · rintro ⟨by4, hby, bx4, hbx, iy, hiy, ix, hix, hs⟩
    refine ⟨by4, hby, bx4, hbx, iy, hiy, ix, hix, ?_⟩
    split at hs
    · rename_i hg
      refine ⟨hg, ?_⟩
      simp only [List.mem_cons, List.mem_singleton, List.not_mem_nil, or_false] at hs
      rcases hs with h | h | h | h
      · exact ⟨0, by norm_num, h⟩
      · exact ⟨1, by norm_num, h⟩
      · exact ⟨2, by norm_num, h⟩
      · exact ⟨3, by norm_num, h⟩
    · cases hs
  · rintro ⟨by4, hby, bx4, hbx, iy, hiy, ix, hix, hg, c, hc, hs⟩
    refine ⟨by4, hby, bx4, hbx, iy, hiy, ix, hix, ?_⟩
    rw [if_pos hg]
    subst hs
    simp only [List.mem_cons, List.mem_singleton, List.not_mem_nil, or_false]
    rcases c with _ | _ | _ | _ | c
    · exact Or.inl rfl
    · exact Or.inr (Or.inl rfl)
    · exact Or.inr (Or.inr (Or.inl rfl))
    · exact Or.inr (Or.inr (Or.inr rfl))
    · omega


theorem pos_unique (w Y X Y' X' : Nat) (hX : X < w) (hX' : X' < w)
    (h : Y' * w + X' = Y * w + X) : Y' = Y ∧ X' = X := by
  have hw : 0 < w := by omega
  have h1 : (Y' * w + X') / w = Y' := by
    rw [Nat.mul_comm, Nat.mul_add_div hw, Nat.div_eq_of_lt hX', Nat.add_zero]
  have h2 : (Y * w + X) / w = Y := by
    rw [Nat.mul_comm, Nat.mul_add_div hw, Nat.div_eq_of_lt hX, Nat.add_zero]
  have hY : Y' = Y := by rw [← h1, ← h2, h]
  subst hY
  exact ⟨rfl, by omega⟩

theorem pos_lt (w h X Y : Nat) (hX : X < w) (hY : Y < h) : Y * w + X < w * h := by
  have := Nat.mul_le_mul_right w (show Y + 1 ≤ h from hY)
  rw [Nat.add_mul, Nat.one_mul, Nat.mul_comm h w] at this
  omega

/-- With no 32-bit overflow, every byte of every pixel of the image is the target of a
store of the CMPR loops: the one of block `(Y / 4, X / 4)` at position `(Y % 4, X % 4)`. -/
theorem cmpr_store_exists (pixels : Nat → Nat) (w h X Y c : Nat)
    (hsz : w * h * 4 < 2 ^ 32) (hX : X < w) (hY : Y < h) (hc : c < 4) :
    (4 * (Y * w + X) + c,
        chan (cmpr_pixel_of_block pixels w (4 * (Y / 4)) (4 * (X / 4)) (Y % 4) (X % 4)) c)
      ∈ cmpr_stores pixels w h := by
  have hp := pos_lt w h X Y hX hY
  have hwh : (w * h) % 2 ^ 32 = w * h := Nat.mod_eq_of_lt (by omega)
  have e1 : 4 * (Y / 4) + Y % 4 = Y := by omega
  have e2 : 4 * (X / 4) + X % 4 = X := by omega
  refine (mem_cmpr_stores pixels w h _).2
    ⟨Y / 4, by omega, X / 4, by omega, Y % 4, by omega, X % 4, by omega, ?_, c, hc, ?_⟩
  · rw [e1, e2, hwh, Nat.mod_eq_of_lt (by omega)]
    exact hp
  · rw [e1, e2, Nat.mod_eq_of_lt (show Y * w + X < 2 ^ 32 by omega),
      Nat.mod_eq_of_lt (show (Y * w + X) * 4 < 2 ^ 32 by omega), Nat.mul_comm (Y * w + X) 4]

/-- With no 32-bit overflow and sides that are multiples of 4, the byte of channel `c`
of the pixel at column `X`, row `Y` after the CMPR loops is the one the loop body
computes for block `(Y / 4, X / 4)` at position `(Y % 4, X % 4)`. -/
theorem cmpr_output_byte (pixels : Nat → Nat) (w h : Nat) (buf : List Nat) (X Y c : Nat)
    (hw4 : 4 ∣ w) (hh4 : 4 ∣ h) (hsz : w * h * 4 < 2 ^ 32) (hlen : buf.length = w * h * 4)
    (hX : X < w) (hY : Y < h) (hc : c < 4) :
    (store_all buf (cmpr_stores pixels w h))[4 * (Y * w + X) + c]?
      = some (chan (cmpr_pixel_of_block pixels w (4 * (Y / 4)) (4 * (X / 4)) (Y % 4) (X % 4)) c) := by
  have hex := cmpr_store_exists pixels w h X Y c hsz hX hY hc
  obtain ⟨wq, hwq⟩ := hw4
  obtain ⟨hq, hhq⟩ := hh4
  have hp := pos_lt w h X Y hX hY
  apply store_all_get
  · rw [hlen]; omega
  · exact ⟨_, hex, rfl⟩
  · intro s hs hsj
    obtain ⟨by4, hby, bx4, hbx, iy, hiy, ix, hix, hg, c', hc', rfl⟩ :=
      (mem_cmpr_stores pixels w h s).1 hs
    have hX' : 4 * bx4 + ix < w := by omega
    have hY' : 4 * by4 + iy < h := by omega
    have hp' := pos_lt w h _ _ hX' hY'
    simp only at hsj
    rw [Nat.mod_eq_of_lt (show (4 * by4 + iy) * w + (4 * bx4 + ix) < 2 ^ 32 by omega),
      Nat.mod_eq_of_lt (show ((4 * by4 + iy) * w + (4 * bx4 + ix)) * 4 < 2 ^ 32 by omega)] at hsj
    have hcc : c' = c := by omega
    have hpp : (4 * by4 + iy) * w + (4 * bx4 + ix) = Y * w + X := by omega
    obtain ⟨hYe, hXe⟩ := pos_unique w Y X _ _ hX hX' hpp
    have b1 : by4 = Y / 4 := by omega
    have b2 : bx4 = X / 4 := by omega
    have b3 : iy = Y % 4 := by omega
    have b4 : ix = X % 4 := by omega
    subst hcc b1 b2 b3 b4
    rfl

theorem cmpr_pixel_of_block_eq_ref (pixels : Nat → Nat) (w h X Y : Nat)
    (hw4 : 4 ∣ w) (hh4 : 4 ∣ h) (hsz : w * h * 4 < 2 ^ 32) (hX : X < w) (hY : Y < h) :
    cmpr_pixel_of_block pixels w (4 * (Y / 4)) (4 * (X / 4)) (Y % 4) (X % 4)
      = refPixel pixels w X Y := by
  obtain ⟨wq, hwq⟩ := hw4
  obtain ⟨hq, hhq⟩ := hh4
  have hwh : w * h = 16 * (wq * hq) := by subst hwq hhq; ring
  have hp := pos_lt wq hq (X / 4) (Y / 4) (by omega) (by omega)
  have e1 : 4 * (Y / 4) / 4 = Y / 4 := by omega
  have e2 : 4 * (X / 4) / 4 = X / 4 := by omega
  have e3 : w / 4 = wq := by omega
  have hb : ((Y / 4 * wq + X / 4) * 8) % 2 ^ 32 = (Y / 4 * wq + X / 4) * 8 :=
    Nat.mod_eq_of_lt (by omega)
  unfold cmpr_pixel_of_block refPixel refBlock refIndex cmpr_block_pixel
  simp only [e1, e2, e3, hb]
  exact cmpr_palette_eq_ref _ _ _ (read_u16_be_lt _) (read_u16_be_lt _)

/-- The four bytes of a pixel, from its channels. -/
theorem pixelAt_of_channels (buf : List Nat) (p : Nat) (t : Nat × Nat × Nat × Nat)
    (h : ∀ c, c < 4 → buf[4 * p + c]? = some (chan t c)) : pixelAt buf p = some t := by
  have h0 := h 0 (by norm_num)
  have h1 := h 1 (by norm_num)
  have h2 := h 2 (by norm_num)
  have h3 := h 3 (by norm_num)
  simp only [chan, Nat.add_zero] at h0 h1 h2 h3
  unfold pixelAt
  rw [h0, h1, h2, h3]

/-- With no 32-bit overflow and sides that are multiples of 4, the pixel at column `X`,
row `Y` after the CMPR loops is the reference pixel. -/
theorem cmpr_output_pixel (pixels : Nat → Nat) (w h : Nat) (buf : List Nat) (X Y : Nat)
    (hw4 : 4 ∣ w) (hh4 : 4 ∣ h) (hsz : w * h * 4 < 2 ^ 32) (hlen : buf.length = w * h * 4)
    (hX : X < w) (hY : Y < h) :
    pixelAt (store_all buf (cmpr_stores pixels w h)) (Y * w + X)
      = some (refPixel pixels w X Y) := by
  apply pixelAt_of_channels
  intro c hc
  rw [cmpr_output_byte pixels w h buf X Y c hw4 hh4 hsz hlen hX hY hc,
    cmpr_pixel_of_block_eq_ref pixels w h X Y hw4 hh4 hsz hX hY]


/-- With no 32-bit overflow every store of the CMPR loops lies inside the buffer of
`width * height * 4` bytes. -/
theorem cmpr_stores_in_bounds (pixels : Nat → Nat) (w h : Nat) (hsz : w * h * 4 < 2 ^ 32)
    (s : Nat × Nat) (hs : s ∈ cmpr_stores pixels w h) : s.1 < w * h * 4 := by
  obtain ⟨by4, _, bx4, _, iy, _, ix, _, hg, c, hc, rfl⟩ := (mem_cmpr_stores pixels w h s).1 hs
  rw [Nat.mod_eq_of_lt (show w * h < 2 ^ 32 by omega)] at hg
  simp only
  rw [Nat.mod_eq_of_lt (show _ * 4 < 2 ^ 32 by omega)]
  omega

/-- The record that the texture step leaves for a texture container with the magic, at
least one image and a descriptor of format 14, when `malloc` succeeds; the three offsets
are named as in the source. -/
theorem decode_texture_cmpr (u8_base node : Nat → Nat) (heap : Heap) (result : BannerData)
    (data_offset image_header_offset pixel_data_offset w h : Nat)
    (hdata : read_u32_be (offsetPtr node 0x04) = data_offset)
    (hmagic : read_u32_be (offsetPtr u8_base data_offset) = 0x0020AF30)
    (hnum : 0 < read_u32_be (offsetPtr (offsetPtr u8_base data_offset) 0x04))
    (himg : read_u32_be (offsetPtr (offsetPtr u8_base data_offset)
      (read_u32_be (offsetPtr (offsetPtr u8_base data_offset) 0x08))) = image_header_offset)
    (hh : read_u16_be (offsetPtr (offsetPtr u8_base data_offset) image_header_offset) = h)
    (hw : read_u16_be
      (offsetPtr (offsetPtr (offsetPtr u8_base data_offset) image_header_offset) 0x02) = w)
    (hfmt : read_u32_be
      (offsetPtr (offsetPtr (offsetPtr u8_base data_offset) image_header_offset) 0x04) = 14)
    (hpix : read_u32_be
      (offsetPtr (offsetPtr (offsetPtr u8_base data_offset) image_header_offset) 0x08)
        = pixel_data_offset)
    (hmalloc : heap.malloc_ok ((w * h * 4) % 2 ^ 32) = true) :
    decode_texture u8_base node heap result =
      { result with
        texture_height := h
        texture_width := w
        rgba_size := (w * h * 4) % 2 ^ 32
        rgba_data := some (store_all (fresh_block heap ((w * h * 4) % 2 ^ 32))
          (cmpr_stores (offsetPtr (offsetPtr u8_base data_offset) pixel_data_offset) w h)) } := by
  subst hdata himg hpix hh hw
  unfold decode_texture
  simp only [hmagic, hfmt, hmalloc, gt_iff_lt, hnum, if_true]

/-! ## The claims on the CMPR decoding -/

/-- C11: block decompression equals the reference definition. For a texture container
with the magic, at least one image and a first descriptor of format 14 whose width `w` and
height `h` are multiples of 4 with `w * h * 4 < 2^32`, when `malloc` succeeds the texture
step leaves width `w`, height `h`, `rgba_size = w * h * 4` and a buffer of that length in
which, for every column `X < w` and row `Y < h` (so `w` and `h` are positive), the pixel
number `Y * w + X` is the reference pixel of section 4.3: palette entry `refIndex` of
block number `(Y/4)*(w/4) + (X/4)` of the payload. Each of its four bytes is the target
of a store of the loops, so every output pixel is written. -/
theorem cmpr_decode_ref (u8_base node : Nat → Nat) (heap : Heap) (result : BannerData)
    (data_offset image_header_offset pixel_data_offset w h X Y : Nat)
    (hdata : read_u32_be (offsetPtr node 0x04) = data_offset)
    (hmagic : read_u32_be (offsetPtr u8_base data_offset) = 0x0020AF30)
    (hnum : 0 < read_u32_be (offsetPtr (offsetPtr u8_base data_offset) 0x04))
    (himg : read_u32_be (offsetPtr (offsetPtr u8_base data_offset)
      (read_u32_be (offsetPtr (offsetPtr u8_base data_offset) 0x08))) = image_header_offset)
    (hh : read_u16_be (offsetPtr (offsetPtr u8_base data_offset) image_header_offset) = h)
    (hw : read_u16_be
      (offsetPtr (offsetPtr (offsetPtr u8_base data_offset) image_header_offset) 0x02) = w)
    (hfmt : read_u32_be
      (offsetPtr (offsetPtr (offsetPtr u8_base data_offset) image_header_offset) 0x04) = 14)
    (hpix : read_u32_be
      (offsetPtr (offsetPtr (offsetPtr u8_base data_offset) image_header_offset) 0x08)
        = pixel_data_offset)
    (hw4 : 4 ∣ w) (hh4 : 4 ∣ h) (hsz : w * h * 4 < 2 ^ 32)
    (hmalloc : heap.malloc_ok (w * h * 4) = true) (hX : X < w) (hY : Y < h) :
    ∃ out, (decode_texture u8_base node heap result).rgba_data = some out
      ∧ out.length = w * h * 4
      ∧ (decode_texture u8_base node heap result).rgba_size = w * h * 4
      ∧ (decode_texture u8_base node heap result).texture_width = w
      ∧ (decode_texture u8_base node heap result).texture_height = h
      ∧ pixelAt out (Y * w + X)
          = some (refPixel (offsetPtr (offsetPtr u8_base data_offset) pixel_data_offset) w X Y)
      ∧ ∀ c, c < 4 →
          ∃ s ∈ cmpr_stores (offsetPtr (offsetPtr u8_base data_offset) pixel_data_offset) w h,
            s.1 = 4 * (Y * w + X) + c := by
  have hmod : (w * h * 4) % 2 ^ 32 = w * h * 4 := Nat.mod_eq_of_lt hsz
  have hr := decode_texture_cmpr u8_base node heap result data_offset image_header_offset
    pixel_data_offset w h hdata hmagic hnum himg hh hw hfmt hpix (by rw [hmod]; exact hmalloc)
  rw [hmod] at hr
  have hlen : (fresh_block heap (w * h * 4)).length = w * h * 4 := by simp [fresh_block]
  refine ⟨store_all (fresh_block heap (w * h * 4))
    (cmpr_stores (offsetPtr (offsetPtr u8_base data_offset) pixel_data_offset) w h),
    ?_, ?_, ?_, ?_, ?_, ?_, ?_⟩
  · rw [hr]
  · rw [store_all_length, hlen]
  · rw [hr]
  · rw [hr]
  · rw [hr]
  · exact cmpr_output_pixel _ w h _ X Y hw4 hh4 hsz hlen hX hY
  · intro c hc
    exact ⟨_, cmpr_store_exists _ w h X Y c hsz hX hY hc, rfl⟩

set_option maxRecDepth 100000 in
/-- Instance of C11: the 4x4 texture of the archive `archiveFirstBanner` (file node at
0x2C, texture container at 0x50, descriptor at 0x14 and payload at 0x40 of the
container), pixel (0, 0). -/
theorem cmpr_decode_ref_witness :
    ∃ out, (decode_texture (memOf archiveFirstBanner) (offsetPtr (memOf archiveFirstBanner) 0x2C)
          plainHeap staleBanner).rgba_data = some out
      ∧ out.length = 4 * 4 * 4
      ∧ (decode_texture (memOf archiveFirstBanner) (offsetPtr (memOf archiveFirstBanner) 0x2C)
          plainHeap staleBanner).rgba_size = 4 * 4 * 4
      ∧ (decode_texture (memOf archiveFirstBanner) (offsetPtr (memOf archiveFirstBanner) 0x2C)
          plainHeap staleBanner).texture_width = 4
      ∧ (decode_texture (memOf archiveFirstBanner) (offsetPtr (memOf archiveFirstBanner) 0x2C)
          plainHeap staleBanner).texture_height = 4
      ∧ pixelAt out (0 * 4 + 0)
          = some (refPixel (offsetPtr (offsetPtr (memOf archiveFirstBanner) 0x50) 0x40) 4 0 0)
      ∧ ∀ c, c < 4 →
          ∃ s ∈ cmpr_stores (offsetPtr (offsetPtr (memOf archiveFirstBanner) 0x50) 0x40) 4 4,
            s.1 = 4 * (0 * 4 + 0) + c :=
  cmpr_decode_ref (memOf archiveFirstBanner) (offsetPtr (memOf archiveFirstBanner) 0x2C) plainHeap
    staleBanner 0x50 0x14 0x40 4 4 0 0 (by decide) (by decide) (by decide) (by decide)
    (by decide) (by decide) (by decide) (by decide) (by decide) (by decide) (by decide)
    (by decide) (by decide) (by decide)

set_option maxRecDepth 100000 in
/-- C12 as stated fails: the block `whiteBlock` has c0 = 0xFFFF, c1 = 0x0000 and index
word 0; its pixel at position (0, 0) is (248, 252, 248, 255), and the 4x4 image that
`parse_opening_banner` decodes from `whiteBanner` is 16 times that pixel. -/
theorem white_block_is_not_255 :
    read_u16_be (memOf whiteBlock) = 0xFFFF
    ∧ read_u16_be (offsetPtr (memOf whiteBlock) 2) = 0x0000
    ∧ read_u32_be (offsetPtr (memOf whiteBlock) 4) = 0
    ∧ cmpr_block_pixel 0xFFFF 0x0000 0 0 0 = (248, 252, 248, 255)
    ∧ cmpr_block_pixel 0xFFFF 0x0000 0 0 0 ≠ (255, 255, 255, 255)
    ∧ (parse_opening_banner (some whiteBanner) plainHeap (some staleBanner)).2.map
          (fun r => r.rgba_data)
        = some (some (List.replicate 16 [248, 252, 248, 255]).flatten) := by
  refine ⟨by decide, by decide, by decide, by decide, by decide, by decide⟩

/-- C12, amended: for a block with c0 = 0xFFFF, c1 = 0x0000 and all 32 index bits zero,
every one of the block's 16 pixels (every row `iy` and column `ix`) decodes to
(248, 252, 248, 255). -/
theorem white_block_pixels (iy ix : Nat) :
    cmpr_block_pixel 0xFFFF 0x0000 0 iy ix = (248, 252, 248, 255) := by
  have h : (0 >>> (30 - (iy * 4 + ix) * 2)) &&& 0x03 = 0 := by
    rw [Nat.zero_shiftRight, Nat.zero_and]
  unfold cmpr_block_pixel
  simp only [h]
  decide

/-- C13: for every block with c0 <= c1 and every position of the block whose 2-bit index
is 3, the pixel computed for that position is (0, 0, 0, 0); and in an image whose width
and height are multiples of 4 (with `w * h * 4 < 2^32`, so that the buffer holds the
image), the output pixel at column `X`, row `Y` is (0, 0, 0, 0) whenever its block has
c0 <= c1 and its index is 3. -/
theorem cmpr_transparent :
    (∀ c0 c1 bits iy ix : Nat, c0 ≤ c1 →
      (bits >>> (30 - ((iy * 4 + ix) * 2))) &&& 0x03 = 3 →
      cmpr_block_pixel c0 c1 bits iy ix = (0, 0, 0, 0))
    ∧ (∀ (pixels : Nat → Nat) (w h : Nat) (buf : List Nat) (X Y : Nat),
      4 ∣ w → 4 ∣ h → w * h * 4 < 2 ^ 32 → buf.length = w * h * 4 → X < w → Y < h →
      read_u16_be (refBlock pixels w X Y) ≤ read_u16_be (offsetPtr (refBlock pixels w X Y) 2) →
      refIndex (read_u32_be (offsetPtr (refBlock pixels w X Y) 4)) X Y = 3 →
      pixelAt (store_all buf (cmpr_stores pixels w h)) (Y * w + X) = some (0, 0, 0, 0)) := by
  constructor
  · intro c0 c1 bits iy ix hle hidx
    unfold cmpr_block_pixel
    simp only [hidx, cmpr_palette, if_neg (Nat.not_lt.2 hle)]
  · intro pixels w h buf X Y hw4 hh4 hsz hlen hX hY hle hidx
    rw [cmpr_output_pixel pixels w h buf X Y hw4 hh4 hsz hlen hX hY]
    unfold refPixel
    rw [hidx]
    simp only [refPalette, if_neg (Nat.not_lt.2 hle)]

/-- Instance of C13: c0 = 0x0000, c1 = 0xFFFF, all index bits set, position (2, 1). -/
theorem cmpr_transparent_witness :
    0x0000 ≤ 0xFFFF ∧ (0xFFFFFFFF >>> (30 - ((2 * 4 + 1) * 2))) &&& 0x03 = 3
    ∧ cmpr_block_pixel 0x0000 0xFFFF 0xFFFFFFFF 2 1 = (0, 0, 0, 0) :=
  ⟨by decide, by decide,
    cmpr_transparent.1 0x0000 0xFFFF 0xFFFFFFFF 2 1 (by decide) (by decide)⟩

set_option maxRecDepth 100000 in
/-- C14: evaluation at `overflowBanner`, whose descriptor declares height 0x8004 and
width 0x8000 with format 14. The call records `rgba_size` = 524288 (the 32-bit value of
0x8000 * 0x8004 * 4) and allocates that many bytes, and whatever the payload is, the loops
store at byte index 524288 (row 4, column 0), which is not below `rgba_size`. -/
theorem cmpr_store_past_buffer (pixels : Nat → Nat) :
    (parse_opening_banner (some overflowBanner) plainHeap (some staleBanner)).2.map
        (fun r => (r.texture_width, r.texture_height, r.rgba_size, r.rgba_data.isSome))
      = some (0x8000, 0x8004, 524288, true)
    ∧ ∃ s ∈ cmpr_stores pixels 0x8000 0x8004, s.1 = 524288 := by
  refine ⟨by decide, ?_⟩
  refine ⟨_, (mem_cmpr_stores pixels 0x8000 0x8004 _).2
    ⟨1, by norm_num, 0, by norm_num, 0, by norm_num, 0, by norm_num, by norm_num, 0,
      by norm_num, rfl⟩, by norm_num⟩

set_option maxRecDepth 100000 in
/-- C15: evaluation at `overflowBanner` (height 0x8004, width 0x8000, format 14): the
call produces an RGBA buffer and records `rgba_size` = 524288, while
texture_width * texture_height * 4 = 4295491584. -/
theorem rgba_size_wraps :
    (parse_opening_banner (some overflowBanner) plainHeap (some staleBanner)).2.map
        (fun r => (r.rgba_data.isSome, r.rgba_size, r.texture_width * r.texture_height * 4))
      = some (true, 524288, 4295491584) := by
  decide

set_option maxRecDepth 100000 in
/-- C16: evaluation at `format1Banner`, whose first image descriptor has pixel format 1:
the call returns true and the record holds width 4, height 4, `rgba_size` = 64 and a
buffer of 64 bytes that were never written (the content of the fresh block). -/
theorem unsupported_format_keeps_buffer :
    (parse_opening_banner (some format1Banner) plainHeap (some staleBanner)).1 = true
    ∧ (parse_opening_banner (some format1Banner) plainHeap (some staleBanner)).2.map
        (fun r => (r.texture_width, r.texture_height, r.rgba_size, r.rgba_data))
      = some (4, 4, 64, some (List.replicate 64 0xCD)) := by
  refine ⟨by decide, by decide⟩

/-! ## Lemmas on the text step -/

theorem byte_lt (p : Nat → Nat) (i : Nat) : byte p i < 256 := Nat.mod_lt _ (by norm_num)

theorem utf16_code (src : Nat → Nat) (i : Nat) :
    ((byte src i <<< 8) ||| byte src (i + 1)) % 2 ^ 16 = byte src i * 256 + byte src (i + 1) := by
  have h1 := byte_lt src i
  have h2 := byte_lt src (i + 1)
  have e : byte src i <<< 8 ||| byte src (i + 1) = 2 ^ 8 * byte src i + byte src (i + 1) := by
    rw [Nat.mul_add_lt_is_or (by norm_num; exact h2), Nat.shiftLeft_eq, Nat.mul_comm]
  rw [e, Nat.mod_eq_of_lt (by omega)]
  omega

theorem lossyChar_ne_zero (u : Nat) (hu : u ≠ 0) : lossyChar u ≠ 0 := by
  unfold lossyChar
  split <;> omega

theorem cstr_set_nul (dest : List Nat) (m : Nat) (hm : m < dest.length) (h0 : 0 ∉ dest.take m) :
    cstr (dest.set m 0) = dest.take m := by
  rw [List.set_eq_take_append_cons_drop, if_pos hm, cstr_append_nul]
  exact (cstr_eq_self_iff _).2 h0

theorem take_succ_set (dest : List Nat) (m ch : Nat) (hm : m < dest.length) :
    (dest.set m ch).take (m + 1) = dest.take m ++ [ch] := by
  have hl : (dest.take m).length = m := by rw [List.length_take]; omega
  rw [List.set_eq_take_append_cons_drop, if_pos hm, List.take_append_eq_append_take, hl,
    List.take_of_length_le (by omega), show m + 1 - m = 1 by omega]
  rfl

/-- The text of `dest` after the loop of `utf16be_to_utf8` over a 64-byte field, entered
with `i = 2 * m` and `j = m`: what `dest` held before position `m`, then the conversion of
the code units from unit `m` to the end of the field or the first zero unit. -/
theorem utf16be_loop_cstr (src : Nat → Nat) :
    ∀ (fuel m : Nat) (dest : List Nat), m ≤ 32 → 32 - m ≤ fuel → 32 < dest.length →
      0 ∉ dest.take m →
      cstr (utf16be_loop src 64 fuel (2 * m) m dest)
        = dest.take m ++ ((unitsFrom src (32 - m) m).takeWhile (· ≠ 0)).map lossyChar := by
  intro fuel
  induction fuel with
  | zero =>
    intro m dest hm hf hlen h0
    have hm32 : m = 32 := by omega
    subst hm32
    simp only [utf16be_loop, Nat.sub_self, unitsFrom, List.takeWhile_nil, List.map_nil,
      List.append_nil]
    exact cstr_set_nul dest 32 hlen h0
  | succ fuel ih =>
    intro m dest hm hf hlen h0
    unfold utf16be_loop
    by_cases hm32 : m = 32
    · subst hm32
      simp only [Nat.sub_self, unitsFrom, List.takeWhile_nil, List.map_nil, List.append_nil]
      rw [if_neg (by omega)]
      exact cstr_set_nul dest 32 hlen h0
    · have hlt : m < 32 := by omega
      have hcond : 2 * m < 64 - 1 ∧ m < 63 := by omega
      rw [if_pos hcond]
      simp only [utf16_code]
      obtain ⟨n, hn⟩ : ∃ n, 32 - m = n + 1 := ⟨31 - m, by omega⟩
      have hn' : 32 - (m + 1) = n := by omega
      rw [hn]
      simp only [unitsFrom]
      by_cases hz : byte src (2 * m) * 256 + byte src (2 * m + 1) = 0
      · rw [if_pos hz, hz]
        simp only [ne_eq, not_true_eq_false, decide_False, List.takeWhile_cons_of_neg,
          Bool.false_eq_true, not_false_eq_true, List.map_nil, List.append_nil]
        exact cstr_set_nul dest m (by omega) h0
      · rw [if_neg hz]
        have htw : ((byte src (2 * m) * 256 + byte src (2 * m + 1)) :: unitsFrom src n (m + 1)).takeWhile
            (· ≠ 0) = (byte src (2 * m) * 256 + byte src (2 * m + 1))
              :: (unitsFrom src n (m + 1)).takeWhile (· ≠ 0) := by
          exact List.takeWhile_cons_of_pos (decide_eq_true hz)
        rw [htw, List.map_cons]
        have hstep : ∀ ch, ch ≠ 0 →
            cstr (utf16be_loop src 64 fuel (2 * m + 2) (m + 1) (dest.set m ch))
              = dest.take m ++ ch :: ((unitsFrom src n (m + 1)).takeWhile (· ≠ 0)).map lossyChar := by
          intro ch hch
          have h0' : 0 ∉ (dest.set m ch).take (m + 1) := by
            rw [take_succ_set dest m ch (by omega)]
            intro hmem
            rcases List.mem_append.1 hmem with h | h
            · exact h0 h
            · simp at h
              exact hch h.symm
          have := ih (m + 1) (dest.set m ch) (by omega) (by omega)
            (by rw [List.length_set]; exact hlen) h0'
          rw [show 2 * (m + 1) = 2 * m + 2 by ring, take_succ_set dest m ch (by omega), hn'] at this
          rw [this, List.append_assoc]
          rfl
        by_cases hlow : byte src (2 * m) * 256 + byte src (2 * m + 1) < 0x80
        · rw [if_pos hlow, hstep _ hz]
          simp only [lossyChar, if_pos hlow]
        · rw [if_neg hlow, hstep 0x3F (by norm_num)]
          simp only [lossyChar, if_neg hlow]

theorem utf16Units_bytes (src : Nat → Nat) :
    ∀ n m, utf16Units ((List.range' (2 * m) (2 * n)).map (byte src)) = unitsFrom src n m := by
  intro n
  induction n with
  | zero => intro m; rfl
  | succ n ih =>
    intro m
    rw [show 2 * (n + 1) = 2 * n + 1 + 1 by ring, List.range'_succ, List.range'_succ]
    simp only [List.map_cons, utf16Units, unitsFrom]
    rw [show 2 * m + 1 + 1 = 2 * (m + 1) by ring, ih]

/-- The C string that `utf16be_to_utf8(src, dest, 64)` leaves in an array `dest` of more
than 32 bytes is the lossy conversion of the 64-byte field at `src`. -/
theorem utf16be_to_utf8_cstr (src : Nat → Nat) (dest : List Nat) (hlen : 32 < dest.length) :
    cstr (utf16be_to_utf8 src dest 64) = lossyText (bytesOf src 64) := by
  have h := utf16be_loop_cstr src 64 0 dest (by norm_num) (by norm_num) hlen (by simp)
  have hu := utf16Units_bytes src 32 0
  unfold utf16be_to_utf8
  simp only [Nat.mul_zero, List.take_zero, List.nil_append, Nat.sub_zero] at h hu
  rw [h]
  unfold lossyText bytesOf
  rw [List.range_eq_range', hu]


/-- The texture step changes only the image fields. -/
theorem decode_texture_keeps (u8_base node : Nat → Nat) (heap : Heap) (result : BannerData) :
    (decode_texture u8_base node heap result).game_title = result.game_title
    ∧ (decode_texture u8_base node heap result).game_subtitle = result.game_subtitle
    ∧ (decode_texture u8_base node heap result).pcm_data = result.pcm_data
    ∧ (decode_texture u8_base node heap result).pcm_size = result.pcm_size := by
  unfold decode_texture
  simp only
  split
  · split
    · split
      · split <;> exact ⟨rfl, rfl, rfl, rfl⟩
      · exact ⟨rfl, rfl, rfl, rfl⟩
    · exact ⟨rfl, rfl, rfl, rfl⟩
  · exact ⟨rfl, rfl, rfl, rfl⟩

/-- The node loop changes only the image fields. -/
theorem node_loop_keeps (u8_base nodes strings : Nat → Nat) (heap : Heap) (result : BannerData) :
    ∀ left i,
      (node_loop u8_base nodes strings heap result left i).game_title = result.game_title
      ∧ (node_loop u8_base nodes strings heap result left i).game_subtitle = result.game_subtitle
      ∧ (node_loop u8_base nodes strings heap result left i).pcm_data = result.pcm_data
      ∧ (node_loop u8_base nodes strings heap result left i).pcm_size = result.pcm_size := by
  intro left
  induction left with
  | zero => intro i; exact ⟨rfl, rfl, rfl, rfl⟩
  | succ left ih =>
    intro i
    unfold node_loop
    simp only
    split
    · exact decode_texture_keeps _ _ _ _
    · exact ih (i + 1)

/-- The bytes that the buffer holds inside the file are the bytes of the file. -/
theorem bytesOf_file_buffer (bytes : List Nat) (heap : Heap) (off len : Nat)
    (hfit : off + len ≤ bytes.length) (hbytes : ∀ b ∈ bytes, b < 256) :
    bytesOf (offsetPtr (file_buffer bytes heap) off) len = (bytes.drop off).take len := by
  apply List.ext_getElem
  · simp [bytesOf]; omega
  · intro i h1 h2
    have hi : i < len := by simpa [bytesOf] using h1
    have hlt : off + i < bytes.length := by omega
    simp only [bytesOf, List.getElem_map, List.getElem_range, byte, offsetPtr, file_buffer,
      if_pos hlt, List.getElem_take, List.getElem_drop]
    rw [List.getD_eq_getElem _ _ hlt]
    exact Nat.mod_eq_of_lt (hbytes _ (List.getElem_mem _))

/-- The call on a readable file: it returns true, never sets the audio fields, and the
two texts are those of the text step. -/
theorem parse_opening_banner_texts (bytes : List Nat) (heap : Heap) (result : BannerData)
    (hmalloc : heap.malloc_ok bytes.length = true) :
    ∃ r, parse_opening_banner (some bytes) heap (some result) = (true, some r)
      ∧ r.pcm_data = none ∧ r.pcm_size = 0
      ∧ r.game_title =
          (if bytesOf (file_buffer bytes heap) 4 = IMET then
            utf16be_to_utf8 (offsetPtr (file_buffer bytes heap) 0x80)
              (List.replicate 128 0 ++ result.game_title.drop 128) 64
          else strncpy (List.replicate 128 0 ++ result.game_title.drop 128)
            (ascii "Unknown Title") 64)
      ∧ r.game_subtitle =
          (if bytesOf (file_buffer bytes heap) 4 = IMET then
            utf16be_to_utf8 (offsetPtr (file_buffer bytes heap) 0xC0)
              (List.replicate 128 0 ++ result.game_subtitle.drop 128) 64
          else strncpy (List.replicate 128 0 ++ result.game_subtitle.drop 128)
            (ascii "Unknown Publisher") 64) := by
  unfold parse_opening_banner
  simp only [hmalloc, not_true_eq_false, if_false]
  split
  · rename_i hoff
    refine ⟨_, rfl, ?_⟩
    obtain ⟨h1, h2, h3, h4⟩ := node_loop_keeps
      (offsetPtr (file_buffer bytes heap)
        (scan_u8 (file_buffer bytes heap) ((bytes.length + 2 ^ 64 - 4) % 2 ^ 64) 0))
      _ _ heap _ _ 0
    rw [h1, h2, h3, h4]
    split <;> exact ⟨rfl, rfl, rfl, rfl⟩
  · refine ⟨_, rfl, ?_⟩
    split <;> exact ⟨rfl, rfl, rfl, rfl⟩


theorem offsetPtr_zero (p : Nat → Nat) : offsetPtr p 0 = p := by
  funext i
  simp [offsetPtr]

theorem imet_test (bytes : List Nat) (heap : Heap) (hlen : 4 ≤ bytes.length)
    (hbytes : ∀ b ∈ bytes, b < 256) :
    bytesOf (file_buffer bytes heap) 4 = bytes.take 4 := by
  have h := bytesOf_file_buffer bytes heap 0 4 (by omega) hbytes
  rw [offsetPtr_zero, List.drop_zero] at h
  exact h

/-- The C string that `strncpy(dst, s, 64)` leaves for a literal shorter than 64 bytes. -/
theorem cstr_strncpy (dst s : List Nat) (hs : s.length < 64) (h0 : 0 ∉ s) :
    cstr (strncpy dst s 64) = s := by
  obtain ⟨k, hk⟩ : ∃ k, 64 - s.length = k + 1 := ⟨63 - s.length, by omega⟩
  unfold strncpy
  rw [List.take_of_length_le (by omega), hk, List.replicate_succ, List.append_assoc,
    List.cons_append, cstr_append_nul]
  exact (cstr_eq_self_iff s).2 h0

/-! ## The archive scan and the whole pipeline -/

/-- The scan leaves `u8_offset` at 0 when no offset it visits holds the magic. -/
theorem scan_u8_none (buffer : Nat → Nat) :
    ∀ left i, (∀ k, i ≤ k → k < i + left → read_u32_be (offsetPtr buffer k) ≠ U8_MAGIC) →
      scan_u8 buffer left i = 0 := by
  intro left
  induction left with
  | zero => intro i _; rfl
  | succ left ih =>
    intro i h
    unfold scan_u8
    rw [if_neg (h i (le_refl i) (by omega))]
    exact ih (i + 1) fun k hk1 hk2 => h k (by omega) (by omega)

/-- On a file of at least 4 bytes in which no offset below `length - 4` holds the archive
magic, the call returns true and the image fields keep their defaults. -/
theorem no_magic_defaults (bytes : List Nat) (heap : Heap) (result : BannerData)
    (hlen : 4 ≤ bytes.length) (hmalloc : heap.malloc_ok bytes.length = true)
    (hno : ∀ k, k < bytes.length - 4 →
      read_u32_be (offsetPtr (file_buffer bytes heap) k) ≠ U8_MAGIC) :
    ∃ r, parse_opening_banner (some bytes) heap (some result) = (true, some r)
      ∧ r.texture_width = 0 ∧ r.texture_height = 0 ∧ r.rgba_data = none ∧ r.rgba_size = 0 := by
  have hb : (bytes.length + 2 ^ 64 - 4) % 2 ^ 64 = (bytes.length - 4) % 2 ^ 64 := by
    rw [show bytes.length + 2 ^ 64 - 4 = (bytes.length - 4) + 2 ^ 64 by omega, Nat.add_mod_right]
  have hscan : scan_u8 (file_buffer bytes heap) ((bytes.length + 2 ^ 64 - 4) % 2 ^ 64) 0 = 0 := by
    apply scan_u8_none
    intro k _ hk
    rw [hb, Nat.zero_add] at hk
    exact hno k (lt_of_lt_of_le hk (Nat.mod_le _ _))
  unfold parse_opening_banner
  simp only [hmalloc, not_true_eq_false, if_false, hscan, ne_eq]
  refine ⟨_, rfl, ?_⟩
  split <;> exact ⟨rfl, rfl, rfl, rfl⟩

set_option maxRecDepth 100000 in
/-- C17: evaluation at a file of 3 zero bytes. The scan bound `fsize - 4` is negative and
is compared as an unsigned value, so the scan runs past the 3-byte buffer; with the heap
`archiveAfterBufferHeap`, which holds an archive after the buffer, the record gets a 4x4
image although the file holds no archive magic. -/
theorem short_file_scans_heap :
    (parse_opening_banner (some [0, 0, 0]) archiveAfterBufferHeap (some staleBanner)).2.map
        (fun r => (r.texture_width, r.texture_height, r.rgba_size, r.rgba_data.isSome))
      = some (4, 4, 64, true) := by
  decide

set_option maxRecDepth 100000 in
/-- C20: evaluation at `archiveFirstBanner`, a file that starts with the archive magic:
the archive steps are skipped (no image), while the same archive after 4 zero bytes
(`whiteBanner`) is opened and decoded. -/
theorem archive_at_offset_zero_skipped :
    read_u32_be (memOf archiveFirstBanner) = U8_MAGIC
    ∧ (parse_opening_banner (some archiveFirstBanner) plainHeap (some staleBanner)).2.map
        (fun r => (r.texture_width, r.texture_height, r.rgba_size, r.rgba_data))
      = some (0, 0, 0, none)
    ∧ (parse_opening_banner (some whiteBanner) plainHeap (some staleBanner)).2.map
        (fun r => (r.texture_width, r.texture_height, r.rgba_size, r.rgba_data.isSome))
      = some (4, 4, 64, true) := by
  refine ⟨by decide, by decide, by decide⟩

/-! ## Lemmas on the if-chain of `identify_rules` -/

theorem check_magic_true (header : Nat → Nat) (offset : Nat) (magic : List Nat)
    (magic_len header_size : Nat) (h : offset + magic_len ≤ header_size)
    (hm : bytesAt header offset magic_len = magic.take magic_len) :
    check_magic header offset magic magic_len header_size = true :=
  (check_magic_iff _ _ _ _ _).2 ⟨h, hm⟩

theorem check_magic_false (header : Nat → Nat) (offset : Nat) (magic : List Nat)
    (magic_len header_size : Nat)
    (hm : ¬ bytesAt header offset magic_len = magic.take magic_len) :
    check_magic header offset magic magic_len header_size = false := by
  rw [← Bool.not_eq_true, check_magic_iff]
  exact fun h => hm h.2

/-- The outcome of the if-chain of `identify_rules` on a header of at least 64 bytes, rule
by rule: the signature found and the record returned, or no guarded signature and
`false` with the zeroed record. -/
theorem identify_rules_cases (header : Nat → Nat) (header_size : Nat) (h64 : 64 ≤ header_size) :
    (bytesAt header 0 4 = WBFS_MAGIC ∧
      identify_rules header header_size =
        (true, if header_size ≥ 0x200 + 64 then
          { GameIdentity.zero with
            platform := PLATFORM_WII, format := FORMAT_WBFS
            title_id := nulPad 8 (stripTrailing (bytesAt header 0x200 6))
            game_title := nulPad 256 (stripTrailing (bytesAt header 0x220 64))
            region := header 0x203 }
        else { GameIdentity.zero with platform := PLATFORM_WII, format := FORMAT_WBFS }))
    ∨ (bytesAt header 0 3 = RVZ_MAGIC.take 3 ∧
      identify_rules header header_size =
        (true, { GameIdentity.zero with platform := PLATFORM_WII, format := FORMAT_RVZ }))
    ∨ (bytesAt header 0 3 = WUD_MAGIC.take 3 ∧
      identify_rules header header_size =
        (true, { GameIdentity.zero with platform := PLATFORM_WII_U, format := FORMAT_WUD }))
    ∨ (containerOf header = none ∧
      (bytesAt header 0x1C 4 = WII_MAGIC ∨ bytesAt header 0x1C 4 = GC_MAGIC) ∧
      identify_rules header header_size =
        (true, { GameIdentity.zero with
          platform := if bytesAt header 0x1C 4 = WII_MAGIC then PLATFORM_WII else PLATFORM_GAMECUBE
          format := FORMAT_ISO
          title_id := nulPad 8 (stripTrailing (bytesAt header 0 6))
          game_title := nulPad 256 (stripTrailing (bytesAt header 0x20 64))
          region := header 3
          disc_number := header 6 }))
    ∨ (bytesAt header 0 4 = NES_MAGIC ∧
      identify_rules header header_size =
        (true, { GameIdentity.zero with
          platform := PLATFORM_NES
          game_title := strcpy (List.replicate 256 0) NES_ROM }))
    ∨ ((bytesAt header 0 4 = N64_MAGIC_Z64 ∨ bytesAt header 0 4 = N64_MAGIC_N64
        ∨ bytesAt header 0 4 = N64_MAGIC_V64) ∧
      identify_rules header header_size =
        (true, { GameIdentity.zero with
          platform := PLATFORM_N64
          game_title := nulPad 256 (stripTrailing (bytesAt header 0x20 20))
          title_id := nulPad 8 (stripTrailing (bytesAt header 0x3B 4)) }))
    ∨ (0x150 ≤ header_size ∧ bytesAt header 0x104 8 = GB_LOGO ∧
      identify_rules header header_size =
        (true, { GameIdentity.zero with
          platform := if header 0x143 = 0x80 ∨ header 0x143 = 0xC0 then PLATFORM_GBC
                      else PLATFORM_GAMEBOY
          game_title := nulPad 256 (stripTrailing (bytesAt header 0x134 16)) }))
    ∨ (0xC0 ≤ header_size ∧ bytesAt header 0x04 8 = GBA_LOGO ∧
      identify_rules header header_size =
        (true, { GameIdentity.zero with
          platform := PLATFORM_GBA
          game_title := nulPad 256 (stripTrailing (bytesAt header 0xA0 12))
          title_id := nulPad 8 (stripTrailing (bytesAt header 0xAC 4)) }))
    ∨ (0x160 ≤ header_size ∧ bytesAt header 0xC0 4 = NDS_LOGO ∧
      (0 < read_u32_le header 0x80 ∧ read_u32_le header 0x80 < 0x20000000) ∧
      identify_rules header header_size =
        (true, { GameIdentity.zero with
          platform := PLATFORM_NDS
          game_title := nulPad 256 (stripTrailing (bytesAt header 0 12))
          title_id := nulPad 8 (stripTrailing (bytesAt header 0x0C 4)) }))
    ∨ (0x110 ≤ header_size ∧ bytesAt header 0x100 4 = GENESIS_MAGIC ∧
      identify_rules header header_size =
        (true, { GameIdentity.zero with
          platform := PLATFORM_GENESIS
          game_title := nulPad 256 (stripTrailing (bytesAt header 0x120 48)) }))
    ∨ ((bytesAt header 0 4 ≠ WBFS_MAGIC ∧ bytesAt header 0 3 ≠ RVZ_MAGIC.take 3
        ∧ bytesAt header 0 3 ≠ WUD_MAGIC.take 3 ∧ bytesAt header 0x1C 4 ≠ WII_MAGIC
        ∧ bytesAt header 0x1C 4 ≠ GC_MAGIC ∧ bytesAt header 0 4 ≠ NES_MAGIC
        ∧ bytesAt header 0 4 ≠ N64_MAGIC_Z64 ∧ bytesAt header 0 4 ≠ N64_MAGIC_N64
        ∧ bytesAt header 0 4 ≠ N64_MAGIC_V64
        ∧ (0x150 ≤ header_size → bytesAt header 0x104 8 ≠ GB_LOGO)
        ∧ (0xC0 ≤ header_size → bytesAt header 0x04 8 ≠ GBA_LOGO)
        ∧ (0x160 ≤ header_size → bytesAt header 0xC0 4 = NDS_LOGO →
            ¬ (0 < read_u32_le header 0x80 ∧ read_u32_le header 0x80 < 0x20000000))
        ∧ (0x110 ≤ header_size → bytesAt header 0x100 4 ≠ GENESIS_MAGIC)) ∧
      identify_rules header header_size = (false, GameIdentity.zero)) := by
  by_cases h1 : bytesAt header 0 4 = WBFS_MAGIC
  · exact Or.inl ⟨h1, identify_rules_wbfs header header_size (by omega) h1⟩
  have c1 := check_magic_false header 0 WBFS_MAGIC 4 header_size h1
  by_cases h2 : bytesAt header 0 3 = RVZ_MAGIC.take 3
  · refine Or.inr (Or.inl ⟨h2, ?_⟩)
    have c2 := check_magic_true header 0 RVZ_MAGIC 3 header_size (by omega) h2
    simp only [identify_rules, Id.run, Id.pure_eq, Id.bind_eq, pure, bind, c1, c2,
      if_true, if_false, Bool.false_eq_true]
  have c2 := check_magic_false header 0 RVZ_MAGIC 3 header_size h2
  by_cases h3 : bytesAt header 0 3 = WUD_MAGIC.take 3
  · refine Or.inr (Or.inr (Or.inl ⟨h3, ?_⟩))
    have c3 := check_magic_true header 0 WUD_MAGIC 3 header_size (by omega) h3
    simp only [identify_rules, Id.run, Id.pure_eq, Id.bind_eq, pure, bind, c1, c2, c3,
      if_true, if_false, Bool.false_eq_true]
  have c3 := check_magic_false header 0 WUD_MAGIC 3 header_size h3
  have hcont : containerOf header = none := by
    exact (if_neg h1).trans ((if_neg h2).trans (if_neg h3))
  by_cases h45 : bytesAt header 0x1C 4 = WII_MAGIC ∨ bytesAt header 0x1C 4 = GC_MAGIC
  · exact Or.inr (Or.inr (Or.inr (Or.inl
      ⟨hcont, h45, identify_rules_iso header header_size (by omega) hcont h45⟩)))
  have h4 : ¬ bytesAt header 0x1C 4 = WII_MAGIC := fun h => h45 (Or.inl h)
  have h5 : ¬ bytesAt header 0x1C 4 = GC_MAGIC := fun h => h45 (Or.inr h)
  have c4 := check_magic_false header 0x1C WII_MAGIC 4 header_size h4
  have c5 := check_magic_false header 0x1C GC_MAGIC 4 header_size h5
  by_cases h6 : bytesAt header 0 4 = NES_MAGIC
  · refine Or.inr (Or.inr (Or.inr (Or.inr (Or.inl ⟨h6, ?_⟩))))
    have c6 := check_magic_true header 0 NES_MAGIC 4 header_size (by omega) h6
    simp only [identify_rules, Id.run, Id.pure_eq, Id.bind_eq, pure, bind, c1, c2, c3, c4, c5, c6,
      if_true, if_false, Bool.false_eq_true, ite_self, game_title_zero]
    rfl
  have c6 := check_magic_false header 0 NES_MAGIC 4 header_size h6
  by_cases h7 : bytesAt header 0 4 = N64_MAGIC_Z64 ∨ bytesAt header 0 4 = N64_MAGIC_N64
      ∨ bytesAt header 0 4 = N64_MAGIC_V64
  · refine Or.inr (Or.inr (Or.inr (Or.inr (Or.inr (Or.inl ⟨h7, ?_⟩)))))
    have c7 : (check_magic header 0 N64_MAGIC_Z64 4 header_size ||
        check_magic header 0 N64_MAGIC_N64 4 header_size ||
        check_magic header 0 N64_MAGIC_V64 4 header_size) = true := by
      simp only [Bool.or_eq_true, check_magic_iff]
      rcases h7 with h | h | h
      · exact Or.inl (Or.inl ⟨by omega, h⟩)
      · exact Or.inl (Or.inr ⟨by omega, h⟩)
      · exact Or.inr ⟨by omega, h⟩
    have e1 := extract_title_id (offsetPtr header 0x3B) 4 (by norm_num)
    have e2 := extract_game_title (offsetPtr header 0x20) 20 (by norm_num)
    rw [bytesAt_offsetPtr, Nat.add_zero] at e1 e2
    simp only [identify_rules, Id.run, Id.pure_eq, Id.bind_eq, pure, bind, c1, c2, c3, c4, c5, c6,
      c7, if_true, if_false, Bool.false_eq_true, ite_self, e1, e2]
    rfl
  have h7a : ¬ bytesAt header 0 4 = N64_MAGIC_Z64 := fun h => h7 (Or.inl h)
  have h7b : ¬ bytesAt header 0 4 = N64_MAGIC_N64 := fun h => h7 (Or.inr (Or.inl h))
  have h7c : ¬ bytesAt header 0 4 = N64_MAGIC_V64 := fun h => h7 (Or.inr (Or.inr h))
  have c7 : (check_magic header 0 N64_MAGIC_Z64 4 header_size ||
      check_magic header 0 N64_MAGIC_N64 4 header_size ||
      check_magic header 0 N64_MAGIC_V64 4 header_size) = false := by
    rw [check_magic_false _ _ _ _ _ h7a, check_magic_false _ _ _ _ _ h7b,
      check_magic_false _ _ _ _ _ h7c]
    rfl
  -- the four rules behind a size guard
  by_cases h8 : 0x150 ≤ header_size ∧ bytesAt header 0x104 8 = GB_LOGO
  · refine Or.inr (Or.inr (Or.inr (Or.inr (Or.inr (Or.inr (Or.inl ⟨h8.1, h8.2, ?_⟩))))))
    have c8 := check_magic_true header 0x104 GB_LOGO 8 header_size (by omega) h8.2
    have hg : header_size ≥ 0x150 := h8.1
    have e2 := extract_game_title (offsetPtr header 0x134) 16 (by norm_num)
    rw [bytesAt_offsetPtr, Nat.add_zero] at e2
    simp only [identify_rules, Id.run, Id.pure_eq, Id.bind_eq, pure, bind, c1, c2, c3, c4, c5, c6,
      c7, c8, hg, if_true, if_false, Bool.false_eq_true, ite_self, e2]
    rfl
  have c8 : ¬ (header_size ≥ 0x150 ∧ check_magic header 0x104 GB_LOGO 8 header_size = true) :=
    fun h => h8 ⟨h.1, ((check_magic_iff _ _ _ _ _).1 h.2).2⟩
  by_cases h9 : 0xC0 ≤ header_size ∧ bytesAt header 0x04 8 = GBA_LOGO
  · refine Or.inr (Or.inr (Or.inr (Or.inr (Or.inr (Or.inr (Or.inr (Or.inl ⟨h9.1, h9.2, ?_⟩)))))))
    have c9 : header_size ≥ 0xC0 ∧ check_magic header 0x04 GBA_LOGO 8 header_size = true :=
      ⟨h9.1, check_magic_true header 0x04 GBA_LOGO 8 header_size (by omega) h9.2⟩
    have e1 := extract_title_id (offsetPtr header 0xAC) 4 (by norm_num)
    have e2 := extract_game_title (offsetPtr header 0xA0) 12 (by norm_num)
    rw [bytesAt_offsetPtr, Nat.add_zero] at e1 e2
    simp only [identify_rules, Id.run, Id.pure_eq, Id.bind_eq, pure, bind, c1, c2, c3, c4, c5, c6,
      c7, if_true, if_false, Bool.false_eq_true, ite_self, ← ite_and, if_neg c8, if_pos c9, e1, e2]
    rfl
  have c9 : ¬ (header_size ≥ 0xC0 ∧ check_magic header 0x04 GBA_LOGO 8 header_size = true) :=
    fun h => h9 ⟨h.1, ((check_magic_iff _ _ _ _ _).1 h.2).2⟩
  by_cases h10 : 0x160 ≤ header_size ∧ bytesAt header 0xC0 4 = NDS_LOGO ∧
      (0 < read_u32_le header 0x80 ∧ read_u32_le header 0x80 < 0x20000000)
  · refine Or.inr (Or.inr (Or.inr (Or.inr (Or.inr (Or.inr (Or.inr (Or.inr
      (Or.inl ⟨h10.1, h10.2.1, h10.2.2, ?_⟩))))))))
    have c10 : header_size ≥ 0x160 ∧
        (read_u32_le header 0x80 > 0 ∧ read_u32_le header 0x80 < 0x20000000) ∧
          check_magic header 0xC0 NDS_LOGO 4 header_size = true :=
      ⟨h10.1, h10.2.2, check_magic_true header 0xC0 NDS_LOGO 4 header_size (by omega) h10.2.1⟩
    have e1 := extract_title_id (offsetPtr header 0x0C) 4 (by norm_num)
    have e2 := extract_game_title header 12 (by norm_num)
    rw [bytesAt_offsetPtr, Nat.add_zero] at e1
    simp only [identify_rules, Id.run, Id.pure_eq, Id.bind_eq, pure, bind, c1, c2, c3, c4, c5, c6,
      c7, if_true, if_false, Bool.false_eq_true, ite_self, ← ite_and, if_neg c8, if_neg c9,
      if_pos c10, e1, e2]
    rfl
  have c10 : ¬ (header_size ≥ 0x160 ∧
      (read_u32_le header 0x80 > 0 ∧ read_u32_le header 0x80 < 0x20000000) ∧
        check_magic header 0xC0 NDS_LOGO 4 header_size = true) :=
    fun h => h10 ⟨h.1, ((check_magic_iff _ _ _ _ _).1 h.2.2).2, h.2.1⟩
  by_cases h11 : 0x110 ≤ header_size ∧ bytesAt header 0x100 4 = GENESIS_MAGIC
  · refine Or.inr (Or.inr (Or.inr (Or.inr (Or.inr (Or.inr (Or.inr (Or.inr
      (Or.inr (Or.inl ⟨h11.1, h11.2, ?_⟩)))))))))
    have c11 : header_size ≥ 0x110 ∧ check_magic header 0x100 GENESIS_MAGIC 4 header_size = true :=
      ⟨h11.1, check_magic_true header 0x100 GENESIS_MAGIC 4 header_size (by omega) h11.2⟩
    have e2 := extract_game_title (offsetPtr header 0x120) 48 (by norm_num)
    rw [bytesAt_offsetPtr, Nat.add_zero] at e2
    simp only [identify_rules, Id.run, Id.pure_eq, Id.bind_eq, pure, bind, c1, c2, c3, c4, c5, c6,
      c7, if_true, if_false, Bool.false_eq_true, ite_self, ← ite_and, if_neg c8, if_neg c9,
      if_neg c10, if_pos c11, e2]
    rfl
  have c11 : ¬ (header_size ≥ 0x110 ∧
      check_magic header 0x100 GENESIS_MAGIC 4 header_size = true) :=
    fun h => h11 ⟨h.1, ((check_magic_iff _ _ _ _ _).1 h.2).2⟩
  refine Or.inr (Or.inr (Or.inr (Or.inr (Or.inr (Or.inr (Or.inr (Or.inr (Or.inr (Or.inr
    ⟨⟨h1, h2, h3, h4, h5, h6, h7a, h7b, h7c, fun a b => h8 ⟨a, b⟩, fun a b => h9 ⟨a, b⟩,
      fun a b c => h10 ⟨a, b, c⟩, fun a b => h11 ⟨a, b⟩⟩, ?_⟩)))))))))
  simp only [identify_rules, Id.run, Id.pure_eq, Id.bind_eq, pure, bind, c1, c2, c3, c4, c5, c6,
    c7, if_true, if_false, Bool.false_eq_true, ite_self, ← ite_and, if_neg c8, if_neg c9,
    if_neg c10, if_neg c11]

/-! ## The claims on the whole if-chain -/

set_option maxRecDepth 100000 in
/-- C24 as stated fails: `gbaHeader64` is a 64-byte header with the GBA logo prefix at
0x04, so the pattern of the GBA row lies wholly inside the buffer, and the call returns
false: the code tries the GBA row only on headers of at least 0xC0 bytes. -/
theorem gba_logo_in_short_header :
    gbaHeader64.length = 64
    ∧ (signatureTable.any fun row => row.holdsWithin (memOf gbaHeader64) 64) = true
    ∧ identify_from_header (some (memOf gbaHeader64)) 64 (some GameIdentity.zero)
        = (false, some GameIdentity.zero) := by
  decide

/-- The rows of the signature table that the code tries on a header of `header_size`
bytes, spelled out: a guarded row holds exactly when one of these conditions does. -/
theorem guarded_rows_iff (header : Nat → Nat) (header_size : Nat) (h64 : 64 ≤ header_size) :
    (∃ p ∈ List.zip requiredSize signatureTable, p.1 ≤ header_size ∧ p.2.holds header = true)
      ↔ (bytesAt header 0 4 = WBFS_MAGIC ∨ bytesAt header 0 3 = RVZ_MAGIC.take 3
        ∨ bytesAt header 0 3 = WUD_MAGIC.take 3 ∨ bytesAt header 0x1C 4 = WII_MAGIC
        ∨ bytesAt header 0x1C 4 = GC_MAGIC ∨ bytesAt header 0 4 = NES_MAGIC
        ∨ (bytesAt header 0 4 = N64_MAGIC_Z64 ∨ bytesAt header 0 4 = N64_MAGIC_N64
          ∨ bytesAt header 0 4 = N64_MAGIC_V64)
        ∨ (0x150 ≤ header_size ∧ bytesAt header 0x104 8 = GB_LOGO)
        ∨ (0xC0 ≤ header_size ∧ bytesAt header 0x04 8 = GBA_LOGO)
        ∨ (0x160 ≤ header_size ∧ bytesAt header 0xC0 4 = NDS_LOGO ∧
            (0 < read_u32_le header 0x80 ∧ read_u32_le header 0x80 < 0x20000000))
        ∨ (0x110 ≤ header_size ∧ bytesAt header 0x100 4 = GENESIS_MAGIC)) := by
  simp only [requiredSize, signatureTable, List.zip_cons_cons, List.zip_nil_right,
    List.mem_cons, List.mem_singleton, List.not_mem_nil, or_false, exists_eq_or_imp,
    exists_eq_left, SignatureRow.holds, List.any_cons, List.any_nil, Bool.or_false,
    Bool.and_true, Bool.or_eq_true, Bool.and_eq_true, decide_eq_true_eq, List.length_cons,
    List.length_nil, WBFS_MAGIC, RVZ_MAGIC, WUD_MAGIC, WII_MAGIC, GC_MAGIC, NES_MAGIC,
    N64_MAGIC_Z64, N64_MAGIC_N64, N64_MAGIC_V64, GB_LOGO, GBA_LOGO, NDS_LOGO, GENESIS_MAGIC,
    List.take, h64, true_and, and_true, Nat.reduceAdd]

/-- The returned flag of `identify_rules` on a header of at least 64 bytes: true exactly
when one of the guarded signature conditions holds. -/
theorem identify_rules_flag (header : Nat → Nat) (header_size : Nat) (h64 : 64 ≤ header_size) :
    (identify_rules header header_size).1 = true
      ↔ (bytesAt header 0 4 = WBFS_MAGIC ∨ bytesAt header 0 3 = RVZ_MAGIC.take 3
        ∨ bytesAt header 0 3 = WUD_MAGIC.take 3 ∨ bytesAt header 0x1C 4 = WII_MAGIC
        ∨ bytesAt header 0x1C 4 = GC_MAGIC ∨ bytesAt header 0 4 = NES_MAGIC
        ∨ (bytesAt header 0 4 = N64_MAGIC_Z64 ∨ bytesAt header 0 4 = N64_MAGIC_N64
          ∨ bytesAt header 0 4 = N64_MAGIC_V64)
        ∨ (0x150 ≤ header_size ∧ bytesAt header 0x104 8 = GB_LOGO)
        ∨ (0xC0 ≤ header_size ∧ bytesAt header 0x04 8 = GBA_LOGO)
        ∨ (0x160 ≤ header_size ∧ bytesAt header 0xC0 4 = NDS_LOGO ∧
            (0 < read_u32_le header 0x80 ∧ read_u32_le header 0x80 < 0x20000000))
        ∨ (0x110 ≤ header_size ∧ bytesAt header 0x100 4 = GENESIS_MAGIC)) := by
  rcases identify_rules_cases header header_size h64 with
    ⟨c, e⟩ | ⟨c, e⟩ | ⟨c, e⟩ | ⟨-, c, e⟩ | ⟨c, e⟩ | ⟨c, e⟩ | ⟨g, c, e⟩ | ⟨g, c, e⟩ | ⟨g, c, r, e⟩
      | ⟨g, c, e⟩ | ⟨⟨n1, n2, n3, n4, n5, n6, n7a, n7b, n7c, n8, n9, n10, n11⟩, e⟩
  · exact ⟨fun _ => Or.inl c, fun _ => by rw [e]⟩
  · exact ⟨fun _ => Or.inr (Or.inl c), fun _ => by rw [e]⟩
  · exact ⟨fun _ => Or.inr (Or.inr (Or.inl c)), fun _ => by rw [e]⟩
  · refine ⟨fun _ => ?_, fun _ => by rw [e]⟩
    rcases c with c | c
    · exact Or.inr (Or.inr (Or.inr (Or.inl c)))
    · exact Or.inr (Or.inr (Or.inr (Or.inr (Or.inl c))))
  · exact ⟨fun _ => Or.inr (Or.inr (Or.inr (Or.inr (Or.inr (Or.inl c))))), fun _ => by rw [e]⟩
  · exact ⟨fun _ => Or.inr (Or.inr (Or.inr (Or.inr (Or.inr (Or.inr (Or.inl c)))))),
      fun _ => by rw [e]⟩
  · exact ⟨fun _ => Or.inr (Or.inr (Or.inr (Or.inr (Or.inr (Or.inr (Or.inr (Or.inl ⟨g, c⟩))))))),
      fun _ => by rw [e]⟩
  · exact ⟨fun _ => Or.inr (Or.inr (Or.inr (Or.inr (Or.inr (Or.inr (Or.inr (Or.inr
      (Or.inl ⟨g, c⟩)))))))), fun _ => by rw [e]⟩
  · exact ⟨fun _ => Or.inr (Or.inr (Or.inr (Or.inr (Or.inr (Or.inr (Or.inr (Or.inr
      (Or.inr (Or.inl ⟨g, c, r⟩))))))))), fun _ => by rw [e]⟩
  · exact ⟨fun _ => Or.inr (Or.inr (Or.inr (Or.inr (Or.inr (Or.inr (Or.inr (Or.inr
      (Or.inr (Or.inr ⟨g, c⟩))))))))), fun _ => by rw [e]⟩
  · rw [e]
    refine ⟨fun h => (by cases h), fun h => ?_⟩
    rcases h with h | h | h | h | h | h | (h | h | h) | h | h | h | h
    · exact absurd h n1
    · exact absurd h n2
    · exact absurd h n3
    · exact absurd h n4
    · exact absurd h n5
    · exact absurd h n6
    · exact absurd h n7a
    · exact absurd h n7b
    · exact absurd h n7c
    · exact absurd h.2 (n8 h.1)
    · exact absurd h.2 (n9 h.1)
    · exact absurd h.2.2 (n10 h.1 h.2.1)
    · exact absurd h.2 (n11 h.1)

/-- C24, amended: on a header of at least 64 bytes `identify_from_header` returns true
exactly when some row of the signature table holds on the header and the header has the
size the code asks for before it tries that row (0x150 bytes for the Game Boy row, 0xC0
for GBA, 0x160 for NDS, 0x110 for Genesis, the 64 bytes of every call for the other
rows); so it returns false only when no such row exists. -/
theorem identify_guarded_table (header : Nat → Nat) (header_size : Nat) (result : GameIdentity)
    (h64 : 64 ≤ header_size) :
    (identify_from_header (some header) header_size (some result)).1 = true
      ↔ ∃ p ∈ List.zip requiredSize signatureTable,
          p.1 ≤ header_size ∧ p.2.holds header = true := by
  rw [guarded_rows_iff header header_size h64, ← identify_rules_flag header header_size h64]
  simp only [identify_from_header, if_neg (show ¬ header_size < 64 by omega)]

set_option maxRecDepth 100000 in
/-- Instance of C24, amended: the 96-byte disc header `sampleIsoHeader`, on which the call
returns true. -/
theorem identify_guarded_table_witness :
    64 ≤ 96
    ∧ ((identify_from_header (some (memOf sampleIsoHeader)) 96 (some GameIdentity.zero)).1 = true
      ↔ ∃ p ∈ List.zip requiredSize signatureTable,
          p.1 ≤ 96 ∧ p.2.holds (memOf sampleIsoHeader) = true)
    ∧ (identify_from_header (some (memOf sampleIsoHeader)) 96 (some GameIdentity.zero)).1 = true :=
  ⟨by decide, identify_guarded_table (memOf sampleIsoHeader) 96 GameIdentity.zero (by decide),
    by decide⟩

/-- A successful call of `identify_from_header` had at least 64 bytes and returns the
outcome of the if-chain. -/
theorem identify_from_header_success (header : Nat → Nat) (header_size : Nat)
    (result g : GameIdentity)
    (h : identify_from_header (some header) header_size (some result) = (true, some g)) :
    64 ≤ header_size ∧ identify_rules header header_size = (true, g) := by
  by_cases hs : header_size < 64
  · simp [identify_from_header, hs] at h
  · simp only [identify_from_header, if_neg hs, Prod.mk.injEq, Option.some.injEq] at h
    exact ⟨by omega, Prod.ext h.1 h.2⟩

/-- C25: whenever `identify_from_header` succeeds, the record it leaves does not depend on
what the record held before the call, and every field that the matching rule does not
assign is zero: file_size and the two flags always; disc_number unless the format is ISO;
region unless the format is ISO or WBFS with at least 0x240 bytes; the whole record apart
from platform and format for RVZ, WUD and for WBFS on fewer than 0x240 bytes; title_id for
NES, Game Boy, GBC and Genesis. -/
theorem unassigned_fields_zero (header : Nat → Nat) (header_size : Nat)
    (result other g : GameIdentity)
    (h : identify_from_header (some header) header_size (some result) = (true, some g)) :
    identify_from_header (some header) header_size (some other) = (true, some g)
    ∧ g.file_size = 0 ∧ g.is_scrubbed = false ∧ g.requires_cios = false
    ∧ (g.format ≠ FORMAT_ISO → g.disc_number = 0)
    ∧ (g.format ≠ FORMAT_ISO → ¬ (g.format = FORMAT_WBFS ∧ 0x240 ≤ header_size) → g.region = 0)
    ∧ (g.format = FORMAT_RVZ ∨ g.format = FORMAT_WUD
        ∨ (g.format = FORMAT_WBFS ∧ header_size < 0x240) →
        g = { GameIdentity.zero with platform := g.platform, format := g.format })
    ∧ (g.platform = PLATFORM_NES ∨ g.platform = PLATFORM_GAMEBOY ∨ g.platform = PLATFORM_GBC
        ∨ g.platform = PLATFORM_GENESIS → g.title_id = List.replicate 8 0) := by
  obtain ⟨h64, hr⟩ := identify_from_header_success header header_size result g h
  refine ⟨?_, ?_⟩
  · simp only [identify_from_header, if_neg (show ¬ header_size < 64 by omega), hr]
  rcases identify_rules_cases header header_size h64 with
    ⟨-, e⟩ | ⟨-, e⟩ | ⟨-, e⟩ | ⟨-, -, e⟩ | ⟨-, e⟩ | ⟨-, e⟩ | ⟨-, -, e⟩ | ⟨-, -, e⟩ | ⟨-, -, -, e⟩
      | ⟨-, -, e⟩ | ⟨-, e⟩
  · rw [hr] at e
    by_cases hs : header_size ≥ 0x200 + 64
    · rw [if_pos hs] at e
      have hg := (Prod.mk.inj e).2
      subst hg
      refine ⟨rfl, rfl, rfl, fun _ => rfl, fun _ hn => absurd ⟨rfl, hs⟩ hn, ?_, ?_⟩
      · rintro (h | h | h)
        · cases h
        · cases h
        · exact absurd hs (by omega)
      · rintro (h | h | h | h) <;> cases h
    · rw [if_neg hs] at e
      have hg := (Prod.mk.inj e).2
      subst hg
      refine ⟨rfl, rfl, rfl, fun _ => rfl, fun _ _ => rfl, fun _ => rfl, fun _ => rfl⟩
  · rw [hr] at e
    have hg := (Prod.mk.inj e).2
    subst hg
    exact ⟨rfl, rfl, rfl, fun _ => rfl, fun _ _ => rfl, fun _ => rfl, fun _ => rfl⟩
  · rw [hr] at e
    have hg := (Prod.mk.inj e).2
    subst hg
    exact ⟨rfl, rfl, rfl, fun _ => rfl, fun _ _ => rfl, fun _ => rfl, fun _ => rfl⟩
  · rw [hr] at e
    have hg := (Prod.mk.inj e).2
    subst hg
    refine ⟨rfl, rfl, rfl, fun h => absurd rfl h, fun h => absurd rfl h, ?_, ?_⟩
    · rintro (h | h | h)
      · cases h
      · cases h
      · cases h.1
    · intro h
      by_cases hw : bytesAt header 0x1C 4 = WII_MAGIC
      · simp only [if_pos hw] at h
        rcases h with h | h | h | h <;> cases h
      · simp only [if_neg hw] at h
        rcases h with h | h | h | h <;> cases h
  · rw [hr] at e
    have hg := (Prod.mk.inj e).2
    subst hg
    refine ⟨rfl, rfl, rfl, fun _ => rfl, fun _ _ => rfl, ?_, fun _ => rfl⟩
    rintro (h | h | h)
    · cases h
    · cases h
    · cases h.1
  · rw [hr] at e
    have hg := (Prod.mk.inj e).2
    subst hg
    refine ⟨rfl, rfl, rfl, fun _ => rfl, fun _ _ => rfl, ?_, ?_⟩
    · rintro (h | h | h)
      · cases h
      · cases h
      · cases h.1
    · rintro (h | h | h | h) <;> cases h
  · rw [hr] at e
    have hg := (Prod.mk.inj e).2
    subst hg
    refine ⟨rfl, rfl, rfl, fun _ => rfl, fun _ _ => rfl, ?_, fun _ => rfl⟩
    rintro (h | h | h)
    · cases h
    · cases h
    · cases h.1
  · rw [hr] at e
    have hg := (Prod.mk.inj e).2
    subst hg
    refine ⟨rfl, rfl, rfl, fun _ => rfl, fun _ _ => rfl, ?_, ?_⟩
    · rintro (h | h | h)
      · cases h
      · cases h
      · cases h.1
    · rintro (h | h | h | h) <;> cases h
  · rw [hr] at e
    have hg := (Prod.mk.inj e).2
    subst hg
    refine ⟨rfl, rfl, rfl, fun _ => rfl, fun _ _ => rfl, ?_, ?_⟩
    · rintro (h | h | h)
      · cases h
      · cases h
      · cases h.1
    · rintro (h | h | h | h) <;> cases h
  · rw [hr] at e
    have hg := (Prod.mk.inj e).2
    subst hg
    refine ⟨rfl, rfl, rfl, fun _ => rfl, fun _ _ => rfl, ?_, fun _ => rfl⟩
    rintro (h | h | h)
    · cases h
    · cases h
    · cases h.1
  · rw [hr] at e
    cases (Prod.mk.inj e).1

set_option maxRecDepth 100000 in
/-- Instance of C25: the 64-byte header `rvzHeader64` with the earlier record
`sampleIdentity`; the call leaves the zeroed record with Wii/RVZ, the same as with a
zeroed earlier record. -/
theorem unassigned_fields_zero_witness :
    identify_from_header (some (memOf rvzHeader64)) 64 (some sampleIdentity)
        = (true, some { GameIdentity.zero with platform := PLATFORM_WII, format := FORMAT_RVZ })
    ∧ identify_from_header (some (memOf rvzHeader64)) 64 (some GameIdentity.zero)
        = (true, some { GameIdentity.zero with platform := PLATFORM_WII, format := FORMAT_RVZ }) :=
  ⟨by decide,
    (unassigned_fields_zero (memOf rvzHeader64) 64 sampleIdentity GameIdentity.zero
      { GameIdentity.zero with platform := PLATFORM_WII, format := FORMAT_RVZ } (by decide)).1⟩

/-- The text of an array that holds `text` and then NUL bytes is no longer than `text`. -/
theorem cstr_append_replicate_length (text : List Nat) (k : Nat) :
    (cstr (text ++ List.replicate k 0)).length ≤ text.length := by
  unfold cstr
  induction text with
  | nil =>
    cases k with
    | zero => simp
    | succ k => simp [List.replicate_succ]
  | cons b rest ih =>
    by_cases hb : b = 0
    · simp [hb]
    · have hp : (fun x : Nat => decide (x ≠ 0)) b = true := decide_eq_true hb
      rw [List.cons_append, @List.takeWhile_cons_of_pos _ (fun x : Nat => decide (x ≠ 0)) b _ hp,
        List.length_cons, List.length_cons]
      exact Nat.succ_le_succ ih

/-- The text of a NUL-padded array is no longer than the padded text. -/
theorem cstr_nulPad_length (n : Nat) (text : List Nat) :
    (cstr (nulPad n text)).length ≤ text.length :=
  cstr_append_replicate_length text _

/-- The text left by a field extraction into a zeroed array is no longer than the field. -/
theorem cstr_field_length (n len : Nat) (header : Nat → Nat) (off : Nat) :
    (cstr (nulPad n (stripTrailing (bytesAt header off len)))).length ≤ len :=
  le_trans (cstr_nulPad_length _ _)
    (le_trans (stripTrailing_length_le _) (le_of_eq (bytesAt_length _ _ _)))

/-- C28: whenever `identify_from_header` succeeds, the platform is one of the ten that the
rules assign (never Unknown, SNES, 3DS, PSP, PS1, PS2 or Dreamcast), the format is ISO
exactly when the header has no container signature at offset 0 and one of the two magic
words at 0x1C, the text of title_id has at most 6 bytes and the text of game_title at
most 64. -/
theorem success_invariants (header : Nat → Nat) (header_size : Nat) (result g : GameIdentity)
    (h : identify_from_header (some header) header_size (some result) = (true, some g)) :
    g.platform ∈ [PLATFORM_WII, PLATFORM_GAMECUBE, PLATFORM_WII_U, PLATFORM_NES, PLATFORM_N64,
      PLATFORM_GAMEBOY, PLATFORM_GBC, PLATFORM_GBA, PLATFORM_NDS, PLATFORM_GENESIS]
    ∧ (g.format = FORMAT_ISO ↔ containerOf header = none ∧
        (bytesAt header 0x1C 4 = WII_MAGIC ∨ bytesAt header 0x1C 4 = GC_MAGIC))
    ∧ (cstr g.title_id).length ≤ 6
    ∧ (cstr g.game_title).length ≤ 64 := by
  obtain ⟨h64, hr⟩ := identify_from_header_success header header_size result g h
  have hz8 : (cstr (List.replicate 8 0)).length ≤ 6 := by decide
  have hz256 : (cstr (List.replicate 256 0)).length ≤ 64 :=
    le_trans (cstr_append_replicate_length [] 256) (Nat.zero_le _)
  have hiso : containerOf header = none ∧
      (bytesAt header 0x1C 4 = WII_MAGIC ∨ bytesAt header 0x1C 4 = GC_MAGIC) →
      g.format = FORMAT_ISO := by
    rintro ⟨hc, hm⟩
    have e := identify_rules_iso header header_size (by omega) hc hm
    rw [hr] at e
    rw [(Prod.mk.inj e).2]
  rcases identify_rules_cases header header_size h64 with
    ⟨-, e⟩ | ⟨-, e⟩ | ⟨-, e⟩ | ⟨hc, hm, e⟩ | ⟨-, e⟩ | ⟨-, e⟩ | ⟨-, -, e⟩ | ⟨-, -, e⟩ | ⟨-, -, -, e⟩
      | ⟨-, -, e⟩ | ⟨-, e⟩
  · rw [hr] at e
    have hg := (Prod.mk.inj e).2
    refine ⟨?_, ⟨fun hf => ?_, hiso⟩, ?_, ?_⟩
    · rw [hg]; split <;> simp
    · rw [hg] at hf; split at hf <;> cases hf
    · rw [hg]; split
      · exact le_trans (cstr_field_length 8 6 header 0x200) (le_refl _)
      · exact hz8
    · rw [hg]; split
      · exact cstr_field_length 256 64 header 0x220
      · exact hz256
  · rw [hr] at e
    have hg := (Prod.mk.inj e).2
    refine ⟨?_, ⟨fun hf => ?_, hiso⟩, ?_, ?_⟩
    · rw [hg]; simp
    · rw [hg] at hf; cases hf
    · rw [hg]; exact hz8
    · rw [hg]; exact hz256
  · rw [hr] at e
    have hg := (Prod.mk.inj e).2
    refine ⟨?_, ⟨fun hf => ?_, hiso⟩, ?_, ?_⟩
    · rw [hg]; simp
    · rw [hg] at hf; cases hf
    · rw [hg]; exact hz8
    · rw [hg]; exact hz256
  · rw [hr] at e
    have hg := (Prod.mk.inj e).2
    refine ⟨?_, ⟨fun hf => ?_, hiso⟩, ?_, ?_⟩
    · rw [hg]; split <;> simp
    · exact ⟨hc, hm⟩
    · rw [hg]; exact cstr_field_length 8 6 header 0
    · rw [hg]; exact cstr_field_length 256 64 header 0x20
  · rw [hr] at e
    have hg := (Prod.mk.inj e).2
    refine ⟨?_, ⟨fun hf => ?_, hiso⟩, ?_, ?_⟩
    · rw [hg]; simp
    · rw [hg] at hf; cases hf
    · rw [hg]; exact hz8
    · rw [hg]; exact (by decide)
  · rw [hr] at e
    have hg := (Prod.mk.inj e).2
    refine ⟨?_, ⟨fun hf => ?_, hiso⟩, ?_, ?_⟩
    · rw [hg]; simp
    · rw [hg] at hf; cases hf
    · rw [hg]; exact le_trans (cstr_field_length 8 4 header 0x3B) (by norm_num)
    · rw [hg]; exact le_trans (cstr_field_length 256 20 header 0x20) (by norm_num)
  · rw [hr] at e
    have hg := (Prod.mk.inj e).2
    refine ⟨?_, ⟨fun hf => ?_, hiso⟩, ?_, ?_⟩
    · rw [hg]; split <;> simp
    · rw [hg] at hf; cases hf
    · rw [hg]; exact hz8
    · rw [hg]; exact le_trans (cstr_field_length 256 16 header 0x134) (by norm_num)
  · rw [hr] at e
    have hg := (Prod.mk.inj e).2
    refine ⟨?_, ⟨fun hf => ?_, hiso⟩, ?_, ?_⟩
    · rw [hg]; simp
    · rw [hg] at hf; cases hf
    · rw [hg]; exact le_trans (cstr_field_length 8 4 header 0xAC) (by norm_num)
    · rw [hg]; exact le_trans (cstr_field_length 256 12 header 0xA0) (by norm_num)
  · rw [hr] at e
    have hg := (Prod.mk.inj e).2
    refine ⟨?_, ⟨fun hf => ?_, hiso⟩, ?_, ?_⟩
    · rw [hg]; simp
    · rw [hg] at hf; cases hf
    · rw [hg]; exact le_trans (cstr_field_length 8 4 header 0x0C) (by norm_num)
    · rw [hg]; exact le_trans (cstr_field_length 256 12 header 0) (by norm_num)
  · rw [hr] at e
    have hg := (Prod.mk.inj e).2
    refine ⟨?_, ⟨fun hf => ?_, hiso⟩, ?_, ?_⟩
    · rw [hg]; simp
    · rw [hg] at hf; cases hf
    · rw [hg]; exact hz8
    · rw [hg]; exact le_trans (cstr_field_length 256 48 header 0x120) (by norm_num)
  · rw [hr] at e
    cases (Prod.mk.inj e).1

set_option maxRecDepth 100000 in
/-- Instance of C28: the 96-byte disc header `sampleIsoHeader`. -/
theorem success_invariants_witness :
    identify_from_header (some (memOf sampleIsoHeader)) 96 (some GameIdentity.zero)
        = (true, some { sampleIdentity with region := 0x45, disc_number := 1 })
    ∧ sampleIdentity.platform ∈ [PLATFORM_WII, PLATFORM_GAMECUBE, PLATFORM_WII_U, PLATFORM_NES,
        PLATFORM_N64, PLATFORM_GAMEBOY, PLATFORM_GBC, PLATFORM_GBA, PLATFORM_NDS, PLATFORM_GENESIS]
    ∧ (sampleIdentity.format = FORMAT_ISO ↔ containerOf (memOf sampleIsoHeader) = none ∧
        (bytesAt (memOf sampleIsoHeader) 0x1C 4 = WII_MAGIC
          ∨ bytesAt (memOf sampleIsoHeader) 0x1C 4 = GC_MAGIC))
    ∧ (cstr sampleIdentity.title_id).length ≤ 6
    ∧ (cstr sampleIdentity.game_title).length ≤ 64 :=
  ⟨by decide,
    success_invariants (memOf sampleIsoHeader) 96 GameIdentity.zero
      { sampleIdentity with region := 0x45, disc_number := 1 } (by decide)⟩

set_option maxRecDepth 100000 in
/-- C27: evaluation at `wiiHeader64`, a disc header of exactly 64 bytes with the Wii magic
word at 0x1C, with header_size = 64. Two memories that hold the same 64 header bytes and
differ in the byte at index 64 give different game titles: the 64-byte title copy from
0x20 reads the indices 0x40..0x5F, which are not below header_size. -/
theorem iso_title_reads_past_header :
    wiiHeader64.length = 64
    ∧ bytesAt (memOf (wiiHeader64 ++ [0x42])) 0 64 = bytesAt (memOf wiiHeader64) 0 64
    ∧ (identify_from_header (some (memOf wiiHeader64)) 64 (some GameIdentity.zero)).2.map
          (fun g => cstr g.game_title)
        = some (List.replicate 32 0x41)
    ∧ (identify_from_header (some (memOf (wiiHeader64 ++ [0x42]))) 64
          (some GameIdentity.zero)).2.map (fun g => cstr g.game_title)
        = some (List.replicate 32 0x41 ++ [0x42]) := by
  decide

/-! ## The claim on the palette range -/

/-- The interpolated entries of the reference palette lie between its two endpoint
entries, channel by channel. -/
theorem refPalette_between (c0 c1 : Nat) :
    (∀ ch, ch < 3 → between (chan (refPalette c0 c1 0) ch) (chan (refPalette c0 c1 1) ch)
      (chan (refPalette c0 c1 2) ch))
    ∧ (c0 > c1 → ∀ ch, ch < 3 →
      between (chan (refPalette c0 c1 0) ch) (chan (refPalette c0 c1 1) ch)
        (chan (refPalette c0 c1 3) ch)) := by
  constructor
  · intro ch hch
    by_cases hc : c0 > c1
    · rcases ch with _ | _ | _ | ch
      · simp only [refPalette, chan, if_pos hc, between]; omega
      · simp only [refPalette, chan, if_pos hc, between]; omega
      · simp only [refPalette, chan, if_pos hc, between]; omega
      · omega
    · rcases ch with _ | _ | _ | ch
      · simp only [refPalette, chan, if_neg hc, between]; omega
      · simp only [refPalette, chan, if_neg hc, between]; omega
      · simp only [refPalette, chan, if_neg hc, between]; omega
      · omega
  · intro hc ch hch
    rcases ch with _ | _ | _ | ch
    · simp only [refPalette, chan, if_pos hc, between]; omega
    · simp only [refPalette, chan, if_pos hc, between]; omega
    · simp only [refPalette, chan, if_pos hc, between]; omega
    · omega

/-- C29 as stated fails: for c0 = c1 = 0xFFFF entries 0 and 1 are (248,252,248,255) and
entry 3 is (0,0,0,0), whose red channel 0 does not lie between 248 and 248. -/
theorem transparent_entry_not_between :
    cmpr_palette 0xFFFF 0xFFFF 0 = (248, 252, 248, 255)
    ∧ cmpr_palette 0xFFFF 0xFFFF 1 = (248, 252, 248, 255)
    ∧ cmpr_palette 0xFFFF 0xFFFF 3 = (0, 0, 0, 0)
    ∧ ¬ between (chan (cmpr_palette 0xFFFF 0xFFFF 0) 0) (chan (cmpr_palette 0xFFFF 0xFFFF 1) 0)
        (chan (cmpr_palette 0xFFFF 0xFFFF 3) 0) := by
  refine ⟨by decide, by decide, by decide, ?_⟩
  have e0 : chan (cmpr_palette 0xFFFF 0xFFFF 0) 0 = 248 := by decide
  have e1 : chan (cmpr_palette 0xFFFF 0xFFFF 1) 0 = 248 := by decide
  have e3 : chan (cmpr_palette 0xFFFF 0xFFFF 3) 0 = 0 := by decide
  rw [e0, e1, e3]
  unfold between
  omega

/-- C29, amended: for every 8-byte block, with `c0` and `c1` its two big-endian 16-bit
colours, the palette the code derives is the palette of the specification's formulas (no
8-bit wrap-around in the `uint8_t` stores); each colour channel of entry 2, and of entry 3
when c0 > c1, lies between the corresponding channels of entries 0 and 1; entry 3 is
(0,0,0,0) when c0 <= c1 and every other entry has alpha 255; hence every decoded pixel
has alpha 255 or is exactly (0,0,0,0). -/
theorem palette_in_range (block : Nat → Nat) :
    (∀ k, cmpr_palette (read_u16_be block) (read_u16_be (offsetPtr block 2)) k
      = refPalette (read_u16_be block) (read_u16_be (offsetPtr block 2)) k)
    ∧ (∀ ch, ch < 3 →
      between (chan (cmpr_palette (read_u16_be block) (read_u16_be (offsetPtr block 2)) 0) ch)
        (chan (cmpr_palette (read_u16_be block) (read_u16_be (offsetPtr block 2)) 1) ch)
        (chan (cmpr_palette (read_u16_be block) (read_u16_be (offsetPtr block 2)) 2) ch))
    ∧ (read_u16_be block > read_u16_be (offsetPtr block 2) → ∀ ch, ch < 3 →
      between (chan (cmpr_palette (read_u16_be block) (read_u16_be (offsetPtr block 2)) 0) ch)
        (chan (cmpr_palette (read_u16_be block) (read_u16_be (offsetPtr block 2)) 1) ch)
        (chan (cmpr_palette (read_u16_be block) (read_u16_be (offsetPtr block 2)) 3) ch))
    ∧ (∀ k, k < 4 →
      if k = 3 ∧ read_u16_be block ≤ read_u16_be (offsetPtr block 2) then
        cmpr_palette (read_u16_be block) (read_u16_be (offsetPtr block 2)) k = (0, 0, 0, 0)
      else chan (cmpr_palette (read_u16_be block) (read_u16_be (offsetPtr block 2)) k) 3 = 255)
    ∧ (∀ bits iy ix,
      chan (cmpr_block_pixel (read_u16_be block) (read_u16_be (offsetPtr block 2)) bits iy ix) 3
          = 255
        ∨ cmpr_block_pixel (read_u16_be block) (read_u16_be (offsetPtr block 2)) bits iy ix
          = (0, 0, 0, 0)) := by
  have h0 := read_u16_be_lt block
  have h1 := read_u16_be_lt (offsetPtr block 2)
  generalize read_u16_be block = c0 at h0 ⊢
  generalize read_u16_be (offsetPtr block 2) = c1 at h1 ⊢
  have href := fun k => cmpr_palette_eq_ref c0 c1 k h0 h1
  have halpha : ∀ k, chan (refPalette c0 c1 k) 3 = 255 ∨ refPalette c0 c1 k = (0, 0, 0, 0) := by
    intro k
    rcases k with _ | _ | _ | k
    · exact Or.inl rfl
    · exact Or.inl rfl
    · by_cases hc : c0 > c1
      · simp only [refPalette, chan, if_pos hc, true_or]
      · simp only [refPalette, chan, if_neg hc, true_or]
    · by_cases hc : c0 > c1
      · simp only [refPalette, chan, if_pos hc, true_or]
      · simp only [refPalette, if_neg hc, or_true]
  refine ⟨href, ?_, ?_, ?_, ?_⟩
  · intro ch hch
    rw [href, href, href]
    exact (refPalette_between c0 c1).1 ch hch
  · intro hc ch hch
    rw [href, href, href]
    exact (refPalette_between c0 c1).2 hc ch hch
  · intro k hk
    rw [href]
    split
    · rename_i h
      obtain ⟨rfl, hle⟩ := h
      simp only [refPalette, if_neg (show ¬ c0 > c1 by omega)]
    · rename_i h
      rcases k with _ | _ | _ | _ | k
      · rfl
      · rfl
      · by_cases hc : c0 > c1
        · simp only [refPalette, chan, if_pos hc]
        · simp only [refPalette, chan, if_neg hc]
      · have hc : c0 > c1 := by
          by_contra hn
          exact h ⟨rfl, by omega⟩
        simp only [refPalette, chan, if_pos hc]
      · omega
  · intro bits iy ix
    unfold cmpr_block_pixel
    simp only [href]
    exact halpha _

/-- Instance of C29, amended: the block `whiteBlock` (c0 = 0xFFFF, c1 = 0x0000), red
channel of entry 2 and of entry 3. -/
theorem palette_in_range_witness :
    between (chan (cmpr_palette (read_u16_be (memOf whiteBlock))
        (read_u16_be (offsetPtr (memOf whiteBlock) 2)) 0) 0)
      (chan (cmpr_palette (read_u16_be (memOf whiteBlock))
        (read_u16_be (offsetPtr (memOf whiteBlock) 2)) 1) 0)
      (chan (cmpr_palette (read_u16_be (memOf whiteBlock))
        (read_u16_be (offsetPtr (memOf whiteBlock) 2)) 2) 0)
    ∧ between (chan (cmpr_palette (read_u16_be (memOf whiteBlock))
        (read_u16_be (offsetPtr (memOf whiteBlock) 2)) 0) 0)
      (chan (cmpr_palette (read_u16_be (memOf whiteBlock))
        (read_u16_be (offsetPtr (memOf whiteBlock) 2)) 1) 0)
      (chan (cmpr_palette (read_u16_be (memOf whiteBlock))
        (read_u16_be (offsetPtr (memOf whiteBlock) 2)) 3) 0)
    ∧ cmpr_palette (read_u16_be (memOf whiteBlock))
        (read_u16_be (offsetPtr (memOf whiteBlock) 2)) 2 = (165, 168, 165, 255)
    ∧ cmpr_palette (read_u16_be (memOf whiteBlock))
        (read_u16_be (offsetPtr (memOf whiteBlock) 2)) 3 = (82, 84, 82, 255) :=
  ⟨(palette_in_range (memOf whiteBlock)).2.1 0 (by decide),
    (palette_in_range (memOf whiteBlock)).2.2.1 (by decide) 0 (by decide), by decide, by decide⟩

/-! ## The claim on `WbfsSplitter::AnalyzeFile` -/

/-- The sizes pushed by the loop of `AnalyzeFile` for `q + 1` parts: `q` times the maximum
and then the remainder. -/
theorem part_sizes_eq (q r m : Nat) :
    ((List.range (q + 1)).map fun i => if i = q + 1 - 1 then r else m)
      = List.replicate q m ++ [r] := by
  rw [List.range_succ, List.map_append, List.map_singleton, Nat.add_sub_cancel, if_pos rfl]
  congr 1
  rw [List.eq_replicate_iff]
  refine ⟨by simp, ?_⟩
  intro b hb
  obtain ⟨i, hi, rfl⟩ := List.mem_map.1 hb
  rw [if_neg (Nat.ne_of_lt (List.mem_range.1 hi))]

/-- For a file larger than the maximum whose size is not a multiple of it, `AnalyzeFile`
partitions the file exactly: ceil(size / MAX) parts, each above 0 and at most MAX, that
sum to the file size, with as many names as sizes. -/
theorem AnalyzeFile_partition (file_path : String) (file_size : Nat)
    (hbig : file_size > MAX_WBFS_SPLIT_SIZE) (hrem : file_size % MAX_WBFS_SPLIT_SIZE ≠ 0)
    (h64 : file_size + MAX_WBFS_SPLIT_SIZE - 1 < 2 ^ 64) :
    (AnalyzeFile file_path (some file_size)).needs_splitting = true
    ∧ (AnalyzeFile file_path (some file_size)).part_sizes.length
        = (file_size + MAX_WBFS_SPLIT_SIZE - 1) / MAX_WBFS_SPLIT_SIZE
    ∧ (AnalyzeFile file_path (some file_size)).part_files.length
        = (AnalyzeFile file_path (some file_size)).part_sizes.length
    ∧ (∀ s ∈ (AnalyzeFile file_path (some file_size)).part_sizes,
        0 < s ∧ s ≤ MAX_WBFS_SPLIT_SIZE)
    ∧ (AnalyzeFile file_path (some file_size)).part_sizes.sum = file_size := by
  have hparts : ((file_size + MAX_WBFS_SPLIT_SIZE - 1) % 2 ^ 64) / MAX_WBFS_SPLIT_SIZE
      = file_size / MAX_WBFS_SPLIT_SIZE + 1 := by
    rw [Nat.mod_eq_of_lt h64]
    unfold MAX_WBFS_SPLIT_SIZE at *
    omega
  have hceil : (file_size + MAX_WBFS_SPLIT_SIZE - 1) / MAX_WBFS_SPLIT_SIZE
      = file_size / MAX_WBFS_SPLIT_SIZE + 1 := by
    unfold MAX_WBFS_SPLIT_SIZE at *
    omega
  simp only [AnalyzeFile, if_pos hbig, hparts, part_sizes_eq, hceil]
  refine ⟨trivial, by simp, by simp, ?_, ?_⟩
  · intro s hs
    rcases List.mem_append.1 hs with h | h
    · rw [List.eq_of_mem_replicate h]
      exact ⟨by unfold MAX_WBFS_SPLIT_SIZE; norm_num, le_refl _⟩
    · rw [List.mem_singleton.1 h]
      exact ⟨Nat.pos_of_ne_zero hrem,
        le_of_lt (Nat.mod_lt _ (by unfold MAX_WBFS_SPLIT_SIZE; norm_num))⟩
  · rw [List.sum_append, List.sum_replicate, List.sum_singleton, smul_eq_mul]
    exact Nat.div_add_mod' _ _

/-- A file of at most the maximum size needs no splitting and gets no parts. -/
theorem AnalyzeFile_small (file_path : String) (file_size : Nat)
    (h : file_size ≤ MAX_WBFS_SPLIT_SIZE) :
    AnalyzeFile file_path (some file_size)
      = { part_files := [], part_sizes := [], needs_splitting := false } := by
  simp only [AnalyzeFile, if_neg (show ¬ file_size > MAX_WBFS_SPLIT_SIZE by omega)]

set_option maxRecDepth 100000 in
/-- C30: evaluation at a file of exactly 2 * MAX_WBFS_SPLIT_SIZE = 0x1F6080000 bytes. The
file needs splitting into 2 parts, and the sizes reported are the maximum and 0: the last
part is empty and the parts sum to half of the file. -/
theorem AnalyzeFile_exact_multiple (file_path : String) :
    (AnalyzeFile file_path (some (2 * MAX_WBFS_SPLIT_SIZE))).needs_splitting = true
    ∧ (AnalyzeFile file_path (some (2 * MAX_WBFS_SPLIT_SIZE))).part_sizes
        = [MAX_WBFS_SPLIT_SIZE, 0]
    ∧ (AnalyzeFile file_path (some (2 * MAX_WBFS_SPLIT_SIZE))).part_sizes.sum
        ≠ 2 * MAX_WBFS_SPLIT_SIZE := by
  have h : (AnalyzeFile file_path (some (2 * MAX_WBFS_SPLIT_SIZE))).part_sizes
      = [MAX_WBFS_SPLIT_SIZE, 0] := rfl
  refine ⟨rfl, h, ?_⟩
  rw [h]
  decide

/-! ## Lemmas on the archive walk -/

theorem bytesOf_length (p : Nat → Nat) (n : Nat) : (bytesOf p n).length = n := by
  simp [bytesOf]

theorem bytesOf_take (p : Nat → Nat) (m n : Nat) (h : n ≤ m) :
    (bytesOf p m).take n = bytesOf p n := by
  unfold bytesOf
  rw [← List.map_take, List.take_range, Nat.min_eq_left h]

theorem bytesOf_getElem? (p : Nat → Nat) (m i : Nat) (h : i < m) :
    (bytesOf p m)[i]? = some (byte p i) := by
  simp [bytesOf, List.getElem?_range h]

/-- Comparing the start of a C string with a pattern without NUL: the bytes read equal the
pattern exactly when the pattern is a prefix of the text. -/
theorem bytesOf_eq_iff_prefix (p : Nat → Nat) (text lit : List Nat)
    (hs : holdsCString p text) (h0 : 0 ∉ lit) :
    bytesOf p lit.length = lit ↔ lit <+: text := by
  obtain ⟨-, hmem⟩ := hs
  constructor
  · intro h
    by_cases hle : lit.length ≤ text.length
    · have h1 := bytesOf_take p (text.length + 1) lit.length (by omega)
      rw [hmem, h] at h1
      rw [List.take_append_of_le_length hle] at h1
      exact h1 ▸ List.take_prefix _ _
    · exfalso
      have h1 := bytesOf_getElem? p lit.length text.length (by omega)
      have h2 := bytesOf_getElem? p (text.length + 1) text.length (by omega)
      rw [hmem, List.getElem?_append_right (le_refl _)] at h2
      simp only [Nat.sub_self, List.getElem?_cons_zero, Option.some.injEq] at h2
      rw [h, ← h2] at h1
      exact h0 (List.getElem?_mem h1)
  · intro h
    have hle := h.length_le
    have h1 := bytesOf_take p (text.length + 1) lit.length (by omega)
    rw [hmem, List.take_append_of_le_length hle] at h1
    rw [← h1]
    exact (List.prefix_iff_eq_take.1 h).symm

theorem bytesOf_succ (p : Nat → Nat) (n : Nat) :
    bytesOf p (n + 1) = byte p 0 :: bytesOf (offsetPtr p 1) n := by
  unfold bytesOf
  rw [List.range_succ_eq_map, List.map_cons, List.map_map]
  congr 1
  apply List.map_congr_left
  intro i _
  simp only [Function.comp, byte, offsetPtr, Nat.add_comm 1 i, Nat.succ_eq_add_one]

theorem offsetPtr_offsetPtr (p : Nat → Nat) (a b : Nat) :
    offsetPtr (offsetPtr p a) b = offsetPtr p (a + b) := by
  funext i
  simp only [offsetPtr, Nat.add_assoc]

/-- The C string that starts one byte after the start of a non-empty C string. -/
theorem holdsCString_tail (p : Nat → Nat) (b : Nat) (rest : List Nat)
    (h : holdsCString p (b :: rest)) :
    byte p 0 = b ∧ b ≠ 0 ∧ holdsCString (offsetPtr p 1) rest := by
  obtain ⟨h0, hmem⟩ := h
  rw [List.length_cons, bytesOf_succ, List.cons_append] at hmem
  obtain ⟨hb, ht⟩ := List.cons.inj hmem
  refine ⟨hb, ?_, ?_, ht⟩
  · rintro rfl
    exact h0 (List.mem_cons_self _ _)
  · exact fun hm => h0 (List.mem_cons_of_mem _ hm)

/-- The test `strcmp(name, lit) == 0` on a C string: true exactly when the text is the
literal. -/
theorem strcmp_eq_iff (name : Nat → Nat) (text lit : List Nat)
    (hs : holdsCString name text) (h0 : 0 ∉ lit) :
    strcmp_eq name lit = true ↔ text = lit := by
  unfold strcmp_eq
  rw [decide_eq_true_iff]
  constructor
  · intro h
    have hp : lit <+: text := by
      rw [← bytesOf_eq_iff_prefix name text lit hs h0]
      have h1 := bytesOf_take name (lit.length + 1) lit.length (by omega)
      rw [h, List.take_append_of_le_length (le_refl _), List.take_length] at h1
      exact h1.symm
    have hle := hp.length_le
    by_cases hlt : lit.length < text.length
    · exfalso
      have h1 := bytesOf_getElem? name (lit.length + 1) lit.length (by omega)
      rw [h, List.getElem?_append_right (le_refl _)] at h1
      simp only [Nat.sub_self, List.getElem?_cons_zero, Option.some.injEq] at h1
      have h2 := bytesOf_getElem? name (text.length + 1) lit.length (by omega)
      rw [hs.2, List.getElem?_append_left hlt, ← h1] at h2
      exact hs.1 (List.getElem?_mem h2)
    · exact (hp.eq_of_length (by omega)).symm
  · rintro rfl
    exact hs.2

/-- The test `strstr(name, lit) != NULL` on a C string, for a non-empty literal without
NUL: true exactly when the text contains the literal. -/
theorem strstr_from_iff (name : Nat → Nat) (lit : List Nat) (hl : lit ≠ []) (h0 : 0 ∉ lit) :
    ∀ (rest : List Nat) (fuel pos : Nat), holdsCString (offsetPtr name pos) rest →
      rest.length < fuel → (strstr_from name lit fuel pos = true ↔ lit <:+: rest) := by
  intro rest
  induction rest with
  | nil =>
    intro fuel pos hs hf
    obtain ⟨f, rfl⟩ : ∃ f, fuel = f + 1 := ⟨fuel - 1, by simp at hf; omega⟩
    have hb : byte name pos = 0 := by
      have := hs.2
      rw [List.length_nil, bytesOf_succ] at this
      exact (List.cons.inj this).1
    rw [strstr_from, if_pos hb]
    simp [hl]
  | cons b rest ih =>
    intro fuel pos hs hf
    obtain ⟨f, rfl⟩ : ∃ f, fuel = f + 1 := ⟨fuel - 1, by simp at hf; omega⟩
    obtain ⟨hb, hb0, ht⟩ := holdsCString_tail _ _ _ hs
    have hb' : ¬ byte name pos = 0 := fun h => hb0 (hb ▸ h)
    rw [offsetPtr_offsetPtr] at ht
    rw [strstr_from, if_neg hb', List.infix_cons_iff,
      ← bytesOf_eq_iff_prefix (offsetPtr name pos) (b :: rest) lit hs h0]
    by_cases hp : bytesOf (offsetPtr name pos) lit.length = lit
    · simp [hp]
    · rw [if_neg hp, ih f (pos + 1) ht (by simp at hf; omega)]
      simp [hp]

/-- The node loop leaves the record as it is when no node passes the test. -/
theorem node_loop_skip (u8_base nodes strings : Nat → Nat) (heap : Heap) (result : BannerData) :
    ∀ left i, (∀ j, i ≤ j → j < i + left → ¬ node_test nodes strings j) →
      node_loop u8_base nodes strings heap result left i = result := by
  intro left
  induction left with
  | zero => intro i _; rfl
  | succ left ih =>
    intro i hno
    have hi : ¬ node_test nodes strings i := hno i (le_refl _) (by omega)
    unfold node_test at hi
    unfold node_loop
    simp only at hi ⊢
    rw [if_neg hi]
    exact ih (i + 1) fun j h1 h2 => hno j (by omega) (by omega)

/-- The node loop runs the texture step on the first node that passes the test. -/
theorem node_loop_first (u8_base nodes strings : Nat → Nat) (heap : Heap) (result : BannerData) :
    ∀ left i k, i ≤ k → k < i + left →
      (∀ j, i ≤ j → j < k → ¬ node_test nodes strings j) → node_test nodes strings k →
      node_loop u8_base nodes strings heap result left i
        = decode_texture u8_base (offsetPtr nodes ((k * 12) % 2 ^ 32)) heap result := by
  intro left
  induction left with
  | zero => intro i k h1 h2; omega
  | succ left ih =>
    intro i k h1 h2 hno hk
    unfold node_loop
    simp only
    by_cases hik : i = k
    · subst hik
      unfold node_test at hk
      simp only at hk
      rw [if_pos hk]
    · have hi : ¬ node_test nodes strings i := hno i (le_refl _) (by omega)
      unfold node_test at hi
      simp only at hi
      rw [if_neg hi]
      exact ih (i + 1) k (by omega) (by omega) (fun j h3 h4 => hno j (by omega) h4) hk

/-- Three bytes put together by shifts and ors are the big-endian number they spell. -/
theorem name_offset_eq (node : Nat → Nat) :
    (byte node 1 <<< 16) ||| (byte node 2 <<< 8) ||| byte node 3 = nameOffset node := by
  have h1 := byte_lt node 1
  have h2 := byte_lt node 2
  have h3 := byte_lt node 3
  unfold nameOffset
  rw [Nat.shiftLeft_eq, Nat.shiftLeft_eq]
  rw [Nat.mul_comm (byte node 1) (2 ^ 16),
    ← Nat.mul_add_lt_is_or (show byte node 2 * 2 ^ 8 < 2 ^ 16 by omega) (byte node 1)]
  have e : 2 ^ 16 * byte node 1 + byte node 2 * 2 ^ 8
      = 2 ^ 8 * (2 ^ 8 * byte node 1 + byte node 2) := by omega
  rw [e, ← Nat.mul_add_lt_is_or (show byte node 3 < 2 ^ 8 by omega)]
  omega

/-- The test of the node loop on a node of a well-formed archive: the node is a file and
its name is one the lookup accepts. -/
theorem node_test_iff (nodes strings : Nat → Nat) (i : Nat) (name : List Nat)
    (h12 : i * 12 < 2 ^ 32)
    (htype : nodeType (nodeAt nodes i) = 0 ∨ nodeType (nodeAt nodes i) = 1)
    (hname : nodeType (nodeAt nodes i) = 0 →
      holdsCString (offsetPtr strings (nameOffset (nodeAt nodes i))) name
        ∧ name.length < ADDRESS_SPACE) :
    node_test nodes strings i ↔ nodeType (nodeAt nodes i) = 0 ∧ wantedName name := by
  unfold node_test
  simp only [Nat.mod_eq_of_lt h12, name_offset_eq]
  unfold nodeAt nodeType at *
  have hstr : ∀ hs : holdsCString (offsetPtr strings (nameOffset (offsetPtr nodes (i * 12)))) name,
      name.length < ADDRESS_SPACE →
      (strstr_from (offsetPtr strings (nameOffset (offsetPtr nodes (i * 12)))) DOT_TPL
        ADDRESS_SPACE 0 = true ↔ DOT_TPL <:+: name) := fun hs hlen =>
    strstr_from_iff (offsetPtr strings (nameOffset (offsetPtr nodes (i * 12)))) DOT_TPL
      (by decide) (by decide) name ADDRESS_SPACE 0
      (by rw [offsetPtr_offsetPtr, Nat.add_zero]; exact hs) hlen
  constructor
  · rintro ⟨hd, hw⟩
    have hf : byte (offsetPtr nodes (i * 12)) 0 = 0 := htype.resolve_right hd
    obtain ⟨hs, hlen⟩ := hname hf
    refine ⟨hf, ?_⟩
    rcases hw with hw | hw
    · exact Or.inl ((strcmp_eq_iff _ name BANNER_TPL hs (by decide)).1 hw)
    · exact Or.inr ((hstr hs hlen).1 hw)
  · rintro ⟨hf, hw⟩
    obtain ⟨hs, hlen⟩ := hname hf
    refine ⟨by rw [hf]; decide, ?_⟩
    rcases hw with hw | hw
    · exact Or.inl ((strcmp_eq_iff _ name BANNER_TPL hs (by decide)).2 hw)
    · exact Or.inr ((hstr hs hlen).2 hw)

/-- In a well-formed node array of fewer than 2^32 bytes the node loop runs the texture
step on the first file node whose name the lookup accepts. -/
theorem node_loop_lookup (u8_base nodes strings : Nat → Nat) (heap : Heap) (result : BannerData)
    (node_count : Nat) (names : Nat → List Nat)
    (hsize : node_count * 12 < 2 ^ 32)
    (htype : ∀ i, i < node_count → nodeType (nodeAt nodes i) = 0 ∨ nodeType (nodeAt nodes i) = 1)
    (hname : ∀ i, i < node_count → nodeType (nodeAt nodes i) = 0 →
      holdsCString (offsetPtr strings (nameOffset (nodeAt nodes i))) (names i)
        ∧ (names i).length < ADDRESS_SPACE)
    (k : Nat) (hk : k < node_count) (hfile : nodeType (nodeAt nodes k) = 0)
    (hwanted : wantedName (names k))
    (hfirst : ∀ j, j < k → ¬ (nodeType (nodeAt nodes j) = 0 ∧ wantedName (names j))) :
    node_loop u8_base nodes strings heap result node_count 0
      = decode_texture u8_base (nodeAt nodes k) heap result := by
  have hiff : ∀ i, i < node_count →
      (node_test nodes strings i ↔ nodeType (nodeAt nodes i) = 0 ∧ wantedName (names i)) :=
    fun i hi => node_test_iff nodes strings i (names i) (by omega) (htype i hi) (hname i hi)
  have h := node_loop_first u8_base nodes strings heap result node_count 0 k (Nat.zero_le _)
    (by omega) (fun j _ hj => fun ht => hfirst j hj ((hiff j (by omega)).1 ht))
    ((hiff k hk).2 ⟨hfile, hwanted⟩)
  rw [h, Nat.mod_eq_of_lt (by omega)]
  rfl

/-- In a well-formed node array of fewer than 2^32 bytes without a file node whose name
the lookup accepts, the node loop leaves the record as it is. -/
theorem node_loop_no_match (u8_base nodes strings : Nat → Nat) (heap : Heap)
    (result : BannerData) (node_count : Nat) (names : Nat → List Nat)
    (hsize : node_count * 12 < 2 ^ 32)
    (htype : ∀ i, i < node_count → nodeType (nodeAt nodes i) = 0 ∨ nodeType (nodeAt nodes i) = 1)
    (hname : ∀ i, i < node_count → nodeType (nodeAt nodes i) = 0 →
      holdsCString (offsetPtr strings (nameOffset (nodeAt nodes i))) (names i)
        ∧ (names i).length < ADDRESS_SPACE)
    (hnone : ∀ j, j < node_count → ¬ (nodeType (nodeAt nodes j) = 0 ∧ wantedName (names j))) :
    node_loop u8_base nodes strings heap result node_count 0 = result := by
  apply node_loop_skip
  intro j _ hj ht
  exact hnone j (by omega)
    ((node_test_iff nodes strings j (names j) (by omega) (htype j (by omega))
      (hname j (by omega))).1 ht)

/-! ## The claims on the archive walk -/

/-- C21: for a well-formed node array (`node_count` nodes of 12 bytes, together shorter
than 4 GiB as the 32-bit offsets of the format require, every type byte 0 or 1, the name
of every file node a C string in the string table) the node loop of `parse_opening_banner`
runs the texture step on the first node, in array order, that is a file and whose name
is "banner.tpl" or contains ".tpl"; it leaves the record as it is when there is no such
node; and a single file node named "banner.tpl" among directory nodes is the one used,
at whatever index it is and whatever the directories are called. -/
theorem archive_lookup (u8_base nodes strings : Nat → Nat) (heap : Heap) (result : BannerData)
    (node_count : Nat) (names : Nat → List Nat)
    (hsize : node_count * 12 < 2 ^ 32)
    (htype : ∀ i, i < node_count → nodeType (nodeAt nodes i) = 0 ∨ nodeType (nodeAt nodes i) = 1)
    (hname : ∀ i, i < node_count → nodeType (nodeAt nodes i) = 0 →
      holdsCString (offsetPtr strings (nameOffset (nodeAt nodes i))) (names i)
        ∧ (names i).length < ADDRESS_SPACE) :
    (∀ k, k < node_count → nodeType (nodeAt nodes k) = 0 → wantedName (names k) →
      (∀ j, j < k → ¬ (nodeType (nodeAt nodes j) = 0 ∧ wantedName (names j))) →
      node_loop u8_base nodes strings heap result node_count 0
        = decode_texture u8_base (nodeAt nodes k) heap result)
    ∧ ((∀ j, j < node_count → ¬ (nodeType (nodeAt nodes j) = 0 ∧ wantedName (names j))) →
      node_loop u8_base nodes strings heap result node_count 0 = result)
    ∧ (∀ k, k < node_count → nodeType (nodeAt nodes k) = 0 → names k = BANNER_TPL →
      (∀ j, j < node_count → j ≠ k → nodeType (nodeAt nodes j) = 1) →
      node_loop u8_base nodes strings heap result node_count 0
        = decode_texture u8_base (nodeAt nodes k) heap result) := by
  refine ⟨fun k hk hfile hwanted hfirst => ?_, fun hnone => ?_, fun k hk hfile hnm hdirs => ?_⟩
  · exact node_loop_lookup u8_base nodes strings heap result node_count names hsize htype hname
      k hk hfile hwanted hfirst
  · exact node_loop_no_match u8_base nodes strings heap result node_count names hsize htype
      hname hnone
  · refine node_loop_lookup u8_base nodes strings heap result node_count names hsize htype
      hname k hk hfile (Or.inl hnm) fun j hj hsel => ?_
    have := hdirs j (by omega) (by omega)
    rw [hsel.1] at this
    cases this

set_option maxRecDepth 100000 in
/-- Instance of C21: the archive `nestedArchive`, whose node array holds the root
directory, a directory named "x.tpl" and the file "banner.tpl" at index 2; the texture
step runs on node 2. -/
theorem archive_lookup_witness :
    3 * 12 < 2 ^ 32
    ∧ (∀ i, i < 3 →
        nodeType (nodeAt (offsetPtr (memOf (nestedArchive (sampleTpl 4 4 14 whiteBlock))) 0x20) i)
            = 0
          ∨ nodeType (nodeAt (offsetPtr (memOf (nestedArchive (sampleTpl 4 4 14 whiteBlock)))
              0x20) i) = 1)
    ∧ (∀ i, i < 3 →
        nodeType (nodeAt (offsetPtr (memOf (nestedArchive (sampleTpl 4 4 14 whiteBlock))) 0x20) i)
            = 0 →
          holdsCString (offsetPtr (offsetPtr (memOf (nestedArchive (sampleTpl 4 4 14 whiteBlock)))
              0x44) (nameOffset (nodeAt (offsetPtr (memOf (nestedArchive
                (sampleTpl 4 4 14 whiteBlock))) 0x20) i))) (nestedNames i)
            ∧ (nestedNames i).length < ADDRESS_SPACE)
    ∧ node_loop (memOf (nestedArchive (sampleTpl 4 4 14 whiteBlock)))
        (offsetPtr (memOf (nestedArchive (sampleTpl 4 4 14 whiteBlock))) 0x20)
        (offsetPtr (memOf (nestedArchive (sampleTpl 4 4 14 whiteBlock))) 0x44)
        plainHeap staleBanner 3 0
      = decode_texture (memOf (nestedArchive (sampleTpl 4 4 14 whiteBlock)))
          (nodeAt (offsetPtr (memOf (nestedArchive (sampleTpl 4 4 14 whiteBlock))) 0x20) 2)
          plainHeap staleBanner
    ∧ (decode_texture (memOf (nestedArchive (sampleTpl 4 4 14 whiteBlock)))
          (nodeAt (offsetPtr (memOf (nestedArchive (sampleTpl 4 4 14 whiteBlock))) 0x20) 2)
          plainHeap staleBanner).rgba_size = 64 :=
  ⟨by decide, by decide, by decide,
    (archive_lookup (memOf (nestedArchive (sampleTpl 4 4 14 whiteBlock)))
      (offsetPtr (memOf (nestedArchive (sampleTpl 4 4 14 whiteBlock))) 0x20)
      (offsetPtr (memOf (nestedArchive (sampleTpl 4 4 14 whiteBlock))) 0x44)
      plainHeap staleBanner 3 nestedNames (by decide) (by decide) (by decide)).1 2 (by decide)
      (by decide) (by decide) (by decide),
    by decide⟩

set_option maxRecDepth 100000 in
/-- C22 as stated fails: in `oversizeEntryBanner` the entry "banner.tpl" has data-offset
0x50 and data-size 0xFFFFFFFF, so its byte range ends far past the end of the file, and
the call decodes its texture all the same: a 4x4 image of 64 bytes. -/
theorem oversize_entry_decoded :
    read_u32_be (offsetPtr (memOf oversizeEntryBanner) (4 + 0x2C + 0x04)) = 0x50
    ∧ read_u32_be (offsetPtr (memOf oversizeEntryBanner) (4 + 0x2C + 0x08)) = 0xFFFFFFFF
    ∧ 0x50 + 0xFFFFFFFF > oversizeEntryBanner.length
    ∧ (parse_opening_banner (some oversizeEntryBanner) plainHeap (some staleBanner)).1 = true
    ∧ (parse_opening_banner (some oversizeEntryBanner) plainHeap (some staleBanner)).2.map
          (fun r => (r.texture_width, r.texture_height, r.rgba_size, r.rgba_data.isSome))
        = some (4, 4, 64, true) := by
  refine ⟨by decide, by decide, by decide, by decide, by decide⟩

/-- C22, amended: the texture step consults only the data-offset of an archive entry. Two
entries with the same data-offset give the same result whatever their data-size is, so an
entry whose byte range exceeds the host buffer is decoded like one whose range fits. -/
theorem entry_size_not_consulted (u8_base node other : Nat → Nat) (heap : Heap)
    (result : BannerData)
    (hoff : read_u32_be (offsetPtr node 0x04) = read_u32_be (offsetPtr other 0x04)) :
    decode_texture u8_base node heap result = decode_texture u8_base other heap result := by
  unfold decode_texture
  simp only [hoff]

set_option maxRecDepth 100000 in
/-- Instance of C22, amended: the file nodes of `whiteBanner` (data-size 0x48) and of
`oversizeEntryBanner` (data-size 0xFFFFFFFF), on the archive of `whiteBanner`. -/
theorem entry_size_not_consulted_witness :
    read_u32_be (offsetPtr (offsetPtr (memOf whiteBanner) (4 + 0x2C)) 0x04)
        = read_u32_be (offsetPtr (offsetPtr (memOf oversizeEntryBanner) (4 + 0x2C)) 0x04)
    ∧ read_u32_be (offsetPtr (offsetPtr (memOf whiteBanner) (4 + 0x2C)) 0x08) = 0x48
    ∧ read_u32_be (offsetPtr (offsetPtr (memOf oversizeEntryBanner) (4 + 0x2C)) 0x08)
        = 0xFFFFFFFF
    ∧ decode_texture (offsetPtr (memOf whiteBanner) 4) (offsetPtr (memOf whiteBanner) (4 + 0x2C))
          plainHeap staleBanner
        = decode_texture (offsetPtr (memOf whiteBanner) 4)
          (offsetPtr (memOf oversizeEntryBanner) (4 + 0x2C)) plainHeap staleBanner :=
  ⟨by decide, by decide, by decide,
    entry_size_not_consulted (offsetPtr (memOf whiteBanner) 4)
      (offsetPtr (memOf whiteBanner) (4 + 0x2C))
      (offsetPtr (memOf oversizeEntryBanner) (4 + 0x2C)) plainHeap staleBanner (by decide)⟩

set_option maxRecDepth 100000 in
/-- C26: evaluation at `shortImetBanner`, a file of 8 bytes that starts with "IMET". The
title conversion reads from offset 0x80 of the 8-byte buffer: with zero bytes after the
buffer the title is empty, and with the letter "A" at offset 0x81 of the memory after
the buffer the title is "A"; the result depends on bytes that are not in the file. -/
theorem short_imet_reads_heap :
    shortImetBanner.length = 8
    ∧ (parse_opening_banner (some shortImetBanner) plainHeap (some staleBanner)).2.map
          (fun r => cstr r.game_title) = some []
    ∧ (parse_opening_banner (some shortImetBanner) letterAfterBufferHeap
          (some staleBanner)).2.map (fun r => cstr r.game_title) = some [0x41] := by
  refine ⟨by decide, by decide, by decide⟩

/-! ## Lemmas on the whole pipeline -/

/-- The scan stops at the first offset that holds the archive magic. -/
theorem scan_u8_first (buffer : Nat → Nat) :
    ∀ left i k, i ≤ k → k < i + left →
      (∀ j, i ≤ j → j < k → read_u32_be (offsetPtr buffer j) ≠ U8_MAGIC) →
      read_u32_be (offsetPtr buffer k) = U8_MAGIC → scan_u8 buffer left i = k := by
  intro left
  induction left with
  | zero => intro i k h1 h2; omega
  | succ left ih =>
    intro i k h1 h2 hno hk
    unfold scan_u8
    by_cases hik : i = k
    · subst hik
      rw [if_pos hk]
    · rw [if_neg (hno i (le_refl _) (by omega))]
      exact ih (i + 1) k (by omega) (by omega) (fun j h3 h4 => hno j (by omega) h4) hk

/-- When the first archive magic of the file is at a scanned offset other than 0, the call
returns true and the record is what the node loop makes of the archive at that offset,
started on a record with the default image fields. -/
theorem parse_opening_banner_archive (bytes : List Nat) (heap : Heap) (result : BannerData)
    (off : Nat) (hmalloc : heap.malloc_ok bytes.length = true) (hoff : off ≠ 0)
    (hin : off + 4 < bytes.length) (h64 : bytes.length < 2 ^ 64)
    (hmagic : read_u32_be (offsetPtr (file_buffer bytes heap) off) = U8_MAGIC)
    (hfirst : ∀ j, j < off → read_u32_be (offsetPtr (file_buffer bytes heap) j) ≠ U8_MAGIC) :
    ∃ r0 : BannerData, r0.texture_width = 0 ∧ r0.texture_height = 0 ∧ r0.rgba_data = none
      ∧ r0.rgba_size = 0
      ∧ parse_opening_banner (some bytes) heap (some result) =
        (true, some (node_loop (offsetPtr (file_buffer bytes heap) off)
          (offsetPtr (offsetPtr (file_buffer bytes heap) off)
            (read_u32_be (offsetPtr (offsetPtr (file_buffer bytes heap) off) 0x04)))
          (offsetPtr (offsetPtr (offsetPtr (file_buffer bytes heap) off)
            (read_u32_be (offsetPtr (offsetPtr (file_buffer bytes heap) off) 0x04)))
            ((read_u32_be (offsetPtr (offsetPtr (offsetPtr (file_buffer bytes heap) off)
              (read_u32_be (offsetPtr (offsetPtr (file_buffer bytes heap) off) 0x04))) 0x08)
              * 12) % 2 ^ 32))
          heap r0
          (read_u32_be (offsetPtr (offsetPtr (offsetPtr (file_buffer bytes heap) off)
            (read_u32_be (offsetPtr (offsetPtr (file_buffer bytes heap) off) 0x04))) 0x08))
          0)) := by
  have hb : (bytes.length + 2 ^ 64 - 4) % 2 ^ 64 = bytes.length - 4 := by
    rw [show bytes.length + 2 ^ 64 - 4 = (bytes.length - 4) + 2 ^ 64 by omega, Nat.add_mod_right,
      Nat.mod_eq_of_lt (by omega)]
  have hscan : scan_u8 (file_buffer bytes heap) ((bytes.length + 2 ^ 64 - 4) % 2 ^ 64) 0 = off := by
    rw [hb]
    exact scan_u8_first _ _ 0 off (Nat.zero_le _) (by omega) (fun j _ hj => hfirst j hj) hmagic
  unfold parse_opening_banner
  simp only [hmalloc, not_true_eq_false, if_false, hscan, ne_eq, hoff, not_false_eq_true, if_true]
  refine ⟨_, ?_, ?_, ?_, ?_, rfl⟩
  · split <;> rfl
  · split <;> rfl
  · split <;> rfl
  · split <;> rfl

theorem utf16Units_utf16be (text rest : List Nat) :
    utf16Units (utf16be text ++ rest) = text ++ utf16Units rest := by
  induction text with
  | nil => rfl
  | cons c text ih =>
    simp only [utf16be, List.flatMap_cons, List.cons_append, List.nil_append, utf16Units,
      Nat.zero_mul, Nat.zero_add, List.cons.injEq, true_and] at ih ⊢
    exact ih

/-- The lossy conversion of a field that starts with an ASCII text in UTF-16BE and a zero
code unit is that text. -/
theorem lossyText_utf16be (field text : List Nat) (h0 : 0 ∉ text) (ha : ∀ c ∈ text, c < 0x80)
    (hf : field.take (2 * text.length + 2) = utf16be text ++ [0, 0]) :
    lossyText field = text := by
  have hsplit : field = utf16be text ++ ([0, 0] ++ field.drop (2 * text.length + 2)) := by
    rw [← List.append_assoc, ← hf, List.take_append_drop]
  obtain ⟨rest, hrest⟩ : ∃ rest, field = utf16be text ++ (0 :: 0 :: rest) := ⟨_, hsplit⟩
  clear hsplit hf
  subst hrest
  unfold lossyText
  rw [utf16Units_utf16be]
  simp only [utf16Units, Nat.zero_mul, Nat.zero_add]
  have ht : (text ++ 0 :: utf16Units rest).takeWhile (fun x => decide (x ≠ 0)) = text := by
    have := cstr_append_nul text (utf16Units rest)
    unfold cstr at this
    rw [this]
    exact (cstr_eq_self_iff text).2 h0
  rw [ht]
  conv_rhs => rw [← List.map_id text]
  apply List.map_congr_left
  intro c hc
  simp only [lossyChar, if_pos (ha c hc), id]

/-- The value of `read_u32_be` as a number: the four bytes, most significant first. -/
theorem read_u32_be_eq (p : Nat → Nat) :
    read_u32_be p = byte p 0 * 2 ^ 24 + byte p 1 * 2 ^ 16 + byte p 2 * 2 ^ 8 + byte p 3 := by
  have h0 := byte_lt p 0
  have h1 := byte_lt p 1
  have h2 := byte_lt p 2
  have h3 := byte_lt p 3
  unfold read_u32_be
  rw [Nat.shiftLeft_eq, Nat.shiftLeft_eq, Nat.shiftLeft_eq,
    Nat.mul_comm (byte p 0) (2 ^ 24),
    ← Nat.mul_add_lt_is_or (show byte p 1 * 2 ^ 16 < 2 ^ 24 by omega) (byte p 0)]
  have e1 : 2 ^ 24 * byte p 0 + byte p 1 * 2 ^ 16
      = 2 ^ 16 * (2 ^ 8 * byte p 0 + byte p 1) := by omega
  rw [e1, ← Nat.mul_add_lt_is_or (show byte p 2 * 2 ^ 8 < 2 ^ 16 by omega)]
  have e2 : 2 ^ 16 * (2 ^ 8 * byte p 0 + byte p 1) + byte p 2 * 2 ^ 8
      = 2 ^ 8 * (2 ^ 16 * byte p 0 + 2 ^ 8 * byte p 1 + byte p 2) := by omega
  rw [e2, ← Nat.mul_add_lt_is_or (show byte p 3 < 2 ^ 8 by omega), Nat.mod_eq_of_lt (by omega)]

/-- No offset inside a part of the file that is free of the byte 0x55 holds the archive
magic. -/
theorem no_magic_in_prefix (pre rest : List Nat) (heap : Heap) (h55 : 0x55 ∉ pre)
    (hb : ∀ b ∈ pre, b < 256) (j : Nat) (hj : j < pre.length) :
    read_u32_be (offsetPtr (file_buffer (pre ++ rest) heap) j) ≠ U8_MAGIC := by
  intro h
  rw [read_u32_be_eq] at h
  have h0 := byte_lt (offsetPtr (file_buffer (pre ++ rest) heap) j) 0
  have h1 := byte_lt (offsetPtr (file_buffer (pre ++ rest) heap) j) 1
  have h2 := byte_lt (offsetPtr (file_buffer (pre ++ rest) heap) j) 2
  have h3 := byte_lt (offsetPtr (file_buffer (pre ++ rest) heap) j) 3
  have hb0 : byte (offsetPtr (file_buffer (pre ++ rest) heap) j) 0 = 0x55 := by
    unfold U8_MAGIC at h
    omega
  have hval : byte (offsetPtr (file_buffer (pre ++ rest) heap) j) 0 = pre[j] := by
    have hlt : j < (pre ++ rest).length := by rw [List.length_append]; omega
    simp only [byte, offsetPtr, file_buffer, Nat.add_zero, if_pos hlt]
    rw [List.getD_eq_getElem?_getD, List.getElem?_append_left hj, List.getElem?_eq_getElem hj,
      Option.getD_some]
    exact Nat.mod_eq_of_lt (hb _ (List.getElem_mem _))
  rw [hval] at hb0
  exact h55 (hb0 ▸ List.getElem_mem _)

set_option maxRecDepth 100000 in
/-- The bytes of `testGameBanner` are bytes. -/
theorem testGameBanner_bytes : ∀ b ∈ testGameBanner, b < 256 := by
  intro b hb
  simp only [testGameBanner, testGamePrefix, List.mem_append, List.mem_replicate] at hb
  rcases hb with (((((h | h) | h) | h) | h) | h) | h
  · exact (by decide : ∀ b ∈ IMET, b < 256) b h
  · rw [h.2]; norm_num
  · exact (by decide : ∀ b ∈ utf16be (ascii "Test Game"), b < 256) b h
  · rw [h.2]; norm_num
  · exact (by decide : ∀ b ∈ utf16be (ascii "Test Co"), b < 256) b h
  · rw [h.2]; norm_num
  · exact (by decide : ∀ b ∈ sampleArchive (sampleTpl 4 4 14 whiteBlock), b < 256) b h

/-! ## Lemmas on the memory accesses -/

theorem read_u32_be_agree (b1 b2 : Nat → Nat) (n off : Nat) (hagree : ∀ i, i < n → b1 i = b2 i)
    (hsafe : ∀ a ∈ read_u32_be_reads off, Access.in_bounds n a = true) :
    read_u32_be (offsetPtr b1 off) = read_u32_be (offsetPtr b2 off) := by
  simp only [read_u32_be_reads, List.forall_mem_cons, Access.in_bounds, decide_eq_true_eq,
    List.not_mem_nil, false_implies, implies_true, and_true] at hsafe
  obtain ⟨h0, h1, h2, h3⟩ := hsafe
  simp only [read_u32_be, byte, offsetPtr, Nat.add_zero, hagree _ h0, hagree _ h1, hagree _ h2,
    hagree _ h3]

theorem read_u16_be_agree (b1 b2 : Nat → Nat) (n off : Nat) (hagree : ∀ i, i < n → b1 i = b2 i)
    (hsafe : ∀ a ∈ read_u16_be_reads off, Access.in_bounds n a = true) :
    read_u16_be (offsetPtr b1 off) = read_u16_be (offsetPtr b2 off) := by
  simp only [read_u16_be_reads, List.forall_mem_cons, Access.in_bounds, decide_eq_true_eq,
    List.not_mem_nil, false_implies, implies_true, and_true] at hsafe
  obtain ⟨h0, h1⟩ := hsafe
  simp only [read_u16_be, byte, offsetPtr, Nat.add_zero, hagree _ h0, hagree _ h1]

theorem utf16be_loop_agree (b1 b2 : Nat → Nat) (n src max_len : Nat)
    (hagree : ∀ i, i < n → b1 i = b2 i) :
    ∀ fuel i j dest,
      (∀ a ∈ utf16be_loop_reads b1 src max_len fuel i j, Access.in_bounds n a = true) →
      utf16be_loop (offsetPtr b1 src) max_len fuel i j dest
        = utf16be_loop (offsetPtr b2 src) max_len fuel i j dest := by
  intro fuel
  induction fuel with
  | zero => intro i j dest _; rfl
  | succ fuel ih =>
    intro i j dest hsafe
    unfold utf16be_loop
    unfold utf16be_loop_reads at hsafe
    by_cases hc : i < max_len - 1 ∧ j < 63
    · rw [if_pos hc] at hsafe ⊢
      rw [if_pos hc]
      simp only [List.forall_mem_cons] at hsafe
      obtain ⟨h0, h1, hrest⟩ := hsafe
      simp only [Access.in_bounds, decide_eq_true_eq] at h0 h1
      have e0 : byte (offsetPtr b1 src) i = byte (offsetPtr b2 src) i := by
        simp only [byte, offsetPtr, hagree _ h0]
      have e1 : byte (offsetPtr b1 src) (i + 1) = byte (offsetPtr b2 src) (i + 1) := by
        simp only [byte, offsetPtr, hagree _ h1]
      simp only [e0, e1] at hrest ⊢
      by_cases hz : (byte (offsetPtr b2 src) i <<< 8 ||| byte (offsetPtr b2 src) (i + 1)) % 2 ^ 16 = 0
      · simp only [hz, if_true]
      · simp only [hz, if_false] at hrest ⊢
        rw [ih _ _ _ hrest, ih _ _ _ hrest]
    · rw [if_neg hc, if_neg hc]

theorem scan_u8_agree (b1 b2 : Nat → Nat) (n : Nat) (hagree : ∀ i, i < n → b1 i = b2 i) :
    ∀ left i, (∀ a ∈ scan_u8_reads b1 left i, Access.in_bounds n a = true) →
      scan_u8 b1 left i = scan_u8 b2 left i := by
  intro left
  induction left with
  | zero => intro i _; rfl
  | succ left ih =>
    intro i hsafe
    unfold scan_u8
    unfold scan_u8_reads at hsafe
    rw [List.forall_mem_append] at hsafe
    rw [← read_u32_be_agree b1 b2 n i hagree hsafe.1]
    by_cases hm : read_u32_be (offsetPtr b1 i) = U8_MAGIC
    · rw [if_pos hm, if_pos hm]
    · rw [if_neg hm, if_neg hm]
      have h2 := hsafe.2
      rw [if_neg hm] at h2
      exact ih _ h2


theorem bytesOf_agree (b1 b2 : Nat → Nat) (n q m : Nat) (hagree : ∀ i, i < n → b1 i = b2 i)
    (h : q + m ≤ n) : bytesOf (offsetPtr b1 q) m = bytesOf (offsetPtr b2 q) m := by
  unfold bytesOf
  apply List.map_congr_left
  intro i hi
  have hi2 := List.mem_range.1 hi
  simp only [byte, offsetPtr]
  rw [hagree _ (by omega)]

theorem string_reads_first (b : Nat → Nat) (name fuel pos : Nat) (hf : 0 < fuel) :
    Access.read (name + pos) ∈ string_reads b name fuel pos := by
  cases fuel with
  | zero => omega
  | succ fuel => simp [string_reads]

/-- A string whose reads stay inside the buffer has its terminator inside the buffer. -/
theorem string_reads_terminated (b : Nat → Nat) (n name : Nat) :
    ∀ fuel pos, name + pos < n → n < name + pos + fuel →
      (∀ a ∈ string_reads b name fuel pos, Access.in_bounds n a = true) →
      ∃ text, holdsCString (offsetPtr b (name + pos)) text ∧ name + pos + text.length < n := by
  intro fuel
  induction fuel with
  | zero => intro pos h1 h2; omega
  | succ fuel ih =>
    intro pos h1 h2 hsafe
    unfold string_reads at hsafe
    rw [List.forall_mem_cons] at hsafe
    by_cases hz : byte (offsetPtr b name) pos = 0
    · refine ⟨[], ⟨List.not_mem_nil _, ?_⟩, by simpa using h1⟩
      have hz2 : byte (offsetPtr b (name + pos)) 0 = 0 := by
        simpa [byte, offsetPtr] using hz
      show bytesOf _ 1 = [0]
      rw [bytesOf_succ, hz2]
      rfl
    · have hrest := hsafe.2
      rw [if_neg hz] at hrest
      have h3 : name + (pos + 1) < n := by
        cases fuel with
        | zero => omega
        | succ fuel =>
          have := hrest _ (string_reads_first b name (fuel + 1) (pos + 1) (by omega))
          simpa [Access.in_bounds] using this
      obtain ⟨text, ⟨ht0, htb⟩, htl⟩ := ih (pos + 1) h3 (by omega) hrest
      refine ⟨byte (offsetPtr b name) pos :: text, ⟨?_, ?_⟩, ?_⟩
      · intro hmem
        rcases List.mem_cons.1 hmem with h | h
        · exact hz h.symm
        · exact ht0 h
      · rw [List.length_cons, bytesOf_succ, offsetPtr_offsetPtr, List.cons_append]
        congr 1
      · rw [List.length_cons]
        omega

/-- The two name tests of the node loop give the same answers on two memories that agree
inside the buffer, when the reads of the name stay inside it. -/
theorem name_tests_agree (b1 b2 : Nat → Nat) (n name : Nat)
    (hagree : ∀ i, i < n → b1 i = b2 i) (hn : n < ADDRESS_SPACE)
    (hsafe : ∀ a ∈ string_reads b1 name ADDRESS_SPACE 0, Access.in_bounds n a = true) :
    strcmp_eq (offsetPtr b1 name) BANNER_TPL = strcmp_eq (offsetPtr b2 name) BANNER_TPL
      ∧ strstr_from (offsetPtr b1 name) DOT_TPL ADDRESS_SPACE 0
        = strstr_from (offsetPtr b2 name) DOT_TPL ADDRESS_SPACE 0 := by
  have h1 : name + 0 < n := by
    have := hsafe _ (string_reads_first b1 name ADDRESS_SPACE 0 (by decide))
    simpa [Access.in_bounds] using this
  obtain ⟨text, hs1, hl⟩ := string_reads_terminated b1 n name ADDRESS_SPACE 0 h1 (by omega) hsafe
  rw [Nat.add_zero] at hs1 hl
  have hs2 : holdsCString (offsetPtr b2 name) text := by
    refine ⟨hs1.1, ?_⟩
    rw [← bytesOf_agree b1 b2 n name (text.length + 1) hagree (by omega)]
    exact hs1.2
  constructor
  · rw [Bool.eq_iff_iff, strcmp_eq_iff _ text _ hs1 (by decide),
      strcmp_eq_iff _ text _ hs2 (by decide)]
  · have hs1z : holdsCString (offsetPtr (offsetPtr b1 name) 0) text := by
      rw [offsetPtr_zero]; exact hs1
    have hs2z : holdsCString (offsetPtr (offsetPtr b2 name) 0) text := by
      rw [offsetPtr_zero]; exact hs2
    rw [Bool.eq_iff_iff,
      strstr_from_iff _ _ (by decide) (by decide) text ADDRESS_SPACE 0 hs1z (by omega),
      strstr_from_iff _ _ (by decide) (by decide) text ADDRESS_SPACE 0 hs2z (by omega)]

theorem cmpr_block_stores_agree (b1 b2 : Nat → Nat) (n pixels w h y x : Nat)
    (hagree : ∀ i, i < n → b1 i = b2 i)
    (hsafe : ∀ a ∈ read_u16_be_reads (pixels + (((y / 4) * (w / 4) + x / 4) * 8) % 2 ^ 32)
        ++ read_u16_be_reads (pixels + (((y / 4) * (w / 4) + x / 4) * 8) % 2 ^ 32 + 2)
        ++ read_u32_be_reads (pixels + (((y / 4) * (w / 4) + x / 4) * 8) % 2 ^ 32 + 4),
      Access.in_bounds n a = true) :
    cmpr_block_stores (offsetPtr b1 pixels) w h y x
      = cmpr_block_stores (offsetPtr b2 pixels) w h y x := by
  rw [List.forall_mem_append, List.forall_mem_append] at hsafe
  have e1 := read_u16_be_agree b1 b2 n _ hagree hsafe.1.1
  have e2 := read_u16_be_agree b1 b2 n _ hagree hsafe.1.2
  have e3 := read_u32_be_agree b1 b2 n _ hagree hsafe.2
  simp only [cmpr_block_stores, offsetPtr_offsetPtr, e1, e2, e3]

theorem cmpr_stores_agree (b1 b2 : Nat → Nat) (n pixels w h size : Nat)
    (hagree : ∀ i, i < n → b1 i = b2 i)
    (hsafe : ∀ a ∈ cmpr_accesses b1 pixels w h size, Access.in_bounds n a = true) :
    cmpr_stores (offsetPtr b1 pixels) w h = cmpr_stores (offsetPtr b2 pixels) w h := by
  unfold cmpr_stores
  apply List.flatMap_congr
  intro by4 hy
  apply List.flatMap_congr
  intro bx4 hx
  apply cmpr_block_stores_agree b1 b2 n pixels w h _ _ hagree
  intro a ha
  apply hsafe
  unfold cmpr_accesses
  rw [List.mem_flatMap]
  refine ⟨by4, hy, ?_⟩
  rw [List.mem_flatMap]
  refine ⟨bx4, hx, ?_⟩
  exact List.mem_append_left _ ha


theorem decode_texture_agree (b1 b2 : Nat → Nat) (n u8 nd : Nat) (heap : Heap)
    (result : BannerData) (hagree : ∀ i, i < n → b1 i = b2 i)
    (hsafe : ∀ a ∈ decode_texture_accesses b1 u8 nd heap, Access.in_bounds n a = true) :
    decode_texture (offsetPtr b1 u8) (offsetPtr b1 nd) heap result
      = decode_texture (offsetPtr b2 u8) (offsetPtr b2 nd) heap result := by
  simp only [decode_texture_accesses, List.forall_mem_append] at hsafe
  obtain ⟨⟨⟨h1, -⟩, h3⟩, h4⟩ := hsafe
  have e1 := read_u32_be_agree b1 b2 n _ hagree h1
  have e3 := read_u32_be_agree b1 b2 n _ hagree h3
  simp only [decode_texture, offsetPtr_offsetPtr]
  rw [← e1, ← e3]
  by_cases hm : read_u32_be (offsetPtr b1 (u8 + read_u32_be (offsetPtr b1 (nd + 4)))) = 0x0020AF30
  · rw [if_pos hm, if_pos hm]
    rw [if_pos hm] at h4
    simp only [List.forall_mem_append] at h4
    obtain ⟨⟨h5, h6⟩, h7⟩ := h4
    have e5 := read_u32_be_agree b1 b2 n _ hagree h5
    have e6 := read_u32_be_agree b1 b2 n _ hagree h6
    rw [← e5, ← e6]
    by_cases hn : read_u32_be (offsetPtr b1 (u8 + read_u32_be (offsetPtr b1 (nd + 4)) + 4)) > 0
    · rw [if_pos hn, if_pos hn]
      rw [if_pos hn] at h7
      simp only [List.forall_mem_append] at h7
      obtain ⟨⟨⟨⟨⟨h8, h9⟩, h10⟩, h11⟩, h12⟩, h13⟩ := h7
      have e8 := read_u32_be_agree b1 b2 n _ hagree h8
      rw [← e8]
      have e9 := read_u16_be_agree b1 b2 n _ hagree h9
      have e10 := read_u16_be_agree b1 b2 n _ hagree h10
      have e11 := read_u32_be_agree b1 b2 n _ hagree h11
      have e12 := read_u32_be_agree b1 b2 n _ hagree h12
      rw [← e9, ← e10, ← e11, ← e12]
      by_cases hok : heap.malloc_ok
          ((read_u16_be (offsetPtr b1 (u8 + read_u32_be (offsetPtr b1 (nd + 4))
              + read_u32_be (offsetPtr b1 (u8 + read_u32_be (offsetPtr b1 (nd + 4))
                + read_u32_be (offsetPtr b1 (u8 + read_u32_be (offsetPtr b1 (nd + 4)) + 8))))
              + 2))
            * read_u16_be (offsetPtr b1 (u8 + read_u32_be (offsetPtr b1 (nd + 4))
              + read_u32_be (offsetPtr b1 (u8 + read_u32_be (offsetPtr b1 (nd + 4))
                + read_u32_be (offsetPtr b1 (u8 + read_u32_be (offsetPtr b1 (nd + 4)) + 8))))))
            * 4) % 2 ^ 32) = true
      · simp only [hok, if_true]
        by_cases hf : read_u32_be (offsetPtr b1 (u8 + read_u32_be (offsetPtr b1 (nd + 4))
              + read_u32_be (offsetPtr b1 (u8 + read_u32_be (offsetPtr b1 (nd + 4))
                + read_u32_be (offsetPtr b1 (u8 + read_u32_be (offsetPtr b1 (nd + 4)) + 8))))
              + 4)) = 14
        · rw [if_pos hf, if_pos hf]
          simp only [hok, hf, and_self, if_true] at h13
          rw [cmpr_stores_agree b1 b2 n _ _ _ _ hagree h13]
        · rw [if_neg hf, if_neg hf]
      · simp only [if_neg hok]
    · rw [if_neg hn, if_neg hn]
  · rw [if_neg hm, if_neg hm]


theorem node_bytes_agree (b1 b2 : Nat → Nat) (n off : Nat) (hagree : ∀ i, i < n → b1 i = b2 i)
    (hsafe : ∀ a ∈ read_u32_be_reads off, Access.in_bounds n a = true) :
    byte (offsetPtr b1 off) 0 = byte (offsetPtr b2 off) 0
      ∧ byte (offsetPtr b1 off) 1 = byte (offsetPtr b2 off) 1
      ∧ byte (offsetPtr b1 off) 2 = byte (offsetPtr b2 off) 2
      ∧ byte (offsetPtr b1 off) 3 = byte (offsetPtr b2 off) 3 := by
  simp only [read_u32_be_reads, List.forall_mem_cons, Access.in_bounds, decide_eq_true_eq,
    List.not_mem_nil, false_implies, implies_true, and_true] at hsafe
  obtain ⟨h0, h1, h2, h3⟩ := hsafe
  simp only [byte, offsetPtr, Nat.add_zero, hagree _ h0, hagree _ h1, hagree _ h2,
    hagree _ h3, and_self]

theorem node_loop_agree (b1 b2 : Nat → Nat) (n u8 nodes strings : Nat) (heap : Heap)
    (result : BannerData) (hagree : ∀ i, i < n → b1 i = b2 i) (hn : n < ADDRESS_SPACE) :
    ∀ left i,
      (∀ a ∈ node_loop_accesses b1 u8 nodes strings heap left i, Access.in_bounds n a = true) →
      node_loop (offsetPtr b1 u8) (offsetPtr b1 nodes) (offsetPtr b1 strings) heap result left i
        = node_loop (offsetPtr b2 u8) (offsetPtr b2 nodes) (offsetPtr b2 strings) heap result
            left i := by
  intro left
  induction left with
  | zero => intro i _; rfl
  | succ left ih =>
    intro i hsafe
    simp only [node_loop_accesses, List.forall_mem_append] at hsafe
    obtain ⟨h1, h2⟩ := hsafe
    obtain ⟨e0, e1, e2, e3⟩ := node_bytes_agree b1 b2 n _ hagree h1
    simp only [node_loop, offsetPtr_offsetPtr]
    rw [← e0, ← e1, ← e2, ← e3]
    by_cases hdir : byte (offsetPtr b1 (nodes + i * 12 % 2 ^ 32)) 0 = 1
    · rw [if_pos hdir] at h2
      rw [if_neg (fun h => h.1 hdir), if_neg (fun h => h.1 hdir)]
      exact ih _ h2
    · rw [if_neg hdir] at h2
      rw [List.forall_mem_append] at h2
      obtain ⟨h3, h4⟩ := h2
      obtain ⟨t1, t2⟩ := name_tests_agree b1 b2 n _ hagree hn h3
      rw [← t1, ← t2]
      by_cases ht : strcmp_eq (offsetPtr b1 (strings + (byte (offsetPtr b1 (nodes + i * 12 % 2 ^ 32)) 1 <<< 16
            ||| byte (offsetPtr b1 (nodes + i * 12 % 2 ^ 32)) 2 <<< 8
            ||| byte (offsetPtr b1 (nodes + i * 12 % 2 ^ 32)) 3))) BANNER_TPL = true
          ∨ strstr_from (offsetPtr b1 (strings + (byte (offsetPtr b1 (nodes + i * 12 % 2 ^ 32)) 1 <<< 16
            ||| byte (offsetPtr b1 (nodes + i * 12 % 2 ^ 32)) 2 <<< 8
            ||| byte (offsetPtr b1 (nodes + i * 12 % 2 ^ 32)) 3))) DOT_TPL ADDRESS_SPACE 0 = true
      · rw [if_pos ht] at h4
        rw [if_pos ⟨hdir, ht⟩, if_pos ⟨hdir, ht⟩]
        exact decode_texture_agree b1 b2 n _ _ heap result hagree h4
      · rw [if_neg ht] at h4
        rw [if_neg (fun h => ht h.2), if_neg (fun h => ht h.2)]
        exact ih _ h4

theorem node_loop_beyond (u8_base nodes strings : Nat → Nat) (heap : Heap) (beyond : Nat → Nat)
    (result : BannerData) :
    ∀ left i, node_loop u8_base nodes strings { heap with beyond := beyond } result left i
      = node_loop u8_base nodes strings heap result left i := by
  intro left
  induction left with
  | zero => intro i; rfl
  | succ left ih =>
    intro i
    simp only [node_loop, ih]
    rfl

set_option maxRecDepth 2000 in
/-- A call whose accesses all stay in bounds gives a result that does not depend on the
memory after the file buffer. -/
theorem parse_opening_banner_agree (bytes : List Nat) (heap : Heap) (beyond : Nat → Nat)
    (result : Option BannerData) (h64 : bytes.length < 2 ^ 64)
    (hsafe : in_bounds bytes heap = true) :
    parse_opening_banner (some bytes) { heap with beyond := beyond } result
      = parse_opening_banner (some bytes) heap result := by
  cases result with
  | none => rfl
  | some result =>
    by_cases hmalloc : heap.malloc_ok bytes.length = true
    · have hagree : ∀ i, i < bytes.length →
          file_buffer bytes heap i = file_buffer bytes { heap with beyond := beyond } i := by
        intro i hi
        simp only [file_buffer, if_pos hi]
      simp only [in_bounds, parse_opening_banner_accesses, archive_accesses, hmalloc, not_true_eq_false, if_false,
        List.all_eq_true, List.forall_mem_append] at hsafe
      obtain ⟨⟨⟨h1, h2⟩, h3⟩, h4⟩ := hsafe
      have hlen : 4 ≤ bytes.length := by
        have := h1 (.read 3) (by simp)
        simp only [Access.in_bounds, decide_eq_true_eq] at this
        omega
      have ei : bytesOf (file_buffer bytes heap) 4
          = bytesOf (file_buffer bytes { heap with beyond := beyond }) 4 := by
        have := bytesOf_agree _ _ bytes.length 0 4 hagree (by omega)
        rw [offsetPtr_zero, offsetPtr_zero] at this
        exact this
      have es := scan_u8_agree _ _ bytes.length hagree _ _ h3
      have et : bytesOf (file_buffer bytes heap) 4 = IMET →
          utf16be_to_utf8 (offsetPtr (file_buffer bytes heap) 0x80)
              (List.replicate 128 0 ++ result.game_title.drop 128) 64
            = utf16be_to_utf8 (offsetPtr (file_buffer bytes { heap with beyond := beyond }) 0x80)
              (List.replicate 128 0 ++ result.game_title.drop 128) 64
          ∧ utf16be_to_utf8 (offsetPtr (file_buffer bytes heap) 0xC0)
              (List.replicate 128 0 ++ result.game_subtitle.drop 128) 64
            = utf16be_to_utf8 (offsetPtr (file_buffer bytes { heap with beyond := beyond }) 0xC0)
              (List.replicate 128 0 ++ result.game_subtitle.drop 128) 64 := by
        intro hi
        rw [if_pos hi, List.forall_mem_append] at h2
        exact ⟨utf16be_loop_agree _ _ bytes.length 0x80 64 hagree 64 0 0 _ h2.1,
          utf16be_loop_agree _ _ bytes.length 0xC0 64 hagree 64 0 0 _ h2.2⟩
      unfold parse_opening_banner
      simp only [hmalloc, not_true_eq_false, if_false, offsetPtr_offsetPtr]
      rw [← ei, ← es]
      by_cases hu : scan_u8 (file_buffer bytes heap) ((bytes.length + 2 ^ 64 - 4) % 2 ^ 64) 0 = 0
      · simp only [hu, ne_eq, not_true_eq_false, if_false]
        split
        · rename_i hi
          rw [(et hi).1, (et hi).2]
        · rfl
      · simp only [ne_eq, hu, not_false_eq_true, if_true, List.forall_mem_append] at h4 ⊢
        obtain ⟨⟨h5, h6⟩, h7⟩ := h4
        have e5 := read_u32_be_agree _ _ bytes.length _ hagree h5
        rw [← e5]
        have e6 := read_u32_be_agree _ _ bytes.length _ hagree h6
        rw [← e6, node_loop_beyond,
          ← node_loop_agree _ _ bytes.length _ _ _ heap _ hagree h64 _ _ h7]
        split
        · rename_i hi
          rw [(et hi).1, (et hi).2]
        · rfl
    · unfold parse_opening_banner
      dsimp only
      rw [if_pos hmalloc, if_pos hmalloc]


theorem utf16be_loop_reads_in_bounds (buffer : Nat → Nat) (n src max_len : Nat)
    (hfit : src + max_len ≤ n) :
    ∀ fuel i j, ∀ a ∈ utf16be_loop_reads buffer src max_len fuel i j,
      Access.in_bounds n a = true := by
  intro fuel
  induction fuel with
  | zero => intro i j a ha; simp [utf16be_loop_reads] at ha
  | succ fuel ih =>
    intro i j a ha
    unfold utf16be_loop_reads at ha
    by_cases hc : i < max_len - 1 ∧ j < 63
    · rw [if_pos hc] at ha
      rcases List.mem_cons.1 ha with h | ha
      · subst h
        simp only [Access.in_bounds, decide_eq_true_eq]
        omega
      rcases List.mem_cons.1 ha with h | ha
      · subst h
        simp only [Access.in_bounds, decide_eq_true_eq]
        omega
      split at ha
      · simp at ha
      · exact ih _ _ a ha
    · rw [if_neg hc] at ha
      simp at ha

theorem scan_u8_reads_in_bounds (buffer : Nat → Nat) (n : Nat) :
    ∀ left i, i + left + 3 ≤ n → ∀ a ∈ scan_u8_reads buffer left i,
      Access.in_bounds n a = true := by
  intro left
  induction left with
  | zero => intro i _ a ha; simp [scan_u8_reads] at ha
  | succ left ih =>
    intro i hfit a ha
    unfold scan_u8_reads at ha
    rcases List.mem_append.1 ha with h | h
    · simp only [read_u32_be_reads, List.mem_cons, List.not_mem_nil, or_false] at h
      rcases h with h | h | h | h <;> subst h <;>
        simp only [Access.in_bounds, decide_eq_true_eq] <;> omega
    · split at h
      · simp at h
      · exact ih (i + 1) (by omega) a h

/-- The accesses of a call on a file of at least 0x100 bytes whose first archive magic is
at the offset `off` stay in bounds when those of the archive walk at `off` do. -/
theorem in_bounds_of_archive (bytes : List Nat) (heap : Heap) (off : Nat)
    (hlen : 0x100 ≤ bytes.length) (h64 : bytes.length < 2 ^ 64) (hoff : off ≠ 0)
    (hin : off + 4 < bytes.length)
    (hmagic : read_u32_be (offsetPtr (file_buffer bytes heap) off) = U8_MAGIC)
    (hfirst : ∀ j, j < off → read_u32_be (offsetPtr (file_buffer bytes heap) j) ≠ U8_MAGIC)
    (hwalk : (archive_accesses (file_buffer bytes heap) off heap).all
      (Access.in_bounds bytes.length) = true) :
    in_bounds bytes heap = true := by
  have hb : (bytes.length + 2 ^ 64 - 4) % 2 ^ 64 = bytes.length - 4 := by
    rw [show bytes.length + 2 ^ 64 - 4 = (bytes.length - 4) + 2 ^ 64 by omega, Nat.add_mod_right,
      Nat.mod_eq_of_lt (by omega)]
  have hscan : scan_u8 (file_buffer bytes heap) (bytes.length - 4) 0 = off :=
    scan_u8_first _ _ 0 off (Nat.zero_le _) (by omega) (fun j _ hj => hfirst j hj) hmagic
  unfold in_bounds parse_opening_banner_accesses
  rw [List.all_eq_true] at hwalk ⊢
  intro a ha
  dsimp only at ha
  split at ha
  · simp at ha
  · simp only [hb, hscan, ne_eq, hoff, not_false_eq_true, if_true, List.mem_append] at ha
    rcases ha with ((ha | ha) | ha) | ha
    · simp only [List.mem_cons, List.not_mem_nil, or_false] at ha
      rcases ha with h | h | h | h <;> subst h <;>
        simp only [Access.in_bounds, decide_eq_true_eq] <;> omega
    · split at ha
      · rcases List.mem_append.1 ha with h | h
        · exact utf16be_loop_reads_in_bounds _ _ 0x80 64 (by omega) _ _ _ a h
        · exact utf16be_loop_reads_in_bounds _ _ 0xC0 64 (by omega) _ _ _ a h
      · simp at ha
    · exact scan_u8_reads_in_bounds _ _ _ 0 (by omega) a ha
    · exact hwalk a ha

set_option maxRecDepth 100000 in
theorem testGameBanner_in_bounds : in_bounds testGameBanner plainHeap = true :=
  in_bounds_of_archive testGameBanner plainHeap 0x600 (by decide) (by decide) (by decide)
    (by decide) (by decide)
    (fun j hj => no_magic_in_prefix testGamePrefix _ plainHeap (by decide)
      (fun b hb => testGameBanner_bytes b (List.mem_append_left _ hb)) j
      (lt_of_lt_of_le hj (by decide)))
    (by decide)

/-! ## The claims on the text step -/

/-- The placeholder texts of a call that stays in bounds: for a banner file of at least 4
bytes whose first 4 bytes are not "IMET", when the file buffer can be allocated and every
access of the call stays in bounds, the call returns true, whatever the memory after the
file buffer holds, with game_title "Unknown Title" and game_subtitle
"Unknown Publisher". -/
theorem placeholder_titles_in_bounds (bytes : List Nat) (heap : Heap) (result : BannerData)
    (hbytes : ∀ b ∈ bytes, b < 256) (hlen : 4 ≤ bytes.length) (h64 : bytes.length < 2 ^ 64)
    (hm : bytes.take 4 ≠ IMET) (hmalloc : heap.malloc_ok bytes.length = true)
    (hsafe : in_bounds bytes heap = true) :
    ∃ r, parse_opening_banner (some bytes) heap (some result) = (true, some r)
      ∧ (∀ beyond, parse_opening_banner (some bytes) { heap with beyond := beyond }
          (some result) = (true, some r))
      ∧ cstr r.game_title = ascii "Unknown Title"
      ∧ cstr r.game_subtitle = ascii "Unknown Publisher" := by
  obtain ⟨r, hr, _, _, ht, hs⟩ := parse_opening_banner_texts bytes heap result hmalloc
  have hi : ¬ bytesOf (file_buffer bytes heap) 4 = IMET := by
    rw [imet_test bytes heap hlen hbytes]
    exact hm
  rw [if_neg hi] at ht hs
  refine ⟨r, hr,
    fun beyond => (parse_opening_banner_agree bytes heap beyond _ h64 hsafe).trans hr, ?_, ?_⟩
  · rw [ht]
    exact cstr_strncpy _ _ (by decide) (by decide)
  · rw [hs]
    exact cstr_strncpy _ _ (by decide) (by decide)

set_option maxRecDepth 100000 in
/-- The file `whiteBanner`, which starts with 4 zero bytes and holds an archive with a
texture, is read in bounds and gets the placeholder texts. -/
theorem whiteBanner_placeholder_titles :
    in_bounds whiteBanner plainHeap = true
    ∧ ∃ r, parse_opening_banner (some whiteBanner) plainHeap (some staleBanner) = (true, some r)
      ∧ (∀ beyond, parse_opening_banner (some whiteBanner) { plainHeap with beyond := beyond }
          (some staleBanner) = (true, some r))
      ∧ cstr r.game_title = ascii "Unknown Title"
      ∧ cstr r.game_subtitle = ascii "Unknown Publisher" :=
  ⟨by decide,
    placeholder_titles_in_bounds whiteBanner plainHeap staleBanner (by decide) (by decide)
      (by decide) (by decide) (by decide) (by decide)⟩

set_option maxRecDepth 100000 in
/-- C19: evaluation at `wildRootBanner`, a file of 20 bytes that does not start with
"IMET". The scan finds the archive magic at offset 4, the root offset read at offset 8 is
0xFFFFFFF0, and the node count is read (line 91) at the indices 0xFFFFFFFC to 0xFFFFFFFF
of the 20-byte buffer: the accesses of the call are not in bounds. What the call does
then depends on memory that is not in the file: with zero bytes there the record has no
image, and with the node and the texture of `wildRootHeap` there it has a 4x4 image. -/
theorem wild_root_leaves_buffer :
    wildRootBanner.length = 20 ∧ wildRootBanner.take 4 ≠ IMET
    ∧ Access.read 0xFFFFFFFC ∈ parse_opening_banner_accesses wildRootBanner plainHeap
    ∧ in_bounds wildRootBanner plainHeap = false
    ∧ (parse_opening_banner (some wildRootBanner) plainHeap (some staleBanner)).2.map
        (fun r => (r.texture_width, r.texture_height, r.rgba_size)) = some (0, 0, 0)
    ∧ (parse_opening_banner (some wildRootBanner) wildRootHeap (some staleBanner)).2.map
        (fun r => (r.texture_width, r.texture_height, r.rgba_size)) = some (4, 4, 64) := by
  refine ⟨by decide, by decide, by decide, by decide, by decide, by decide⟩

/-! ## The end-to-end claim -/

/-- C23: for a banner file with "IMET" at offset 0, "Test Game" in UTF-16BE (and a zero
code unit) at 0x80, "Test Co" likewise at 0xC0, the first archive magic at offset 0x600,
a well-formed node array there whose first accepted file node is named "banner.tpl", and
at that node's data-offset a texture container with the texture magic, image count >= 1
and a first descriptor declaring height 4, width 4 and format 14, all of it inside the
file, so that every access of the call stays in bounds (`in_bounds`): when the two buffers
can be allocated the call returns true, whatever the memory after the file buffer holds,
with game_title "Test Game", game_subtitle "Test Co", texture_width 4, texture_height 4,
rgba_size 64 and an RGBA buffer of 64 bytes. -/
theorem end_to_end (bytes : List Nat) (heap : Heap) (result : BannerData)
    (names : Nat → List Nat) (k : Nat)
    (hbytes : ∀ b ∈ bytes, b < 256) (h64 : bytes.length < 2 ^ 64) (hlen : 0x604 < bytes.length)
    (hmalloc : heap.malloc_ok bytes.length = true) (hmalloc2 : heap.malloc_ok 64 = true)
    (hsafe : in_bounds bytes heap = true) (himet : bytes.take 4 = IMET)
    (htitle : (bytes.drop 0x80).take 20 = utf16be (ascii "Test Game") ++ [0, 0])
    (hsub : (bytes.drop 0xC0).take 16 = utf16be (ascii "Test Co") ++ [0, 0])
    (hmagic : read_u32_be (offsetPtr (file_buffer bytes heap) 0x600) = U8_MAGIC)
    (hfirst : ∀ j, j < 0x600 → read_u32_be (offsetPtr (file_buffer bytes heap) j) ≠ U8_MAGIC)
    (hsize : archiveNodeCount (offsetPtr (file_buffer bytes heap) 0x600) * 12 < 2 ^ 32)
    (htype : ∀ i, i < archiveNodeCount (offsetPtr (file_buffer bytes heap) 0x600) →
      nodeType (nodeAt (archiveNodes (offsetPtr (file_buffer bytes heap) 0x600)) i) = 0
        ∨ nodeType (nodeAt (archiveNodes (offsetPtr (file_buffer bytes heap) 0x600)) i) = 1)
    (hname : ∀ i, i < archiveNodeCount (offsetPtr (file_buffer bytes heap) 0x600) →
      nodeType (nodeAt (archiveNodes (offsetPtr (file_buffer bytes heap) 0x600)) i) = 0 →
      holdsCString (offsetPtr (archiveStrings (offsetPtr (file_buffer bytes heap) 0x600))
          (nameOffset (nodeAt (archiveNodes (offsetPtr (file_buffer bytes heap) 0x600)) i)))
          (names i)
        ∧ (names i).length < ADDRESS_SPACE)
    (hk : k < archiveNodeCount (offsetPtr (file_buffer bytes heap) 0x600))
    (hfile : nodeType (nodeAt (archiveNodes (offsetPtr (file_buffer bytes heap) 0x600)) k) = 0)
    (hnm : names k = BANNER_TPL)
    (hfirstnode : ∀ j, j < k →
      ¬ (nodeType (nodeAt (archiveNodes (offsetPtr (file_buffer bytes heap) 0x600)) j) = 0
        ∧ wantedName (names j)))
    (htpl : read_u32_be (entryData (offsetPtr (file_buffer bytes heap) 0x600)
      (nodeAt (archiveNodes (offsetPtr (file_buffer bytes heap) 0x600)) k)) = 0x0020AF30)
    (hnum : 1 ≤ read_u32_be (offsetPtr (entryData (offsetPtr (file_buffer bytes heap) 0x600)
      (nodeAt (archiveNodes (offsetPtr (file_buffer bytes heap) 0x600)) k)) 0x04))
    (hh : read_u16_be (firstDescriptor (entryData (offsetPtr (file_buffer bytes heap) 0x600)
      (nodeAt (archiveNodes (offsetPtr (file_buffer bytes heap) 0x600)) k))) = 4)
    (hw : read_u16_be (offsetPtr (firstDescriptor (entryData
      (offsetPtr (file_buffer bytes heap) 0x600)
      (nodeAt (archiveNodes (offsetPtr (file_buffer bytes heap) 0x600)) k))) 0x02) = 4)
    (hfmt : read_u32_be (offsetPtr (firstDescriptor (entryData
      (offsetPtr (file_buffer bytes heap) 0x600)
      (nodeAt (archiveNodes (offsetPtr (file_buffer bytes heap) 0x600)) k))) 0x04) = 14) :
    ∃ r out, parse_opening_banner (some bytes) heap (some result) = (true, some r)
      ∧ (∀ beyond, parse_opening_banner (some bytes) { heap with beyond := beyond }
          (some result) = (true, some r))
      ∧ cstr r.game_title = ascii "Test Game" ∧ cstr r.game_subtitle = ascii "Test Co"
      ∧ r.texture_width = 4 ∧ r.texture_height = 4 ∧ r.rgba_size = 64
      ∧ r.rgba_data = some out ∧ out.length = 64 := by
  -- the two texts
  obtain ⟨r, hr, -, -, ht, hs⟩ := parse_opening_banner_texts bytes heap result hmalloc
  have hi : bytesOf (file_buffer bytes heap) 4 = IMET := by
    rw [imet_test bytes heap (by omega) hbytes, himet]
  rw [if_pos hi] at ht hs
  have htext : cstr r.game_title = ascii "Test Game" := by
    rw [ht, utf16be_to_utf8_cstr _ _ (by simp),
      bytesOf_file_buffer bytes heap 0x80 64 (by omega) hbytes]
    refine lossyText_utf16be _ _ (by decide) (by decide) ?_
    rw [List.take_take]
    exact htitle
  have hsubt : cstr r.game_subtitle = ascii "Test Co" := by
    rw [hs, utf16be_to_utf8_cstr _ _ (by simp),
      bytesOf_file_buffer bytes heap 0xC0 64 (by omega) hbytes]
    refine lossyText_utf16be _ _ (by decide) (by decide) ?_
    rw [List.take_take]
    exact hsub
  -- the archive walk and the texture step
  obtain ⟨r0, -, -, -, -, hp⟩ := parse_opening_banner_archive bytes heap result 0x600 hmalloc
    (by norm_num) (by omega) h64 hmagic hfirst
  unfold archiveStrings at hname
  unfold archiveNodeCount archiveNodes at hsize htype hname hk
  unfold archiveNodes at hfile hfirstnode htpl hnum hh hw hfmt
  unfold entryData at htpl hnum hh hw hfmt
  unfold firstDescriptor at hh hw hfmt
  rw [Nat.mod_eq_of_lt hsize,
    node_loop_lookup _ _ _ heap r0 _ names hsize htype hname k hk hfile (Or.inl hnm) hfirstnode,
    decode_texture_cmpr _ _ heap r0 _ _ _ 4 4 rfl htpl hnum rfl hh hw hfmt rfl hmalloc2] at hp
  rw [hr] at hp
  have hrr := Option.some.inj (Prod.mk.inj hp).2
  have hd := congrArg BannerData.rgba_data hrr
  refine ⟨r, _, hr,
    fun beyond => (parse_opening_banner_agree bytes heap beyond _ h64 hsafe).trans hr,
    htext, hsubt, ?_, ?_, ?_, hd, ?_⟩
  · rw [hrr]
  · rw [hrr]
  · rw [hrr]
    rfl
  · rw [store_all_length]
    simp [fresh_block]

set_option maxRecDepth 100000 in
/-- Instance of C23: the file `testGameBanner`, whose archive at 0x600 has the root
directory and the file "banner.tpl" (node 1) with a 4x4 texture of format 14. -/
theorem end_to_end_witness :
    in_bounds testGameBanner plainHeap = true
    ∧ ∃ r out, parse_opening_banner (some testGameBanner) plainHeap (some staleBanner)
        = (true, some r)
      ∧ (∀ beyond, parse_opening_banner (some testGameBanner)
          { plainHeap with beyond := beyond } (some staleBanner) = (true, some r))
      ∧ cstr r.game_title = ascii "Test Game" ∧ cstr r.game_subtitle = ascii "Test Co"
      ∧ r.texture_width = 4 ∧ r.texture_height = 4 ∧ r.rgba_size = 64
      ∧ r.rgba_data = some out ∧ out.length = 64 :=
  ⟨testGameBanner_in_bounds,
    end_to_end testGameBanner plainHeap staleBanner (fun i => if i = 1 then BANNER_TPL else []) 1
      testGameBanner_bytes (by decide) (by decide) rfl rfl testGameBanner_in_bounds (by decide)
      (by decide) (by decide) (by decide)
      (fun j hj => no_magic_in_prefix testGamePrefix _ plainHeap (by decide)
        (fun b hb => testGameBanner_bytes b (List.mem_append_left _ hb)) j
        (lt_of_lt_of_le hj (by decide)))
      (by decide) (by decide) (by decide) (by decide) (by decide) (by decide) (by decide)
      (by decide) (by decide) (by decide) (by decide) (by decide)⟩

end Orbiit
